import Mathlib

/-!
# ChangeTierRequest controller of the host-operator

A shallow embedding of `controllers/changetierrequest/changetierrequest_controller.go`.

* Go errors are values of `Err`; `errs.Wrapf` is the constructor `wrapped`.
* The API server behind `r.Client` is a `World`: one list of stored objects per
  resource kind plus the trace of client calls issued so far.  A call fails
  when the fault oracle of the environment says so (as the mock client of the
  tests does), otherwise it acts on the stored objects.
* `time.Duration` is a 64-bit signed number of nanoseconds: durations are
  integers and the one subtraction of the controller wraps around.
* A Go pointer that a function mutates (`changeTierRequest`) is returned
  next to the function's results.
-/

namespace HostOperator

/-! ## Errors -/

/-- Go `error` values the controller meets: API errors (not-found or other),
errors made by `fmt.Errorf`, and `errs.Wrapf` around a cause. -/
inductive Err where
  | notFound (msg : String)
  | other (msg : String)
  | wrapped (msg : String) (cause : Err)
  deriving DecidableEq, Repr

/-- Method `err.Error()`: a wrapped error prints as `<message>: <cause>`. -/
def Err.Error : Err → String
  | .notFound m => m
  | .other m => m
  | .wrapped m c => m ++ ": " ++ c.Error

/-- Function `errors.IsNotFound` of apimachinery. -/
def IsNotFound : Err → Bool
  | .notFound _ => true
  | .other _ => false
  | .wrapped _ c => IsNotFound c

/-- Function `errs.Wrapf(err, format, args...)`, the format already applied to its arguments. -/
def Wrapf (err : Err) (message : String) : Err := .wrapped message err

/-! ## Time -/

/-- Smallest `time.Duration`. -/
def minDuration : Int := -(2 ^ 63)

/-- Largest `time.Duration`. -/
def maxDuration : Int := 2 ^ 63 - 1

/-- A value that fits the 64-bit signed `time.Duration`. -/
def isDuration (x : Int) : Prop := minDuration ≤ x ∧ x ≤ maxDuration

instance (x : Int) : Decidable (isDuration x) := by unfold isDuration; infer_instance

/-- Two's complement wrap-around of 64-bit signed arithmetic. -/
def wrapDuration (x : Int) : Int := (x + 2 ^ 63) % 2 ^ 64 - 2 ^ 63

/-- Subtraction of two `time.Duration` values, as Go computes it. -/
def durationSub (a b : Int) : Int := wrapDuration (a - b)

/-- Function `time.Since(t)` at wall-clock time `now` (both in nanoseconds):
`now.Sub(t)`, which saturates at the smallest and largest duration. -/
def timeSince (now t : Int) : Int :=
  if now - t < minDuration then minDuration
  else if maxDuration < now - t then maxDuration
  else now - t

/-! ## Resources -/

/-- Namespaced name of a resource (`types.NamespacedName`). -/
structure Key where
  ns : String
  name : String
  deriving DecidableEq, Repr

/-- Type `toolchainv1alpha1.Condition`. -/
structure Condition where
  type : String
  status : String
  reason : String
  message : String
  lastTransitionTime : Int
  deriving DecidableEq, Repr

/-- Value `corev1.ConditionTrue`. -/
def ConditionTrue : String := "True"

/-- Value `corev1.ConditionFalse`. -/
def ConditionFalse : String := "False"

/-- Condition type `toolchainv1alpha1.ChangeTierRequestComplete`. -/
def ChangeTierRequestComplete : String := "Complete"

/-- Condition type `toolchainv1alpha1.ChangeTierRequestDeletionError`. -/
def ChangeTierRequestDeletionError : String := "DeletionError"

/-- Reason `toolchainv1alpha1.ChangeTierRequestChangedReason`. -/
def ChangeTierRequestChangedReason : String := "Changed"

/-- Reason `toolchainv1alpha1.ChangeTierRequestChangeFailedReason`. -/
def ChangeTierRequestChangeFailedReason : String := "ChangeFailed"

/-- Reason `toolchainv1alpha1.ChangeTierRequestDeletionErrorReason`. -/
def ChangeTierRequestDeletionErrorReason : String := "UnableToDeleteChangeTierRequest"

/-- Label key `toolchainv1alpha1.MasterUserRecordOwnerLabelKey`. -/
def MasterUserRecordOwnerLabelKey : String := "toolchain.dev.openshift.com/owner"

/-- State `toolchainv1alpha1.UserSignupStateDeactivating`. -/
def UserSignupStateDeactivating : String := "deactivating"

/-- Type `toolchainv1alpha1.ChangeTierRequestSpec`. -/
structure ChangeTierRequestSpec where
  MurName : String
  TierName : String
  TargetCluster : String
  deriving DecidableEq, Repr

/-- Type `toolchainv1alpha1.ChangeTierRequest`: metadata, spec and the status conditions. -/
structure ChangeTierRequest where
  ns : String
  name : String
  spec : ChangeTierRequestSpec
  conditions : List Condition
  deriving DecidableEq, Repr

/-- Type `toolchainv1alpha1.NSTemplateTier`: its name and the template references of its spec. -/
structure NSTemplateTier where
  ns : String
  name : String
  namespaces : List String
  clusterResources : Option String
  deriving DecidableEq, Repr

/-- Type `toolchainv1alpha1.NSTemplateSetSpec`. -/
structure NSTemplateSetSpec where
  TierName : String
  namespaces : List String
  clusterResources : Option String
  deriving DecidableEq, Repr

/-- Type `toolchainv1alpha1.UserAccountEmbedded`: the target cluster and the embedded
spec (`NSLimit` and the optional `NSTemplateSet`). -/
structure UserAccountEmbedded where
  TargetCluster : String
  NSLimit : String
  NSTemplateSet : Option NSTemplateSetSpec
  deriving DecidableEq, Repr

/-- Type `toolchainv1alpha1.MasterUserRecord`: metadata with labels, and the spec. -/
structure MasterUserRecord where
  ns : String
  name : String
  Labels : List (String × String)
  UserID : String
  Disabled : Bool
  TierName : String
  UserAccounts : List UserAccountEmbedded
  deriving DecidableEq, Repr

/-- Type `toolchainv1alpha1.Space`. -/
structure Space where
  ns : String
  name : String
  Labels : List (String × String)
  TierName : String
  TargetCluster : String
  deriving DecidableEq, Repr

/-- Type `toolchainv1alpha1.UserSignup`: metadata and the states of its spec. -/
structure UserSignup where
  ns : String
  name : String
  States : List String
  deriving DecidableEq, Repr

/-! ## Go maps of labels -/

/-- Lookup `m[k]` in a label map, with the `found` flag as `Option`. -/
def mapGet : List (String × String) → String → Option String
  | [], _ => none
  | (k', v) :: rest, k => if k' = k then some v else mapGet rest k

/-- Builtin `delete(m, k)`. -/
def mapDelete (m : List (String × String)) (k : String) : List (String × String) :=
  m.filter (fun p => p.1 ≠ k)

/-- Assignment `m[k] = v`. -/
def mapSet (m : List (String × String)) (k v : String) : List (String × String) :=
  (k, v) :: mapDelete m k

/-! ## Package `condition` of toolchain-common -/

/-- Function `condition.FindConditionByType`: the first condition of the given type. -/
def FindConditionByType : List Condition → String → Option Condition
  | [], _ => none
  | cond :: rest, conditionType =>
    if cond.type = conditionType then some cond else FindConditionByType rest conditionType

/-- The loop of `addOrUpdateStatusCondition` over the existing conditions: the first
condition of the same type is kept when status, reason and message are equal, and
replaced otherwise (keeping its transition time when the status is the same);
without such a condition the new one is appended. -/
def addOrUpdateLoop (newCondition : Condition) : List Condition → List Condition × Bool
  | [] => ([newCondition], true)
  | cond :: rest =>
    if cond.type = newCondition.type then
      if cond.status = newCondition.status ∧ cond.reason = newCondition.reason
          ∧ cond.message = newCondition.message then
        (cond :: rest, false)
      else if newCondition.status = cond.status then
        ({ newCondition with lastTransitionTime := cond.lastTransitionTime } :: rest, true)
      else
        (newCondition :: rest, true)
    else
      let r := addOrUpdateLoop newCondition rest
      (cond :: r.1, r.2)

/-- Function `addOrUpdateStatusCondition`: stamps the new condition with the current time first. -/
def addOrUpdateStatusCondition (now : Int) (conditions : List Condition)
    (newCondition : Condition) : List Condition × Bool :=
  addOrUpdateLoop { newCondition with lastTransitionTime := now } conditions

/-- Function `condition.AddOrUpdateStatusConditions`. -/
def AddOrUpdateStatusConditions (now : Int) :
    List Condition → List Condition → List Condition × Bool
  | conditions, [] => (conditions, false)
  | conditions, cond :: rest =>
    let r := addOrUpdateStatusCondition now conditions cond
    let r' := AddOrUpdateStatusConditions now r.1 rest
    (r'.1, r.2 || r'.2)

/-! ## Package `states` of toolchain-common -/

/-- Function `states.Deactivating`. -/
def Deactivating (userSignup : UserSignup) : Bool :=
  userSignup.States.contains UserSignupStateDeactivating

/-- Function `states.SetDeactivating`: appends the state when it is to be set and absent,
removes its first occurrence when it is to be cleared and present. -/
def SetDeactivating (userSignup : UserSignup) (val : Bool) : UserSignup :=
  if val then
    if userSignup.States.contains UserSignupStateDeactivating then userSignup
    else { userSignup with States := userSignup.States ++ [UserSignupStateDeactivating] }
  else
    if userSignup.States.contains UserSignupStateDeactivating then
      { userSignup with States := userSignup.States.erase UserSignupStateDeactivating }
    else userSignup

/-! ## The client and the stored resources -/

/-- A call of the controller on `r.Client`, with the object it sends. -/
inductive Call where
  | getChangeTierRequest (key : Key)
  | getNSTemplateTier (key : Key)
  | getMasterUserRecord (key : Key)
  | getSpace (key : Key)
  | getUserSignup (key : Key)
  | updateMasterUserRecord (obj : MasterUserRecord)
  | updateSpace (obj : Space)
  | updateUserSignup (obj : UserSignup)
  | statusUpdate (obj : ChangeTierRequest)
  | delete (obj : ChangeTierRequest)
  deriving DecidableEq, Repr

/-- The stored resources of every kind and the trace of the client calls, oldest first. -/
structure World where
  changeTierRequests : List ChangeTierRequest
  nsTemplateTiers : List NSTemplateTier
  masterUserRecords : List MasterUserRecord
  spaces : List Space
  userSignups : List UserSignup
  calls : List Call
  deriving DecidableEq, Repr

/-- What the controller takes from outside its own file: the faults of the API server
(`none`: the call goes through), the clock, the result of `toolchainconfig.GetToolchainConfig`
reduced to `config.Tiers().DurationBeforeChangeTierRequestDeletion()`, and the functions
`usersignup.NewNSTemplateSetSpec`, `tierutil.ComputeHashForNSTemplateSetSpec` and
`tierutil.TemplateTierHashLabelKey`. -/
structure Env where
  faults : Call → Option Err
  now : Int
  GetToolchainConfig : Except Err Int
  NewNSTemplateSetSpec : NSTemplateTier → NSTemplateSetSpec
  ComputeHashForNSTemplateSetSpec : NSTemplateSetSpec → Except Err String
  TemplateTierHashLabelKey : String → String

/-- The stored object with the given namespaced name, if any. -/
def lookupKey {α : Type} (keyOf : α → Key) (xs : List α) (key : Key) : Option α :=
  xs.find? (fun x => keyOf x = key)

/-- The store after the object with the key of `obj` is overwritten by `obj`. -/
def replaceKey {α : Type} (keyOf : α → Key) (xs : List α) (obj : α) : List α :=
  xs.map (fun x => if keyOf x = keyOf obj then obj else x)

/-- The store without the object of the given key. -/
def removeKey {α : Type} (keyOf : α → Key) (xs : List α) (key : Key) : List α :=
  xs.filter (fun x => keyOf x ≠ key)

/-- Namespaced name of a ChangeTierRequest. -/
def ChangeTierRequest.key (o : ChangeTierRequest) : Key := ⟨o.ns, o.name⟩

/-- Namespaced name of an NSTemplateTier. -/
def NSTemplateTier.key (o : NSTemplateTier) : Key := ⟨o.ns, o.name⟩

/-- Namespaced name of a MasterUserRecord. -/
def MasterUserRecord.key (o : MasterUserRecord) : Key := ⟨o.ns, o.name⟩

/-- Namespaced name of a Space. -/
def Space.key (o : Space) : Key := ⟨o.ns, o.name⟩

/-- Namespaced name of a UserSignup. -/
def UserSignup.key (o : UserSignup) : Key := ⟨o.ns, o.name⟩

/-- The error of the API server for an absent object, as `apierrors.NewNotFound` prints it
for a resource of the API group `toolchain.dev.openshift.com`, to which all resources of the
controller belong. -/
def notFoundErr (resource : String) (key : Key) : Err :=
  .notFound (resource ++ ".toolchain.dev.openshift.com \"" ++ key.name ++ "\" not found")

/-- Appends a call to the trace. -/
def World.record (w : World) (c : Call) : World := { w with calls := w.calls ++ [c] }

/-- Result of a `Get`: the injected fault, else the stored object, else not-found. -/
def getOutcome {α : Type} (env : Env) (c : Call) (resource : String) (key : Key)
    (found : Option α) : Except Err α :=
  match env.faults c with
  | some e => .error e
  | none =>
    match found with
    | some x => .ok x
    | none => .error (notFoundErr resource key)

/-- Call `r.Client.Get` for a ChangeTierRequest. -/
def getChangeTierRequest (env : Env) (key : Key) (w : World) :
    Except Err ChangeTierRequest × World :=
  (getOutcome env (.getChangeTierRequest key) "changetierrequests" key
    (lookupKey ChangeTierRequest.key w.changeTierRequests key),
   w.record (.getChangeTierRequest key))

/-- Call `r.Client.Get` for an NSTemplateTier. -/
def getNSTemplateTier (env : Env) (key : Key) (w : World) :
    Except Err NSTemplateTier × World :=
  (getOutcome env (.getNSTemplateTier key) "nstemplatetiers" key
    (lookupKey NSTemplateTier.key w.nsTemplateTiers key),
   w.record (.getNSTemplateTier key))

/-- Call `r.Client.Get` for a MasterUserRecord. -/
def getMasterUserRecord (env : Env) (key : Key) (w : World) :
    Except Err MasterUserRecord × World :=
  (getOutcome env (.getMasterUserRecord key) "masteruserrecords" key
    (lookupKey MasterUserRecord.key w.masterUserRecords key),
   w.record (.getMasterUserRecord key))

/-- Call `r.Client.Get` for a Space. -/
def getSpace (env : Env) (key : Key) (w : World) : Except Err Space × World :=
  (getOutcome env (.getSpace key) "spaces" key (lookupKey Space.key w.spaces key),
   w.record (.getSpace key))

/-- Call `r.Client.Get` for a UserSignup. -/
def getUserSignup (env : Env) (key : Key) (w : World) : Except Err UserSignup × World :=
  (getOutcome env (.getUserSignup key) "usersignups" key
    (lookupKey UserSignup.key w.userSignups key),
   w.record (.getUserSignup key))

/-- Call `r.Client.Update` for a MasterUserRecord: the injected fault, not-found when the
record is not stored, else the stored record is overwritten. -/
def updateMasterUserRecord (env : Env) (obj : MasterUserRecord) (w : World) :
    Option Err × World :=
  let w1 := w.record (.updateMasterUserRecord obj)
  match env.faults (.updateMasterUserRecord obj) with
  | some e => (some e, w1)
  | none =>
    match lookupKey MasterUserRecord.key w.masterUserRecords obj.key with
    | none => (some (notFoundErr "masteruserrecords" obj.key), w1)
    | some _ =>
      (none, { w1 with
        masterUserRecords := replaceKey MasterUserRecord.key w.masterUserRecords obj })

/-- Call `r.Client.Update` for a Space. -/
def updateSpace (env : Env) (obj : Space) (w : World) : Option Err × World :=
  let w1 := w.record (.updateSpace obj)
  match env.faults (.updateSpace obj) with
  | some e => (some e, w1)
  | none =>
    match lookupKey Space.key w.spaces obj.key with
    | none => (some (notFoundErr "spaces" obj.key), w1)
    | some _ => (none, { w1 with spaces := replaceKey Space.key w.spaces obj })

/-- Call `r.Client.Update` for a UserSignup. -/
def updateUserSignup (env : Env) (obj : UserSignup) (w : World) : Option Err × World :=
  let w1 := w.record (.updateUserSignup obj)
  match env.faults (.updateUserSignup obj) with
  | some e => (some e, w1)
  | none =>
    match lookupKey UserSignup.key w.userSignups obj.key with
    | none => (some (notFoundErr "usersignups" obj.key), w1)
    | some _ => (none, { w1 with userSignups := replaceKey UserSignup.key w.userSignups obj })

/-- Call `r.Client.Status().Update` for a ChangeTierRequest: only the status of the
stored request is overwritten. -/
def statusUpdate (env : Env) (obj : ChangeTierRequest) (w : World) : Option Err × World :=
  let w1 := w.record (.statusUpdate obj)
  match env.faults (.statusUpdate obj) with
  | some e => (some e, w1)
  | none =>
    match lookupKey ChangeTierRequest.key w.changeTierRequests obj.key with
    | none => (some (notFoundErr "changetierrequests" obj.key), w1)
    | some stored =>
      (none, { w1 with
        changeTierRequests := replaceKey ChangeTierRequest.key w.changeTierRequests
          { stored with conditions := obj.conditions } })

/-- Call `r.Client.Delete` for a ChangeTierRequest. -/
def deleteChangeTierRequest (env : Env) (obj : ChangeTierRequest) (w : World) :
    Option Err × World :=
  let w1 := w.record (.delete obj)
  match env.faults (.delete obj) with
  | some e => (some e, w1)
  | none =>
    match lookupKey ChangeTierRequest.key w.changeTierRequests obj.key with
    | none => (some (notFoundErr "changetierrequests" obj.key), w1)
    | some _ =>
      (none, { w1 with
        changeTierRequests := removeKey ChangeTierRequest.key w.changeTierRequests obj.key })

/-! ## The controller -/

/-- Type `reconcile.Result`. -/
structure Result where
  Requeue : Bool
  RequeueAfter : Int
  deriving DecidableEq, Repr

/-- A pointer to the request in memory and an `error` result, with the world after the calls. -/
abbrev Step := (ChangeTierRequest × Option Err) × World

/-- Method `updateStatusConditions`: the conditions of the request in memory are replaced,
and the status is sent to the API server only when a condition was added or updated. -/
def updateStatusConditions (env : Env) (changeRequest : ChangeTierRequest)
    (newConditions : List Condition) (w : World) : Step :=
  let r := AddOrUpdateStatusConditions env.now changeRequest.conditions newConditions
  let changeRequest := { changeRequest with conditions := r.1 }
  if r.2 = false then
    ((changeRequest, none), w)
  else
    let u := statusUpdate env changeRequest w
    ((changeRequest, u.1), u.2)

/-- Method `setStatusChangeComplete`. -/
def setStatusChangeComplete (env : Env) (changeRequest : ChangeTierRequest) (w : World) : Step :=
  updateStatusConditions env changeRequest
    [{ type := ChangeTierRequestComplete, status := ConditionTrue,
       reason := ChangeTierRequestChangedReason, message := "", lastTransitionTime := 0 }] w

/-- Method `setStatusChangeFailed`. -/
def setStatusChangeFailed (env : Env) (changeRequest : ChangeTierRequest) (message : String)
    (w : World) : Step :=
  updateStatusConditions env changeRequest
    [{ type := ChangeTierRequestComplete, status := ConditionFalse,
       reason := ChangeTierRequestChangeFailedReason, message := message,
       lastTransitionTime := 0 }] w

/-- Method `setStatusChangeTierRequestDeletionFailed`. -/
def setStatusChangeTierRequestDeletionFailed (env : Env) (changeRequest : ChangeTierRequest)
    (message : String) (w : World) : Step :=
  updateStatusConditions env changeRequest
    [{ type := ChangeTierRequestDeletionError, status := ConditionTrue,
       reason := ChangeTierRequestDeletionErrorReason, message := message,
       lastTransitionTime := 0 }] w

/-- Method `wrapErrorWithStatusUpdate`; `message` is `format` applied to `args`.  The error
of the status updater is only logged. -/
def wrapErrorWithStatusUpdate (changeRequest : ChangeTierRequest)
    (statusUpdater : ChangeTierRequest → String → World → Step) (err : Option Err)
    (message : String) (w : World) : Step :=
  match err with
  | none => ((changeRequest, none), w)
  | some err =>
    let r := statusUpdater changeRequest err.Error w
    ((r.1.1, some (Wrapf err message)), r.2)

/-- Method `checkTransitionTimeAndDelete`: whether the request was deleted, the time before
it can be deleted, and the error. -/
def checkTransitionTimeAndDelete (env : Env) (durationBeforeChangeTierRequestDeletion : Int)
    (changeTierRequest : ChangeTierRequest) (completeCond : Condition) (w : World) :
    (Bool × Int × Option Err) × World :=
  let timeSinceCompletion := timeSince env.now completeCond.lastTransitionTime
  if timeSinceCompletion ≥ durationBeforeChangeTierRequestDeletion then
    match deleteChangeTierRequest env changeTierRequest w with
    | (some err, w1) =>
      ((false, 0, some (Wrapf err
        ("unable to delete ChangeTierRequest object '" ++ changeTierRequest.name ++ "'"))), w1)
    | (none, w1) => ((true, 0, none), w1)
  else
    let diff := durationSub durationBeforeChangeTierRequestDeletion timeSinceCompletion
    ((false, diff, none), w)

/-- First loop of `changeTierInMasterUserRecord` over `mur.Spec.UserAccounts`: the user
accounts and labels after the loop, and the flag `changed`. -/
def changeUserAccounts (env : Env) (changeTierRequest : ChangeTierRequest)
    (newNsTemplateSet : NSTemplateSetSpec) :
    List UserAccountEmbedded → List (String × String) →
      List UserAccountEmbedded × List (String × String) × Bool
  | [], labels => ([], labels, false)
  | ua :: rest, labels =>
    match ua.NSTemplateSet with
    | none =>
      let r := changeUserAccounts env changeTierRequest newNsTemplateSet rest labels
      (ua :: r.1, r.2.1, r.2.2)
    | some old =>
      if changeTierRequest.spec.TargetCluster ≠ "" then
        if ua.TargetCluster = changeTierRequest.spec.TargetCluster then
          ({ ua with NSTemplateSet := some newNsTemplateSet } :: rest,
           mapDelete labels (env.TemplateTierHashLabelKey old.TierName), true)
        else
          let r := changeUserAccounts env changeTierRequest newNsTemplateSet rest labels
          (ua :: r.1, r.2.1, r.2.2)
      else
        let r := changeUserAccounts env changeTierRequest newNsTemplateSet rest
          (mapDelete labels (env.TemplateTierHashLabelKey old.TierName))
        ({ ua with NSTemplateSet := some newNsTemplateSet } :: r.1, r.2.1, true)

/-- Second loop of `changeTierInMasterUserRecord`: the hash label of every user account
with a template set is computed again; the first failing hash ends the loop. -/
def computeHashLabels (env : Env) :
    List UserAccountEmbedded → List (String × String) → Except Err (List (String × String))
  | [], labels => .ok labels
  | ua :: rest, labels =>
    match ua.NSTemplateSet with
    | none => computeHashLabels env rest labels
    | some nsTemplateSet =>
      match env.ComputeHashForNSTemplateSetSpec nsTemplateSet with
      | .error err => .error err
      | .ok hash =>
        computeHashLabels env rest
          (mapSet labels (env.TemplateTierHashLabelKey nsTemplateSet.TierName) hash)

/-- The request in memory, the `bool` and the `error` of a tier-change step, with the world. -/
abbrev ChangeStep := (ChangeTierRequest × Bool × Option Err) × World

/-- Return statement `return false, r.wrapErrorWithStatusUpdate(..., r.setStatusChangeFailed, err, ...)`. -/
def failWith (env : Env) (changeTierRequest : ChangeTierRequest) (err : Err) (message : String)
    (w : World) : ChangeStep :=
  let r := wrapErrorWithStatusUpdate changeTierRequest (setStatusChangeFailed env) (some err)
    message w
  ((r.1.1, false, r.1.2), r.2)

/-- Lines 224 to 241 of `changeTierInMasterUserRecord`, run after the record was updated:
the UserSignup named by the owner label is fetched and its deactivating state is reset. -/
def resetDeactivating (env : Env) (changeTierRequest : ChangeTierRequest)
    (namespace_ : String) (mur : MasterUserRecord) (w2 : World) : ChangeStep :=
  match mapGet mur.Labels MasterUserRecordOwnerLabelKey with
  | none =>
    failWith env changeTierRequest
      (.other ("MasterUserRecord is missing label '" ++ MasterUserRecordOwnerLabelKey ++ "'"))
      ("failed to get corresponding UserSignup for MasterUserRecord with name '"
        ++ changeTierRequest.spec.MurName ++ "'") w2
  | some userSignupName =>
    if userSignupName = "" then
      failWith env changeTierRequest
        (.other ("MasterUserRecord is missing label '" ++ MasterUserRecordOwnerLabelKey ++ "'"))
        ("failed to get corresponding UserSignup for MasterUserRecord with name '"
          ++ changeTierRequest.spec.MurName ++ "'") w2
    else
      match getUserSignup env ⟨namespace_, userSignupName⟩ w2 with
      | (.error err, w3) =>
        failWith env changeTierRequest err
          ("failed to get UserSignup '" ++ userSignupName ++ "'") w3
      | (.ok userSignupToUpdate, w3) =>
        if Deactivating userSignupToUpdate then
          match updateUserSignup env (SetDeactivating userSignupToUpdate false) w3 with
          | (some err, w4) =>
            failWith env changeTierRequest err
              ("failed to reset deactivating state for UserSignup '" ++ userSignupName
                ++ "'") w4
          | (none, w4) => ((changeTierRequest, true, none), w4)
        else ((changeTierRequest, true, none), w3)

/-- Method `changeTierInMasterUserRecord`. -/
def changeTierInMasterUserRecord (env : Env) (changeTierRequest : ChangeTierRequest)
    (namespace_ : String) (nsTemplateTier : NSTemplateTier) (w : World) : ChangeStep :=
  match getMasterUserRecord env ⟨namespace_, changeTierRequest.spec.MurName⟩ w with
  | (.error err, w1) =>
    if IsNotFound err then ((changeTierRequest, false, none), w1)
    else failWith env changeTierRequest err
      ("unable to get MasterUserRecord with name " ++ changeTierRequest.spec.MurName) w1
  | (.ok mur, w1) =>
    let newNsTemplateSet := env.NewNSTemplateSetSpec nsTemplateTier
    let loop := changeUserAccounts env changeTierRequest newNsTemplateSet mur.UserAccounts
      mur.Labels
    if loop.2.2 = false then
      failWith env changeTierRequest
        (.other ("the MasterUserRecord '" ++ changeTierRequest.spec.MurName
          ++ "' doesn't contain UserAccount with cluster '"
          ++ changeTierRequest.spec.TargetCluster ++ "' whose tier should be changed"))
        ("unable to change tier in MasterUserRecord " ++ changeTierRequest.spec.MurName) w1
    else
      match computeHashLabels env loop.1 loop.2.1 with
      | .error err =>
        failWith env changeTierRequest err
          ("unable to compute hash for NSTemplateTier with name '" ++ nsTemplateTier.name ++ "'")
          w1
      | .ok labels =>
        let mur := { mur with
          UserAccounts := loop.1, TierName := changeTierRequest.spec.TierName, Labels := labels }
        match updateMasterUserRecord env mur w1 with
        | (some err, w2) =>
          failWith env changeTierRequest err
            ("unable to change tier in MasterUserRecord " ++ changeTierRequest.spec.MurName) w2
        | (none, w2) =>
          resetDeactivating env changeTierRequest namespace_ mur w2

/-- Method `changeTierInSpace`. -/
def changeTierInSpace (env : Env) (changeTierRequest : ChangeTierRequest)
    (namespace_ : String) (w : World) : ChangeStep :=
  match getSpace env ⟨namespace_, changeTierRequest.spec.MurName⟩ w with
  | (.error err, w1) =>
    if IsNotFound err then ((changeTierRequest, false, none), w1)
    else failWith env changeTierRequest err
      ("unable to get Space with name " ++ changeTierRequest.spec.MurName) w1
  | (.ok space, w1) =>
    if space.TierName = changeTierRequest.spec.TierName then
      ((changeTierRequest, true, none), w1)
    else
      let space := { space with
        Labels := mapDelete space.Labels (env.TemplateTierHashLabelKey space.TierName),
        TierName := changeTierRequest.spec.TierName }
      match updateSpace env space w1 with
      | (some err, w2) =>
        failWith env changeTierRequest err
          ("unable to change tier in Space " ++ changeTierRequest.spec.MurName) w2
      | (none, w2) => ((changeTierRequest, true, none), w2)

/-- Method `changeTier`. -/
def changeTier (env : Env) (changeTierRequest : ChangeTierRequest) (namespace_ : String)
    (w : World) : Step :=
  match getNSTemplateTier env ⟨namespace_, changeTierRequest.spec.TierName⟩ w with
  | (.error err, w1) =>
    wrapErrorWithStatusUpdate changeTierRequest (setStatusChangeFailed env) (some err)
      ("unable to get NSTemplateTier with name " ++ changeTierRequest.spec.TierName) w1
  | (.ok nsTemplateTier, w1) =>
    match changeTierInMasterUserRecord env changeTierRequest namespace_ nsTemplateTier w1 with
    | ((changeTierRequest, _, some err), w2) => ((changeTierRequest, some err), w2)
    | ((changeTierRequest, murUpdated, none), w2) =>
      match changeTierInSpace env changeTierRequest namespace_ w2 with
      | ((changeTierRequest, _, some err), w3) => ((changeTierRequest, some err), w3)
      | ((changeTierRequest, spaceUpdated, none), w3) =>
        if murUpdated = false ∧ spaceUpdated = false then
          let cause := Err.other ("no MasterUserRecord nor Space named '"
            ++ changeTierRequest.spec.MurName ++ "' matching the ChangeTierRequest")
          match setStatusChangeFailed env changeTierRequest cause.Error w3 with
          | ((changeTierRequest, some err), w4) => ((changeTierRequest, some err), w4)
          | ((changeTierRequest, none), w4) => ((changeTierRequest, some cause), w4)
        else ((changeTierRequest, none), w3)

/-- Lines 90 to 103 of `Reconcile`, run when the request is not yet complete: the tier
change, then the completion status, then the requeue. -/
def reconcilePending (env : Env) (request : Key) (durationBeforeChangeTierRequestDeletion : Int)
    (changeTierRequest : ChangeTierRequest) (w : World) : (Result × Option Err) × World :=
  match changeTier env changeTierRequest request.ns w with
  | ((_, some err), w1) => ((⟨false, 0⟩, some err), w1)
  | ((changeTierRequest, none), w1) =>
    match setStatusChangeComplete env changeTierRequest w1 with
    | ((_, some err), w2) => ((⟨false, 0⟩, some err), w2)
    | ((_, none), w2) => ((⟨true, durationBeforeChangeTierRequestDeletion⟩, none), w2)

/-- Method `Reconcile` for the request of the given namespaced name. -/
def Reconcile (env : Env) (request : Key) (w : World) : (Result × Option Err) × World :=
  match env.GetToolchainConfig with
  | .error err => ((⟨false, 0⟩, some (Wrapf err "unable to get ToolchainConfig")), w)
  | .ok durationBeforeChangeTierRequestDeletion =>
    match getChangeTierRequest env request w with
    | (.error err, w1) =>
      if IsNotFound err then ((⟨false, 0⟩, none), w1)
      else ((⟨false, 0⟩, some err), w1)
    | (.ok changeTierRequest, w1) =>
      match FindConditionByType changeTierRequest.conditions ChangeTierRequestComplete with
      | some completeCond =>
        if completeCond.status = ConditionTrue then
          match checkTransitionTimeAndDelete env durationBeforeChangeTierRequestDeletion
              changeTierRequest completeCond w1 with
          | ((deleted, requeueAfter, err), w2) =>
            if deleted then ((⟨false, 0⟩, err), w2)
            else
              match err with
              | some err =>
                let r := wrapErrorWithStatusUpdate changeTierRequest
                  (setStatusChangeTierRequestDeletionFailed env) (some err)
                  "failed to delete changeTierRequest" w2
                ((⟨false, 0⟩, r.1.2), r.2)
              | none => ((⟨true, requeueAfter⟩, none), w2)
        else reconcilePending env request durationBeforeChangeTierRequestDeletion
          changeTierRequest w1
      | none => reconcilePending env request durationBeforeChangeTierRequestDeletion
          changeTierRequest w1

/-! ## Vocabulary of the statements -/

/-- The test of `Reconcile` for a completed request: a `Complete` condition is found
and its status is `True`. -/
def isComplete (conditions : List Condition) : Bool :=
  match FindConditionByType conditions ChangeTierRequestComplete with
  | some completeCond => decide (completeCond.status = ConditionTrue)
  | none => false

/-- The condition of the given type on the stored request of the given name, if any. -/
def storedCondition (w : World) (request : Key) (conditionType : String) : Option Condition :=
  match lookupKey ChangeTierRequest.key w.changeTierRequests request with
  | some stored => FindConditionByType stored.conditions conditionType
  | none => none

/-- Calls that read or write the ChangeTierRequest itself. -/
def Call.onRequest : Call → Bool
  | .getChangeTierRequest _ => true
  | .statusUpdate _ => true
  | .delete _ => true
  | _ => false

/-- From `w` to `w'` no tier, record, space or signup changed, and the calls issued in
between all read or write the ChangeTierRequest. -/
def requestOnly (w w' : World) : Prop :=
  w'.nsTemplateTiers = w.nsTemplateTiers ∧ w'.masterUserRecords = w.masterUserRecords
    ∧ w'.spaces = w.spaces ∧ w'.userSignups = w.userSignups
    ∧ ∃ new, w'.calls = w.calls ++ new ∧ ∀ c ∈ new, Call.onRequest c = true

/-- The record that `changeTierInMasterUserRecord` sends to the API server, given the
labels after both loops. -/
def changedRecord (env : Env) (changeTierRequest : ChangeTierRequest)
    (nsTemplateTier : NSTemplateTier) (mur : MasterUserRecord)
    (labels : List (String × String)) : MasterUserRecord :=
  { mur with
    UserAccounts := (changeUserAccounts env changeTierRequest
      (env.NewNSTemplateSetSpec nsTemplateTier) mur.UserAccounts mur.Labels).1,
    TierName := changeTierRequest.spec.TierName,
    Labels := labels }

/-- Calls that write a MasterUserRecord or a Space. -/
def Call.writesTarget : Call → Bool
  | .updateMasterUserRecord _ => true
  | .updateSpace _ => true
  | _ => false

/-- From `w` to `w'` the stored requests, tiers, records and spaces are the same. -/
def signupStep (w w' : World) : Prop :=
  w'.changeTierRequests = w.changeTierRequests ∧ w'.nsTemplateTiers = w.nsTemplateTiers
    ∧ w'.masterUserRecords = w.masterUserRecords ∧ w'.spaces = w.spaces

/-! ## Concrete inputs -/

/-- An environment without faults: the clock reads 100 and the retention duration is `d`. -/
def exEnv (d : Int) : Env where
  faults := fun _ => none
  now := 100
  GetToolchainConfig := .ok d
  NewNSTemplateSetSpec := fun t => ⟨t.name, t.namespaces, t.clusterResources⟩
  ComputeHashForNSTemplateSetSpec := fun s => .ok ("hash-of-" ++ s.TierName)
  TemplateTierHashLabelKey := fun t => "toolchain.dev.openshift.com/" ++ t ++ "-tier-hash"

/-- The environment `exEnv d` in which every `Delete` fails with the error "error". -/
def exEnvDeleteFails (d : Int) : Env :=
  { exEnv d with
    faults := fun c => match c with
      | .delete _ => some (.other "error")
      | _ => none }

/-- The environment `exEnv d` in which every status update fails. -/
def exEnvStatusFails (d : Int) : Env :=
  { exEnv d with
    faults := fun c => match c with
      | .statusUpdate _ => some (.other "status update failed")
      | _ => none }

/-- Name of the example request. -/
def exKey : Key := ⟨"toolchain-host", "request-name"⟩

/-- A pending request: move `john` to tier `team` on cluster `member-2`. -/
def exPending : ChangeTierRequest :=
  ⟨"toolchain-host", "request-name", ⟨"john", "team", "member-2"⟩, []⟩

/-- The same request, completed at time `t`. -/
def exCompleted (t : Int) : ChangeTierRequest :=
  { exPending with
    conditions := [⟨ChangeTierRequestComplete, ConditionTrue, ChangeTierRequestChangedReason,
      "", t⟩] }

/-- The tier `team`. -/
def exTier : NSTemplateTier := ⟨"toolchain-host", "team", ["team-dev", "team-stage"], some "team-cr"⟩

/-- The template set of tier `basic`. -/
def exBasicSet : NSTemplateSetSpec := ⟨"basic", ["basic-dev"], none⟩

/-- The record of `john`: three accounts on tier `basic`, the second on `member-2`. -/
def exRecord : MasterUserRecord :=
  ⟨"toolchain-host", "john",
   [("toolchain.dev.openshift.com/owner", "john"),
    ("toolchain.dev.openshift.com/basic-tier-hash", "hash-of-basic")],
   "user-1", false, "basic",
   [⟨"member-1", "default", some exBasicSet⟩, ⟨"member-2", "default", some exBasicSet⟩,
    ⟨"member-3", "default", none⟩]⟩

/-- The space of `john` on tier `basic`. -/
def exSpace : Space :=
  ⟨"toolchain-host", "john",
   [("toolchain.dev.openshift.com/basic-tier-hash", "hash-of-basic")], "basic", "member-2"⟩

/-- The signup of `john`, being deactivated. -/
def exSignup : UserSignup := ⟨"toolchain-host", "john", ["approved", "deactivating"]⟩

/-- A world that stores the given request with the tier, record, space and signup of `john`. -/
def exWorld (request : ChangeTierRequest) : World :=
  ⟨[request], [exTier], [exRecord], [exSpace], [exSignup], []⟩

/-- A world that stores the pending request and the tier, but no record and no space. -/
def exWorldNoTarget : World := ⟨[exPending], [exTier], [], [], [exSignup], []⟩

/-- A world without record whose space already has the tier `team`. -/
def exWorldSpaceDone : World :=
  ⟨[exPending], [exTier], [], [{ exSpace with TierName := "team", Labels := [] }], [exSignup], []⟩

/-- Calls that read or write a Space. -/
def Call.onSpace : Call → Bool
  | .getSpace _ => true
  | .updateSpace _ => true
  | _ => false

/-- From `w` to `w'` no space changed and no call read or wrote a space. -/
def spaceUntouched (w w' : World) : Prop :=
  w'.spaces = w.spaces
    ∧ ∃ new, w'.calls = w.calls ++ new ∧ ∀ c ∈ new, Call.onSpace c = false

/-- The record of `john` without an account on `member-2`. -/
def exRecordNoMatch : MasterUserRecord :=
  { exRecord with
    UserAccounts := [⟨"member-1", "default", some exBasicSet⟩, ⟨"member-3", "default", none⟩] }

/-- A world that stores the pending request and the tier, the record of `john` without
an account on `member-2`, and the space and signup of `john`. -/
def exWorldNoMatch : World :=
  ⟨[exPending], [exTier], [exRecordNoMatch], [exSpace], [exSignup], []⟩

/-- The hash label of a previous tier `old` on a stored record is settled: absent when no
user account of the record with a template set uses a tier of that name, and otherwise
present with the hash computed from the template set of such an account. -/
def oldTierLabelSettled (env : Env) (old : String) (stored : MasterUserRecord) : Prop :=
  ((∀ x ∈ stored.UserAccounts, ∀ s, x.NSTemplateSet = some s → s.TierName ≠ old) →
      mapGet stored.Labels (env.TemplateTierHashLabelKey old) = none)
    ∧ ((∃ x ∈ stored.UserAccounts, ∃ s, x.NSTemplateSet = some s ∧ s.TierName = old) →
        ∃ x ∈ stored.UserAccounts, ∃ s h, x.NSTemplateSet = some s ∧ s.TierName = old
          ∧ env.ComputeHashForNSTemplateSetSpec s = .ok h
          ∧ mapGet stored.Labels (env.TemplateTierHashLabelKey old) = some h)

/-- The environment `exEnv d` with a hash that depends on the template references of the
template set, as the hash of the tier does. -/
def exEnvRefs (d : Int) : Env :=
  { exEnv d with
    ComputeHashForNSTemplateSetSpec := fun s =>
      .ok (String.intercalate "," (s.namespaces ++ s.clusterResources.toList)) }

/-- A record of `john` whose first account is on an outdated revision of tier `team` and
whose second account, on `member-2`, is on tier `basic`. -/
def exRecordOutdated : MasterUserRecord :=
  ⟨"toolchain-host", "john",
   [("toolchain.dev.openshift.com/owner", "john"),
    ("toolchain.dev.openshift.com/team-tier-hash", "team-dev-old"),
    ("toolchain.dev.openshift.com/basic-tier-hash", "basic-dev")],
   "user-1", false, "team",
   [⟨"member-1", "default", some ⟨"team", ["team-dev-old"], none⟩⟩,
    ⟨"member-2", "default", some exBasicSet⟩]⟩

/-- A record of `john` with an account on tier `basic` and one, on `member-2`, on tier
`advanced`; the hash label of tier `basic` is not the hash of the first account. -/
def exRecordStale : MasterUserRecord :=
  ⟨"toolchain-host", "john",
   [("toolchain.dev.openshift.com/owner", "john"),
    ("toolchain.dev.openshift.com/basic-tier-hash", "stale"),
    ("toolchain.dev.openshift.com/advanced-tier-hash", "hash-of-advanced")],
   "user-1", false, "advanced",
   [⟨"member-1", "default", some exBasicSet⟩,
    ⟨"member-2", "default", some ⟨"advanced", ["advanced-dev"], none⟩⟩]⟩

/-- A world that stores the pending request, the tier, the given record, and the space and
signup of `john`. -/
def exWorldWith (record : MasterUserRecord) : World :=
  ⟨[exPending], [exTier], [record], [exSpace], [exSignup], []⟩

/-! ## The MasterUserRecord controller

The controller of `controllers/masteruserrecord` is not among the source files; only its
test is.  The definitions of this section are modelled from sections 3 and 4.1 to 4.3 of
the spec, with the names and messages that the test
`masteruserrecord_controller_test.go` shows.  Record stands for the MasterUserRecord,
replica for the UserAccount of the record in a member cluster, deletion guard for the
finalizer. -/

/-- Modelled from the spec: one second, the unit of the delays of the deletion
coordinator, in nanoseconds as every duration here. -/
def Second : Int := 1000000000

/-- Modelled from the spec: the fixed short delay of section 4.3, step 2 ("policy
default: 10 time units"), ten seconds in the test. -/
def deletionRequeue : Int := 10 * Second

/-- Modelled from the spec: the maximum wait of section 4.3, step 3, one minute. -/
def deletionMaxWait : Int := 60 * Second

/-- Modelled from the spec: the type of the aggregated condition of the record. -/
def ConditionReady : String := "Ready"

/-- Modelled from the spec: reason of the condition when the guard cannot be persisted. -/
def UnableToAddFinalizerReason : String := "UnableToAddFinalizer"

/-- Modelled from the spec: reason of the condition after a replica was created. -/
def ProvisioningReason : String := "Provisioning"

/-- Modelled from the spec: reason of the condition when the cluster does not resolve. -/
def TargetClusterNotReadyReason : String := "TargetClusterNotReady"

/-- Modelled from the spec: reason of the condition when the remote create fails. -/
def UnableToCreateUserAccountReason : String := "UnableToCreateUserAccount"

/-- Modelled from the spec: reason of the condition when the deletion of a replica fails. -/
def UnableToDeleteUserAccountsReason : String := "UnableToDeleteUserAccounts"

/-- Modelled from the spec: reason of the condition when the guard cannot be removed. -/
def UnableToRemoveFinalizerReason : String := "UnableToRemoveFinalizer"

/-- Modelled from the spec: the Replica of section 3, the UserAccount of the record in one
member cluster: the spec it mirrors and its deletion timestamp when a delete is in flight. -/
structure Replica where
  spec : UserAccountEmbedded
  deletionTimestamp : Option Int
  deriving DecidableEq, Repr

/-- Modelled from the spec: a ClusterRegistry entry of section 3: the cluster name, its
readiness, and (behind its store handle) the replica of the record, if any. -/
structure MemberCluster where
  name : String
  ready : Bool
  replica : Option Replica
  deriving DecidableEq, Repr

/-- Modelled from the spec: the Record of section 3 as far as the synchronizer and the
deletion coordinator use it: the classification key of its counter (the domain), the
deletion guard, the deletion-requested timestamp, the AccountRefs and the aggregated
conditions. -/
structure Record where
  name : String
  domain : String
  finalizer : Bool
  deletionTimestamp : Option Int
  accounts : List UserAccountEmbedded
  conditions : List Condition
  deriving DecidableEq, Repr

/-- Modelled from the spec: what a pass reads and writes: the stored record, the member
clusters with their replicas, and the two Counters of section 3. -/
structure Host where
  record : Record
  members : List MemberCluster
  userAccountCounts : List (String × Int)
  recordCounts : List (String × Int)
  deriving DecidableEq, Repr

/-- Modelled from the spec: the outside of a pass: the clock, and the remote calls that
fail (section 6): the update of the record, and the create and the delete of a replica
per cluster. -/
structure Remote where
  now : Int
  persist : Option Err
  create : String → Option Err
  delete : String → Option Err

/-- Modelled from the spec: the value of a counter, zero when the key is absent. -/
def counterGet : List (String × Int) → String → Int
  | [], _ => 0
  | (k', v) :: rest, k => if k' = k then v else counterGet rest k

/-- Modelled from the spec: a counter moved by `delta` (the mutation entry points
`onReplicaCreated`, `onReplicaDeleted` and `onRecordClassified` of section 4.5). -/
def counterAdd : List (String × Int) → String → Int → List (String × Int)
  | [], k, delta => [(k, delta)]
  | (k', v) :: rest, k, delta =>
    if k' = k then (k', v + delta) :: rest else (k', v) :: counterAdd rest k delta

/-- Modelled from the spec: `resolve` of the ClusterRouter (section 4.1): the registry
entry of the name, `ClusterNotFound` when absent, `ClusterNotReady` when not ready;
the messages are those of the test. -/
def resolve (members : List MemberCluster) (clusterName : String) : Except Err MemberCluster :=
  match members.find? (fun m => m.name = clusterName) with
  | none => .error (.other ("the member cluster " ++ clusterName ++ " not found in the registry"))
  | some m =>
    if m.ready then .ok m
    else .error (.other ("the member cluster " ++ clusterName ++ " is not ready"))

/-- Modelled from the spec: the member clusters after the replica of the named cluster is
set (created, marked for deletion) to `r`. -/
def setReplica (members : List MemberCluster) (clusterName : String) (r : Option Replica) :
    List MemberCluster :=
  members.map (fun m => if m.name = clusterName then { m with replica := r } else m)

/-- Modelled from the spec: the error written onto the aggregated condition of the
record: `Ready` is false with the reason and the message (sections 4.2 and 7). -/
def recordCondition (now : Int) (h : Host) (reason message : String) : Host :=
  { h with
    record := { h.record with
      conditions := (addOrUpdateStatusCondition now h.record.conditions
        { type := ConditionReady, status := ConditionFalse, reason := reason,
          message := message, lastTransitionTime := 0 }).1 } }

/-- Modelled from the spec: step 1 of the ReplicaSynchronizer (section 4.2): an absent
deletion guard is added and the record persisted first; when this persist fails the
condition gets the reason UnableToAddFinalizer and the error is returned, wrapped as in
the test, with nothing stored. -/
def ensureGuard (f : Remote) (h : Host) : Option Err × Host :=
  if h.record.finalizer then (none, h)
  else
    match f.persist with
    | some err =>
      (some (Wrapf err "failed while updating with added finalizer"),
       recordCondition f.now h UnableToAddFinalizerReason err.Error)
    | none => (none, { h with record := { h.record with finalizer := true } })

/-- Modelled from the spec: step 2 of the ReplicaSynchronizer (section 4.2), over the
AccountRefs in order: the cluster is resolved (the pass ends on failure, with the
condition TargetClusterNotReady); a missing replica is made from the AccountRef and
created remotely, the create is counted, and the pass stops there with success, without
going on to the further AccountRefs.  The condition after a create, Provisioning, is the
one of the test.  (The test `TestCreateMultipleUserAccountsSuccessful` has one pass create
the UserAccounts of both entries; the words of the spec, followed here, have it create the
first.)  The synchronization of a replica that exists (steps 3 to 5) is not modelled: the
replica is left as it is and the loop goes on. -/
def ensureReplicas (f : Remote) : List UserAccountEmbedded → Host → Option Err × Host
  | [], h => (none, h)
  | account :: rest, h =>
    match resolve h.members account.TargetCluster with
    | .error err =>
      (some (Wrapf err ("failed to get the member cluster '" ++ account.TargetCluster ++ "'")),
       recordCondition f.now h TargetClusterNotReadyReason err.Error)
    | .ok m =>
      match m.replica with
      | some _ => ensureReplicas f rest h
      | none =>
        match f.create account.TargetCluster with
        | some err =>
          (some (Wrapf err ("failed to create UserAccount in the member cluster '"
            ++ account.TargetCluster ++ "'")),
           recordCondition f.now h UnableToCreateUserAccountReason err.Error)
        | none =>
          (none,
           recordCondition f.now
            { h with
              members := setReplica h.members account.TargetCluster
                (some ⟨account, none⟩),
              userAccountCounts := counterAdd h.userAccountCounts account.TargetCluster 1 }
            ProvisioningReason "")

/-- Modelled from the spec: steps 1 to 3 of the DeletionCoordinator (section 4.3), over
the AccountRefs in order; `some` is the outcome that ends the pass, `none` says that no
replica remains.  A replica in deletion for longer than the maximum wait gives the
timeout error, otherwise the requeue after the short delay; a replica not in deletion is
deleted remotely, the delete is counted and the requeue follows.  The loop ends at the
first replica that still exists, as the test
`TestDeleteMultipleUserAccountsViaMasterUserRecordBeingDeleted` shows (one requeue per
replica).  Errors are written onto the condition and returned wrapped, as in the test. -/
def deleteReplicas (f : Remote) :
    List UserAccountEmbedded → Host → Option (Result × Option Err) × Host
  | [], h => (none, h)
  | account :: rest, h =>
    let failed := fun (err : Err) =>
      (some ((⟨false, 0⟩ : Result),
        some (Wrapf err ("failed to delete UserAccount in the member cluster '"
          ++ account.TargetCluster ++ "'"))),
       recordCondition f.now h UnableToDeleteUserAccountsReason err.Error)
    match resolve h.members account.TargetCluster with
    | .error err => failed err
    | .ok m =>
      match m.replica with
      | none => deleteReplicas f rest h
      | some r =>
        match r.deletionTimestamp with
        | some t =>
          if timeSince f.now t > deletionMaxWait then
            failed (.other "UserAccount deletion has not completed in over 1 minute")
          else (some (⟨true, deletionRequeue⟩, none), h)
        | none =>
          match f.delete account.TargetCluster with
          | some err => failed err
          | none =>
            (some (⟨true, deletionRequeue⟩, none),
             { h with
               members := setReplica h.members account.TargetCluster
                 (some { r with deletionTimestamp := some f.now }),
               userAccountCounts :=
                 counterAdd h.userAccountCounts account.TargetCluster (-1) })

/-- Modelled from the spec: a pass of the DeletionCoordinator (section 4.3) on a record
with the deletion guard: the replicas are deleted and waited for; once none remains
(step 4) the guard is removed and the record persisted, and on a successful persist the
counter of the domain of the record is decremented once; a failed persist leaves the
guard and the counter and returns the error with the condition UnableToRemoveFinalizer. -/
def deletionPass (f : Remote) (h : Host) : (Result × Option Err) × Host :=
  match deleteReplicas f h.record.accounts h with
  | (some outcome, h1) => (outcome, h1)
  | (none, h1) =>
    match f.persist with
    | some err =>
      ((⟨false, 0⟩,
        some (Wrapf err "failed to update MasterUserRecord while deleting finalizer")),
       recordCondition f.now h1 UnableToRemoveFinalizerReason err.Error)
    | none =>
      ((⟨false, 0⟩, none),
       { h1 with
         record := { h1.record with finalizer := false },
         recordCounts := counterAdd h1.recordCounts h1.record.domain (-1) })

/-- Modelled from the spec: one reconcile pass on the record (section 2): the
ReplicaSynchronizer when no deletion is requested, the DeletionCoordinator when it is
and the guard is present, and nothing otherwise. -/
def reconcileRecord (f : Remote) (h : Host) : (Result × Option Err) × Host :=
  match h.record.deletionTimestamp with
  | none =>
    match ensureGuard f h with
    | (some err, h1) => ((⟨false, 0⟩, some err), h1)
    | (none, h1) =>
      match ensureReplicas f h1.record.accounts h1 with
      | (some err, h2) => ((⟨false, 0⟩, some err), h2)
      | (none, h2) => ((⟨false, 0⟩, none), h2)
  | some _ =>
    if h.record.finalizer then deletionPass f h
    else ((⟨false, 0⟩, none), h)

/-- The replica of the record in the named cluster, if the cluster is registered. -/
def replicaOf (members : List MemberCluster) (clusterName : String) : Option Replica :=
  match members.find? (fun m => m.name = clusterName) with
  | some m => m.replica
  | none => none

/-- A remote side on which no call fails; the clock reads 100 seconds. -/
def exRemote : Remote where
  now := 100 * Second
  persist := none
  create := fun _ => none
  delete := fun _ => none

/-- The remote side `exRemote` on which the update of the record fails. -/
def exRemotePersistFails : Remote :=
  { exRemote with persist := some (.other "unable to add finalizer to MUR john") }

/-- The record of `john` with accounts on `member-1` and `member-2`, with or without the
deletion guard, marked for deletion or not. -/
def exJohn (finalizer : Bool) (deletionTimestamp : Option Int) : Record :=
  ⟨"john", "internal", finalizer, deletionTimestamp,
   [⟨"member-1", "default", some exBasicSet⟩, ⟨"member-2", "default", some exBasicSet⟩], []⟩

/-- The host with the given record and replicas in two ready member clusters; one other
UserAccount is counted in `member-1`, and one record per domain. -/
def exHost (record : Record) (replica1 replica2 : Option Replica) : Host :=
  ⟨record, [⟨"member-1", true, replica1⟩, ⟨"member-2", true, replica2⟩],
   [("member-1", 1), ("member-2", 0)], [("internal", 1), ("external", 1)]⟩

/-! ## Further vocabulary and inputs of the ChangeTierRequest controller -/

/-- The stored request of the given name exists and is not complete: the next pass on it
runs the tier change, not the expiry check. -/
def storedPending (w : World) (request : Key) : Prop :=
  ∃ s, lookupKey ChangeTierRequest.key w.changeTierRequests request = some s
    ∧ isComplete s.conditions = false

/-- A record of `john` with two accounts on `member-2`. -/
def exRecordTwice : MasterUserRecord :=
  { exRecord with
    UserAccounts := [⟨"member-1", "default", some exBasicSet⟩,
      ⟨"member-2", "first", some exBasicSet⟩, ⟨"member-2", "second", some exBasicSet⟩] }

/-- The world after the record step read the record of the request and stored the given
changed record: the two calls are in the trace and the record is overwritten. -/
def afterRecordUpdate (w : World) (key : Key) (record : MasterUserRecord) : World :=
  { (w.record (.getMasterUserRecord key)).record (.updateMasterUserRecord record) with
    masterUserRecords := replaceKey MasterUserRecord.key w.masterUserRecords record }

/-- The signup of `john`, not being deactivated. -/
def exSignupActive : UserSignup := ⟨"toolchain-host", "john", ["approved"]⟩

/-- The world `exWorld exPending` with the signup of `john` not being deactivated. -/
def exWorldActive : World :=
  ⟨[exPending], [exTier], [exRecord], [exSpace], [exSignupActive], []⟩

/-- The record of `john` without the owner label. -/
def exRecordNoOwner : MasterUserRecord :=
  { exRecord with Labels := [("toolchain.dev.openshift.com/basic-tier-hash", "hash-of-basic")] }

/-- A user account with the given template set in place of its own, if it has one. -/
def withTemplateSet (newNsTemplateSet : NSTemplateSetSpec) (ua : UserAccountEmbedded) :
    UserAccountEmbedded :=
  match ua.NSTemplateSet with
  | none => ua
  | some _ => { ua with NSTemplateSet := some newNsTemplateSet }

/-- A request to move `john` to tier `team` on every cluster. -/
def exPendingAll : ChangeTierRequest :=
  ⟨"toolchain-host", "request-name", ⟨"john", "team", ""⟩, []⟩

/-- A record of `john` none of whose accounts has a template set. -/
def exRecordBare : MasterUserRecord :=
  { exRecord with
    UserAccounts := [⟨"member-1", "default", none⟩, ⟨"member-2", "default", none⟩] }

/-- A world that stores the given request, the tier, the given record, and the space and
signup of `john`. -/
def exWorldOf (request : ChangeTierRequest) (record : MasterUserRecord) : World :=
  ⟨[request], [exTier], [record], [exSpace], [exSignup], []⟩

/-- The environment `exEnv d` in which every update of a Space fails. -/
def exEnvSpaceFails (d : Int) : Env :=
  { exEnv d with
    faults := fun c => match c with
      | .updateSpace _ => some (.other "space update failed")
      | _ => none }

/-- The host after `k` reconcile passes on the record, nothing else changing in between. -/
def passes (f : Remote) : Nat → Host → Host
  | 0, h => h
  | k + 1, h => (reconcileRecord f (passes f k h)).2

/-- A record of `john` on top-level tier `advanced` whose account on `member-2` already has
the template set of tier `team` (a request moved `member-2` to `team`, a later one moved
`member-1` to `advanced`). -/
def exRecordAlready : MasterUserRecord :=
  ⟨"toolchain-host", "john",
   [("toolchain.dev.openshift.com/owner", "john"),
    ("toolchain.dev.openshift.com/advanced-tier-hash", "hash-of-advanced"),
    ("toolchain.dev.openshift.com/team-tier-hash", "hash-of-team")],
   "user-1", false, "advanced",
   [⟨"member-1", "default", some ⟨"advanced", ["advanced-dev"], none⟩⟩,
    ⟨"member-2", "default", some ⟨"team", ["team-dev", "team-stage"], some "team-cr"⟩⟩]⟩

/-- A signup of `john` that lists the deactivating state twice. -/
def exSignupTwice : UserSignup :=
  ⟨"toolchain-host", "john", ["deactivating", "approved", "deactivating"]⟩

/-- The world `exWorld exPending` with the signup that lists the deactivating state twice. -/
def exWorldTwice : World :=
  ⟨[exPending], [exTier], [exRecord], [exSpace], [exSignupTwice], []⟩

/-! ## Stored objects -/

theorem lookupKey_key {α : Type} (keyOf : α → Key) (xs : List α) (key : Key) (x : α)
    (h : lookupKey keyOf xs key = some x) : keyOf x = key := by
  unfold lookupKey at h
  have := List.find?_some h
  simpa using this

theorem lookupKey_removeKey {α : Type} (keyOf : α → Key) (xs : List α) (key : Key) :
    lookupKey keyOf (removeKey keyOf xs key) key = none := by
  unfold lookupKey removeKey
  simp

theorem lookupKey_replaceKey {α : Type} (keyOf : α → Key) (xs : List α) (obj x : α)
    (h : lookupKey keyOf xs (keyOf obj) = some x) :
    lookupKey keyOf (replaceKey keyOf xs obj) (keyOf obj) = some obj := by
  unfold lookupKey replaceKey at *
  induction xs with
  | nil => simp at h
  | cons y ys ih =>
    by_cases hy : keyOf y = keyOf obj
    · simp only [List.map_cons, List.find?_cons, hy, if_true, decide_True]
    · simp only [List.map_cons, List.find?_cons, hy, if_false, decide_False] at h ⊢
      exact ih h

/-! ## Conditions -/

theorem addOrUpdateLoop_unchanged (nc : Condition) (conds : List Condition)
    (h : (addOrUpdateLoop nc conds).2 = false) : (addOrUpdateLoop nc conds).1 = conds := by
  induction conds with
  | nil => simp [addOrUpdateLoop] at h
  | cons c rest ih =>
    unfold addOrUpdateLoop at h ⊢
    split_ifs at h ⊢ <;> simp_all

theorem find_addOrUpdateLoop_same (nc : Condition) (conds : List Condition) :
    ∃ c, FindConditionByType (addOrUpdateLoop nc conds).1 nc.type = some c
      ∧ c.status = nc.status ∧ c.reason = nc.reason ∧ c.message = nc.message := by
  induction conds with
  | nil => exact ⟨nc, by simp [addOrUpdateLoop, FindConditionByType]⟩
  | cons c rest ih =>
    unfold addOrUpdateLoop
    split_ifs with h1 h2 h3
    · exact ⟨c, by simp [FindConditionByType, h1], h2.1, h2.2.1, h2.2.2⟩
    · exact ⟨{ nc with lastTransitionTime := c.lastTransitionTime },
        by simp [FindConditionByType], rfl, rfl, rfl⟩
    · exact ⟨nc, by simp [FindConditionByType], rfl, rfl, rfl⟩
    · obtain ⟨c', hc', hrest⟩ := ih
      exact ⟨c', by simp [FindConditionByType, h1, hc'], hrest⟩

theorem find_addOrUpdateLoop_other (nc : Condition) (conds : List Condition) (t : String)
    (ht : nc.type ≠ t) :
    FindConditionByType (addOrUpdateLoop nc conds).1 t = FindConditionByType conds t := by
  induction conds with
  | nil => simp [addOrUpdateLoop, FindConditionByType, ht]
  | cons c rest ih =>
    unfold addOrUpdateLoop
    split_ifs with h1 h2 h3
    · rfl
    · have : c.type ≠ t := by rw [h1]; exact ht
      simp [FindConditionByType, ht, this]
    · have : c.type ≠ t := by rw [h1]; exact ht
      simp [FindConditionByType, ht, this]
    · simp only [FindConditionByType, ih]

/-! ## Status updates -/

theorem requestOnly_refl (w : World) : requestOnly w w :=
  ⟨rfl, rfl, rfl, rfl, [], by simp, by simp⟩

theorem requestOnly_trans {w1 w2 w3 : World} (h12 : requestOnly w1 w2)
    (h23 : requestOnly w2 w3) : requestOnly w1 w3 := by
  obtain ⟨a1, a2, a3, a4, n1, hn1, hc1⟩ := h12
  obtain ⟨b1, b2, b3, b4, n2, hn2, hc2⟩ := h23
  refine ⟨b1.trans a1, b2.trans a2, b3.trans a3, b4.trans a4, n1 ++ n2, ?_, ?_⟩
  · rw [hn2, hn1, List.append_assoc]
  · intro c hc
    rcases List.mem_append.mp hc with h | h
    · exact hc1 c h
    · exact hc2 c h

theorem requestOnly_record (w : World) (c : Call) (hc : Call.onRequest c = true) :
    requestOnly w (w.record c) :=
  ⟨rfl, rfl, rfl, rfl, [c], rfl, by simpa using hc⟩

theorem requestOnly_statusUpdate (env : Env) (obj : ChangeTierRequest) (w : World) :
    requestOnly w (statusUpdate env obj w).2 := by
  have hrec := requestOnly_record w (.statusUpdate obj) rfl
  unfold statusUpdate
  cases env.faults (.statusUpdate obj) with
  | some e => exact hrec
  | none =>
    cases lookupKey ChangeTierRequest.key w.changeTierRequests obj.key with
    | none => exact hrec
    | some stored => exact hrec

theorem requestOnly_delete (env : Env) (obj : ChangeTierRequest) (w : World) :
    requestOnly w (deleteChangeTierRequest env obj w).2 := by
  have hrec := requestOnly_record w (.delete obj) rfl
  unfold deleteChangeTierRequest
  cases env.faults (.delete obj) with
  | some e => exact hrec
  | none =>
    cases lookupKey ChangeTierRequest.key w.changeTierRequests obj.key with
    | none => exact hrec
    | some stored => exact hrec

theorem requestOnly_updateStatusConditions (env : Env) (cr : ChangeTierRequest)
    (newConditions : List Condition) (w : World) :
    requestOnly w (updateStatusConditions env cr newConditions w).2 := by
  unfold updateStatusConditions
  by_cases h : (AddOrUpdateStatusConditions env.now cr.conditions newConditions).2 = false
  · simp only [h, if_true]
    exact requestOnly_refl w
  · simp only [h, if_false]
    exact requestOnly_statusUpdate env _ w

theorem AddOrUpdateStatusConditions_single (now : Int) (conds : List Condition)
    (nc : Condition) :
    AddOrUpdateStatusConditions now conds [nc] = addOrUpdateStatusCondition now conds nc := by
  simp [AddOrUpdateStatusConditions]

/-- What a status update with one new condition does when the request in memory is the
stored one: the request in memory carries the new conditions; without error the stored
request carries them too; with an error the stored requests are untouched; and without
fault of the API server there is no error. -/
theorem updateStatusConditions_stored (env : Env) (cr : ChangeTierRequest) (nc : Condition)
    (w : World)
    (hstored : lookupKey ChangeTierRequest.key w.changeTierRequests cr.key = some cr) :
    (updateStatusConditions env cr [nc] w).1.1
        = { cr with conditions := (addOrUpdateStatusCondition env.now cr.conditions nc).1 }
      ∧ ((updateStatusConditions env cr [nc] w).1.2 = none →
          lookupKey ChangeTierRequest.key
            (updateStatusConditions env cr [nc] w).2.changeTierRequests cr.key
            = some { cr with
                conditions := (addOrUpdateStatusCondition env.now cr.conditions nc).1 })
      ∧ ((updateStatusConditions env cr [nc] w).1.2 ≠ none →
          (updateStatusConditions env cr [nc] w).2.changeTierRequests = w.changeTierRequests)
      ∧ ((∀ obj, env.faults (.statusUpdate obj) = none) →
          (updateStatusConditions env cr [nc] w).1.2 = none) := by
  unfold updateStatusConditions
  rw [AddOrUpdateStatusConditions_single]
  by_cases h : (addOrUpdateStatusCondition env.now cr.conditions nc).2 = false
  · have hsame : (addOrUpdateStatusCondition env.now cr.conditions nc).1 = cr.conditions :=
      addOrUpdateLoop_unchanged _ _ h
    simp only [h, if_true, hsame]
    exact ⟨trivial, fun _ => hstored, fun _ => trivial, fun _ => trivial⟩
  · simp only [h, if_false]
    refine ⟨rfl, ?_, ?_, ?_⟩
    · intro herr
      unfold statusUpdate at herr ⊢
      cases hf : env.faults (.statusUpdate
          { cr with conditions := (addOrUpdateStatusCondition env.now cr.conditions nc).1 }) with
      | some e => simp [hf] at herr
      | none =>
        have hk : ChangeTierRequest.key
            { cr with conditions := (addOrUpdateStatusCondition env.now cr.conditions nc).1 }
            = cr.key := rfl
        simp only [hf, hk, hstored]
        exact lookupKey_replaceKey ChangeTierRequest.key w.changeTierRequests
          { cr with conditions := (addOrUpdateStatusCondition env.now cr.conditions nc).1 }
          cr hstored
    · intro herr
      unfold statusUpdate at herr ⊢
      cases hf : env.faults (.statusUpdate
          { cr with conditions := (addOrUpdateStatusCondition env.now cr.conditions nc).1 }) with
      | some e => simp [hf, World.record]
      | none =>
        have hk : ChangeTierRequest.key
            { cr with conditions := (addOrUpdateStatusCondition env.now cr.conditions nc).1 }
            = cr.key := rfl
        simp [hf, hk, hstored] at herr
    · intro hfaults
      unfold statusUpdate
      have hk : ChangeTierRequest.key
          { cr with conditions := (addOrUpdateStatusCondition env.now cr.conditions nc).1 }
          = cr.key := rfl
      simp [hfaults, hk, hstored]

/-! ## Expiry of a completed request -/

theorem wrapDuration_fits (x : Int) (hlo : minDuration ≤ x) (hhi : x ≤ maxDuration) :
    wrapDuration x = x := by
  unfold wrapDuration minDuration maxDuration at *
  have h : (x + 2 ^ 63) % 2 ^ 64 = x + 2 ^ 63 := Int.emod_eq_of_lt (by omega) (by omega)
  omega

theorem timeSince_isDuration (now t : Int) : isDuration (timeSince now t) := by
  unfold isDuration timeSince minDuration maxDuration
  split_ifs <;> constructor <;> omega

theorem requestOnly_checkTransitionTimeAndDelete (env : Env) (d : Int)
    (ctr : ChangeTierRequest) (completeCond : Condition) (w : World) :
    requestOnly w (checkTransitionTimeAndDelete env d ctr completeCond w).2 := by
  unfold checkTransitionTimeAndDelete
  have hdel := requestOnly_delete env ctr w
  dsimp only
  split_ifs
  · rcases hr : deleteChangeTierRequest env ctr w with ⟨_ | err, w1⟩
    · rw [hr] at hdel; exact hdel
    · rw [hr] at hdel; exact hdel
  · exact requestOnly_refl w

/-- Claim C1. A completed request whose elapsed time since completion has reached the
retention duration (equality included) is deleted when the delete call goes through:
the pass returns the empty result and no error, and the request is no longer stored. -/
theorem Reconcile_expired_deletes (env : Env) (request : Key) (w : World) (d : Int)
    (ctr : ChangeTierRequest) (completeCond : Condition)
    (hcfg : env.GetToolchainConfig = .ok d)
    (hfault : env.faults (.getChangeTierRequest request) = none)
    (hstored : lookupKey ChangeTierRequest.key w.changeTierRequests request = some ctr)
    (hfind : FindConditionByType ctr.conditions ChangeTierRequestComplete = some completeCond)
    (hstatus : completeCond.status = ConditionTrue)
    (hexp : d ≤ timeSince env.now completeCond.lastTransitionTime)
    (hdel : env.faults (.delete ctr) = none) :
    (Reconcile env request w).1 = (⟨false, 0⟩, none)
      ∧ lookupKey ChangeTierRequest.key (Reconcile env request w).2.changeTierRequests request
          = none
      ∧ (Reconcile env request w).2.changeTierRequests
          = removeKey ChangeTierRequest.key w.changeTierRequests request := by
  have hkey : ctr.key = request := lookupKey_key _ _ _ _ hstored
  have hstored' : lookupKey ChangeTierRequest.key w.changeTierRequests ctr.key = some ctr := by
    rw [hkey]; exact hstored
  have hR : Reconcile env request w = ((⟨false, 0⟩, none),
      { (w.record (.getChangeTierRequest request)).record (.delete ctr) with
        changeTierRequests := removeKey ChangeTierRequest.key w.changeTierRequests request }) := by
    simp [Reconcile, hcfg, getChangeTierRequest, getOutcome, hfault, hstored, hfind, hstatus,
      checkTransitionTimeAndDelete, hexp, deleteChangeTierRequest, hdel, World.record, hstored',
      hkey]
  rw [hR]
  exact ⟨rfl, lookupKey_removeKey _ _ _, rfl⟩

/-- Claim C1 at a request completed at time 70, read at time 100 with a retention of 30:
the elapsed time equals the retention and the request is deleted. -/
theorem Reconcile_expired_deletes_witness :
    (30 : Int) ≤ timeSince (exEnv 30).now 70
      ∧ (Reconcile (exEnv 30) exKey (exWorld (exCompleted 70))).1 = (⟨false, 0⟩, none)
      ∧ lookupKey ChangeTierRequest.key
          (Reconcile (exEnv 30) exKey (exWorld (exCompleted 70))).2.changeTierRequests exKey
          = none
      ∧ (Reconcile (exEnv 30) exKey (exWorld (exCompleted 70))).2.changeTierRequests
          = removeKey ChangeTierRequest.key (exWorld (exCompleted 70)).changeTierRequests exKey :=
  ⟨by decide,
   Reconcile_expired_deletes (exEnv 30) exKey (exWorld (exCompleted 70)) 30 (exCompleted 70)
    ⟨ChangeTierRequestComplete, ConditionTrue, ChangeTierRequestChangedReason, "", 70⟩
    rfl rfl (by decide) (by decide) rfl (by decide) rfl⟩

/-- Claim C2 at the failing input: with the largest retention duration and a completion
time one second ahead of the clock, the elapsed time `e` is below the retention `d`, and
the pass returns a requeue whose delay is the wrapped difference, a negative duration,
where the claim (and the comment of `checkTransitionTimeAndDelete`: "the time before the
changetierrequest can be deleted") has the positive delay `d - e`. -/
theorem Reconcile_requeue_delay_counterexample :
    timeSince (exEnv 9223372036854775807).now 1000000100 = -1000000000
      ∧ timeSince (exEnv 9223372036854775807).now 1000000100 < 9223372036854775807
      ∧ (Reconcile (exEnv 9223372036854775807) exKey (exWorld (exCompleted 1000000100))).1
          = (⟨true, -9223372035854775809⟩, none)
      ∧ (Reconcile (exEnv 9223372036854775807) exKey
            (exWorld (exCompleted 1000000100))).1.1.RequeueAfter
          ≠ 9223372036854775807 - timeSince (exEnv 9223372036854775807).now 1000000100
      ∧ ¬ 0 < (Reconcile (exEnv 9223372036854775807) exKey
            (exWorld (exCompleted 1000000100))).1.1.RequeueAfter := by
  decide

/-- A completed request whose elapsed time `e` is below the retention duration `d` is not
deleted and no delete call is issued (the only call is the read of the request); the pass
returns no error and a requeue after the difference `d - e` as 64-bit signed arithmetic
computes it.  That difference is exactly `d - e`, positive, and at most `d` when `e` is
not negative, provided it fits a 64-bit duration, which it does when `e` is not negative. -/
theorem Reconcile_not_expired_requeues (env : Env) (request : Key) (w : World) (d : Int)
    (ctr : ChangeTierRequest) (completeCond : Condition)
    (hcfg : env.GetToolchainConfig = .ok d)
    (hfault : env.faults (.getChangeTierRequest request) = none)
    (hstored : lookupKey ChangeTierRequest.key w.changeTierRequests request = some ctr)
    (hfind : FindConditionByType ctr.conditions ChangeTierRequestComplete = some completeCond)
    (hstatus : completeCond.status = ConditionTrue)
    (hyoung : timeSince env.now completeCond.lastTransitionTime < d) :
    (Reconcile env request w).1
        = (⟨true, durationSub d (timeSince env.now completeCond.lastTransitionTime)⟩, none)
      ∧ (Reconcile env request w).2.changeTierRequests = w.changeTierRequests
      ∧ (Reconcile env request w).2.calls = w.calls ++ [.getChangeTierRequest request]
      ∧ (isDuration d →
          (0 ≤ timeSince env.now completeCond.lastTransitionTime
            ∨ d - timeSince env.now completeCond.lastTransitionTime ≤ maxDuration) →
          durationSub d (timeSince env.now completeCond.lastTransitionTime)
              = d - timeSince env.now completeCond.lastTransitionTime
            ∧ 0 < d - timeSince env.now completeCond.lastTransitionTime
            ∧ (0 ≤ timeSince env.now completeCond.lastTransitionTime →
                d - timeSince env.now completeCond.lastTransitionTime ≤ d)) := by
  have hnot : ¬ d ≤ timeSince env.now completeCond.lastTransitionTime := by omega
  have hR : Reconcile env request w
      = ((⟨true, durationSub d (timeSince env.now completeCond.lastTransitionTime)⟩, none),
         w.record (.getChangeTierRequest request)) := by
    simp [Reconcile, hcfg, getChangeTierRequest, getOutcome, hfault, hstored, hfind, hstatus,
      checkTransitionTimeAndDelete, hnot]
  rw [hR]
  refine ⟨rfl, rfl, rfl, ?_⟩
  intro hd hfit
  have hfit2 : d - timeSince env.now completeCond.lastTransitionTime ≤ maxDuration := by
    rcases hfit with h | h
    · have := hd.2
      omega
    · exact h
  have hsub : durationSub d (timeSince env.now completeCond.lastTransitionTime)
      = d - timeSince env.now completeCond.lastTransitionTime := by
    unfold durationSub
    apply wrapDuration_fits _ _ hfit2
    unfold minDuration
    omega
  exact ⟨hsub, by omega, fun _ => by omega⟩

/-- At a request completed at time 80, read at time 100 with a retention of 30: the
request is kept and requeued after 10. -/
theorem Reconcile_not_expired_requeues_witness :
    (Reconcile (exEnv 30) exKey (exWorld (exCompleted 80))).1 = (⟨true, 10⟩, none)
      ∧ (Reconcile (exEnv 30) exKey (exWorld (exCompleted 80))).2.changeTierRequests
          = [exCompleted 80]
      ∧ (Reconcile (exEnv 30) exKey (exWorld (exCompleted 80))).2.calls
          = [.getChangeTierRequest exKey] :=
  have h := Reconcile_not_expired_requeues (exEnv 30) exKey (exWorld (exCompleted 80)) 30
    (exCompleted 80)
    ⟨ChangeTierRequestComplete, ConditionTrue, ChangeTierRequestChangedReason, "", 80⟩
    rfl rfl (by decide) rfl (by decide) (by decide)
  ⟨by rw [h.1]; rfl, h.2.1, h.2.2.1⟩

theorem storedCondition_of_lookup (w : World) (request : Key) (t : String)
    (stored : ChangeTierRequest)
    (h : lookupKey ChangeTierRequest.key w.changeTierRequests request = some stored) :
    storedCondition w request t = FindConditionByType stored.conditions t := by
  simp [storedCondition, h]

theorem deletionError_ne_complete :
    ChangeTierRequestDeletionError ≠ ChangeTierRequestComplete := by decide

/-- Claim C3, as stated, fails: when the delete of an expired request fails with the error
"error", the recorded DeletionError condition does not carry that message but the message
of the wrapped error. -/
theorem Reconcile_deletion_error_message_counterexample :
    (exEnvDeleteFails 30).faults (.delete (exCompleted 70)) = some (.other "error")
      ∧ (storedCondition (Reconcile (exEnvDeleteFails 30) exKey (exWorld (exCompleted 70))).2
          exKey ChangeTierRequestDeletionError).map (fun c => c.message)
          = some "unable to delete ChangeTierRequest object 'request-name': error"
      ∧ (storedCondition (Reconcile (exEnvDeleteFails 30) exKey (exWorld (exCompleted 70))).2
          exKey ChangeTierRequestDeletionError).map (fun c => c.message)
          ≠ some (Err.other "error").Error := by
  decide

/-- Claim C3, amended. When a completed request is due for deletion and the delete call
fails, the pass returns the empty result and the delete error wrapped twice; the stored
request keeps its Complete condition, so the next pass checks the expiry again; and when
the status update is not rejected the stored request has a DeletionError condition of
status True whose message is the delete error's message prefixed by
"unable to delete ChangeTierRequest object '<name>'" and ": ". -/
theorem Reconcile_delete_fails (env : Env) (request : Key) (w : World) (d : Int)
    (ctr : ChangeTierRequest) (completeCond : Condition) (err : Err)
    (hcfg : env.GetToolchainConfig = .ok d)
    (hfault : env.faults (.getChangeTierRequest request) = none)
    (hstored : lookupKey ChangeTierRequest.key w.changeTierRequests request = some ctr)
    (hfind : FindConditionByType ctr.conditions ChangeTierRequestComplete = some completeCond)
    (hstatus : completeCond.status = ConditionTrue)
    (hexp : d ≤ timeSince env.now completeCond.lastTransitionTime)
    (hdel : env.faults (.delete ctr) = some err) :
    (Reconcile env request w).1
        = (⟨false, 0⟩, some (Wrapf
            (Wrapf err ("unable to delete ChangeTierRequest object '" ++ ctr.name ++ "'"))
            "failed to delete changeTierRequest"))
      ∧ storedCondition (Reconcile env request w).2 request ChangeTierRequestComplete
          = some completeCond
      ∧ ((∀ obj, env.faults (.statusUpdate obj) = none) →
          ∃ c, storedCondition (Reconcile env request w).2 request
                ChangeTierRequestDeletionError = some c
            ∧ c.status = ConditionTrue
            ∧ c.reason = ChangeTierRequestDeletionErrorReason
            ∧ c.message = "unable to delete ChangeTierRequest object '" ++ ctr.name ++ "'" ++ ": "
                ++ err.Error) := by
  have hkey : ctr.key = request := lookupKey_key _ _ _ _ hstored
  have hR : Reconcile env request w
      = ((⟨false, 0⟩, some (Wrapf
            (Wrapf err ("unable to delete ChangeTierRequest object '" ++ ctr.name ++ "'"))
            "failed to delete changeTierRequest")),
         (updateStatusConditions env ctr
            [{ type := ChangeTierRequestDeletionError, status := ConditionTrue,
               reason := ChangeTierRequestDeletionErrorReason,
               message := "unable to delete ChangeTierRequest object '" ++ ctr.name ++ "'" ++ ": "
                 ++ err.Error,
               lastTransitionTime := 0 }]
            ((w.record (.getChangeTierRequest request)).record (.delete ctr))).2) := by
    simp [Reconcile, hcfg, getChangeTierRequest, getOutcome, hfault, hstored, hfind, hstatus,
      checkTransitionTimeAndDelete, hexp, deleteChangeTierRequest, hdel,
      wrapErrorWithStatusUpdate, setStatusChangeTierRequestDeletionFailed, Wrapf, Err.Error]
  have hstored2 : lookupKey ChangeTierRequest.key
      ((w.record (.getChangeTierRequest request)).record (.delete ctr)).changeTierRequests
      ctr.key = some ctr := by
    rw [hkey]; exact hstored
  obtain ⟨_, hok, hfail, hnofault⟩ := updateStatusConditions_stored env ctr
    { type := ChangeTierRequestDeletionError, status := ConditionTrue,
      reason := ChangeTierRequestDeletionErrorReason,
      message := "unable to delete ChangeTierRequest object '" ++ ctr.name ++ "'" ++ ": "
        ++ err.Error,
      lastTransitionTime := 0 }
    ((w.record (.getChangeTierRequest request)).record (.delete ctr)) hstored2
  rw [hR]
  refine ⟨rfl, ?_, ?_⟩
  · cases hres : (updateStatusConditions env ctr
        [{ type := ChangeTierRequestDeletionError, status := ConditionTrue,
           reason := ChangeTierRequestDeletionErrorReason,
           message := "unable to delete ChangeTierRequest object '" ++ ctr.name ++ "'" ++ ": "
             ++ err.Error,
           lastTransitionTime := 0 }]
        ((w.record (.getChangeTierRequest request)).record (.delete ctr))).1.2 with
    | none =>
      have h := hok hres
      rw [hkey] at h
      rw [storedCondition_of_lookup _ _ _ _ h]
      simp only [addOrUpdateStatusCondition]
      rw [find_addOrUpdateLoop_other _ _ _ deletionError_ne_complete]
      exact hfind
    | some e =>
      have h := hfail (by rw [hres]; simp)
      have h' : lookupKey ChangeTierRequest.key
          (updateStatusConditions env ctr
            [{ type := ChangeTierRequestDeletionError, status := ConditionTrue,
               reason := ChangeTierRequestDeletionErrorReason,
               message := "unable to delete ChangeTierRequest object '" ++ ctr.name ++ "'" ++ ": "
                 ++ err.Error,
               lastTransitionTime := 0 }]
            ((w.record (.getChangeTierRequest request)).record (.delete ctr))).2.changeTierRequests
          request = some ctr := by
        rw [h]; exact hstored
      rw [storedCondition_of_lookup _ _ _ _ h']
      exact hfind
  · intro hnf
    have h := hok (hnofault hnf)
    rw [hkey] at h
    rw [storedCondition_of_lookup _ _ _ _ h]
    simp only [addOrUpdateStatusCondition]
    exact find_addOrUpdateLoop_same _ _

/-- Claim C3, amended, at the request completed at time 70 and read at time 100 with a
retention of 30, the delete failing with "error". -/
theorem Reconcile_delete_fails_witness :
    (Reconcile (exEnvDeleteFails 30) exKey (exWorld (exCompleted 70))).1
        = (⟨false, 0⟩, some (Wrapf
            (Wrapf (.other "error")
              ("unable to delete ChangeTierRequest object '" ++ (exCompleted 70).name ++ "'"))
            "failed to delete changeTierRequest"))
      ∧ storedCondition (Reconcile (exEnvDeleteFails 30) exKey (exWorld (exCompleted 70))).2
          exKey ChangeTierRequestComplete
          = some ⟨ChangeTierRequestComplete, ConditionTrue, ChangeTierRequestChangedReason,
              "", 70⟩
      ∧ ∃ c, storedCondition (Reconcile (exEnvDeleteFails 30) exKey
              (exWorld (exCompleted 70))).2 exKey ChangeTierRequestDeletionError = some c
          ∧ c.status = ConditionTrue
          ∧ c.reason = ChangeTierRequestDeletionErrorReason
          ∧ c.message = "unable to delete ChangeTierRequest object '"
              ++ (exCompleted 70).name ++ "'" ++ ": " ++ (Err.other "error").Error :=
  have h := Reconcile_delete_fails (exEnvDeleteFails 30) exKey (exWorld (exCompleted 70)) 30
    (exCompleted 70)
    ⟨ChangeTierRequestComplete, ConditionTrue, ChangeTierRequestChangedReason, "", 70⟩
    (.other "error") rfl rfl (by decide) (by decide) rfl (by decide) rfl
  ⟨h.1, h.2.1, h.2.2 (fun _ => rfl)⟩

/-- Claim C4. A pass on a stored request whose Complete condition is True leaves the
stored MasterUserRecords, Spaces and UserSignups as they were, and every call it issues
reads or writes the ChangeTierRequest: the tier is never read. -/
theorem Reconcile_complete_frame (env : Env) (request : Key) (w : World)
    (ctr : ChangeTierRequest)
    (hstored : lookupKey ChangeTierRequest.key w.changeTierRequests request = some ctr)
    (hcomplete : isComplete ctr.conditions = true) :
    (Reconcile env request w).2.masterUserRecords = w.masterUserRecords
      ∧ (Reconcile env request w).2.spaces = w.spaces
      ∧ (Reconcile env request w).2.userSignups = w.userSignups
      ∧ ∃ new, (Reconcile env request w).2.calls = w.calls ++ new
          ∧ ∀ c ∈ new, Call.onRequest c = true := by
  have hgoal : requestOnly w (Reconcile env request w).2 := by
    unfold Reconcile
    cases hcfg : env.GetToolchainConfig with
    | error e => exact requestOnly_refl w
    | ok d =>
      have hrec := requestOnly_record w (.getChangeTierRequest request) rfl
      simp only [getChangeTierRequest, getOutcome, hstored]
      cases hf : env.faults (.getChangeTierRequest request) with
      | some e =>
        simp only
        split_ifs <;> exact hrec
      | none =>
        simp only
        unfold isComplete at hcomplete
        cases hfind : FindConditionByType ctr.conditions ChangeTierRequestComplete with
        | none => simp [hfind] at hcomplete
        | some completeCond =>
          simp only [hfind, decide_eq_true_eq] at hcomplete
          simp only [hcomplete, if_true]
          have hchk := requestOnly_checkTransitionTimeAndDelete env d ctr completeCond
            (w.record (.getChangeTierRequest request))
          rcases hres : checkTransitionTimeAndDelete env d ctr completeCond
            (w.record (.getChangeTierRequest request)) with ⟨⟨deleted, requeueAfter, err⟩, w2⟩
          rw [hres] at hchk
          have h02 := requestOnly_trans hrec hchk
          cases deleted with
          | true => exact h02
          | false =>
            cases err with
            | none => exact h02
            | some e =>
              simp only [wrapErrorWithStatusUpdate, setStatusChangeTierRequestDeletionFailed]
              exact requestOnly_trans h02 (requestOnly_updateStatusConditions env ctr _ w2)
  obtain ⟨_, h2, h3, h4, h5⟩ := hgoal
  exact ⟨h2, h3, h4, h5⟩

/-- Claim C4 at the completed request whose delete fails: record, space and signup of
`john` are stored as before. -/
theorem Reconcile_complete_frame_witness :
    (Reconcile (exEnvDeleteFails 30) exKey (exWorld (exCompleted 70))).2.masterUserRecords
        = [exRecord]
      ∧ (Reconcile (exEnvDeleteFails 30) exKey (exWorld (exCompleted 70))).2.spaces = [exSpace]
      ∧ (Reconcile (exEnvDeleteFails 30) exKey (exWorld (exCompleted 70))).2.userSignups
        = [exSignup] :=
  have h := Reconcile_complete_frame (exEnvDeleteFails 30) exKey (exWorld (exCompleted 70))
    (exCompleted 70) (by decide) (by decide)
  ⟨h.1, h.2.1, h.2.2.1⟩



/-! ## The steps of the tier change -/

theorem failWith_result (env : Env) (ctr : ChangeTierRequest) (err : Err) (message : String)
    (w : World) :
    (failWith env ctr err message w).1.2 = (false, some (Wrapf err message)) := by
  simp [failWith, wrapErrorWithStatusUpdate]

theorem failWith_world (env : Env) (ctr : ChangeTierRequest) (err : Err) (message : String)
    (w : World) :
    (failWith env ctr err message w).2
      = (setStatusChangeFailed env ctr err.Error w).2 := by
  simp [failWith, wrapErrorWithStatusUpdate]

theorem requestOnly_failWith (env : Env) (ctr : ChangeTierRequest) (err : Err)
    (message : String) (w : World) : requestOnly w (failWith env ctr err message w).2 := by
  rw [failWith_world]
  exact requestOnly_updateStatusConditions env ctr _ w

theorem signupStep_updateUserSignup (env : Env) (obj : UserSignup) (w : World) :
    signupStep w (updateUserSignup env obj w).2 := by
  unfold updateUserSignup
  cases env.faults (.updateUserSignup obj) with
  | some e => exact ⟨rfl, rfl, rfl, rfl⟩
  | none =>
    cases lookupKey UserSignup.key w.userSignups obj.key with
    | none => exact ⟨rfl, rfl, rfl, rfl⟩
    | some x => exact ⟨rfl, rfl, rfl, rfl⟩

/-- The tail of the record step either fails, or reports the record as processed and
leaves the request in memory and every stored request, tier, record and space as they were. -/
theorem resetDeactivating_cases (env : Env) (ctr : ChangeTierRequest) (ns : String)
    (mur : MasterUserRecord) (w : World) :
    (resetDeactivating env ctr ns mur w).1.2.2 ≠ none
      ∨ ((resetDeactivating env ctr ns mur w).1 = (ctr, true, none)
          ∧ signupStep w (resetDeactivating env ctr ns mur w).2) := by
  unfold resetDeactivating
  split
  · left; simp [failWith_result]
  · split
    · left; simp [failWith_result]
    · split
      · left; simp [failWith_result]
      · rename_i heq
        simp only [getUserSignup, Prod.mk.injEq] at heq
        obtain ⟨_, rfl⟩ := heq
        split
        · split
          · left; simp [failWith_result]
          · rename_i heq2
            right
            have hw := congrArg Prod.snd heq2
            simp only at hw
            subst hw
            exact ⟨rfl, signupStep_updateUserSignup env _ (World.record w _)⟩
        · right
          exact ⟨rfl, rfl, rfl, rfl, rfl⟩

theorem getOutcome_ok {α : Type} (env : Env) (c : Call) (resource : String) (key : Key)
    (found : Option α) (x : α) (h : getOutcome env c resource key found = .ok x) :
    env.faults c = none ∧ found = some x := by
  unfold getOutcome at h
  cases hf : env.faults c with
  | some e => simp [hf] at h
  | none =>
    cases found with
    | none => simp [hf] at h
    | some y =>
      simp only [hf, Except.ok.injEq] at h
      exact ⟨rfl, by rw [h]⟩

theorem updateMasterUserRecord_ok (env : Env) (obj : MasterUserRecord) (w w' : World)
    (h : updateMasterUserRecord env obj w = (none, w')) :
    env.faults (.updateMasterUserRecord obj) = none
      ∧ w'.masterUserRecords = replaceKey MasterUserRecord.key w.masterUserRecords obj
      ∧ w'.changeTierRequests = w.changeTierRequests
      ∧ w'.nsTemplateTiers = w.nsTemplateTiers
      ∧ w'.spaces = w.spaces
      ∧ w'.userSignups = w.userSignups := by
  unfold updateMasterUserRecord at h
  cases hf : env.faults (.updateMasterUserRecord obj) with
  | some e => simp [hf] at h
  | none =>
    cases hl : lookupKey MasterUserRecord.key w.masterUserRecords obj.key with
    | none => simp [hf, hl] at h
    | some x =>
      simp only [hf, hl, Prod.mk.injEq, true_and] at h
      subst h
      exact ⟨rfl, rfl, rfl, rfl, rfl, rfl⟩

theorem updateSpace_ok (env : Env) (obj : Space) (w w' : World)
    (h : updateSpace env obj w = (none, w')) :
    env.faults (.updateSpace obj) = none
      ∧ w'.spaces = replaceKey Space.key w.spaces obj
      ∧ w'.changeTierRequests = w.changeTierRequests
      ∧ w'.nsTemplateTiers = w.nsTemplateTiers
      ∧ w'.masterUserRecords = w.masterUserRecords
      ∧ w'.userSignups = w.userSignups := by
  unfold updateSpace at h
  cases hf : env.faults (.updateSpace obj) with
  | some e => simp [hf] at h
  | none =>
    cases hl : lookupKey Space.key w.spaces obj.key with
    | none => simp [hf, hl] at h
    | some x =>
      simp only [hf, hl, Prod.mk.injEq, true_and] at h
      subst h
      exact ⟨rfl, rfl, rfl, rfl, rfl, rfl⟩

/-- The three outcomes of the record step: an error; no record found, reported as not
processed after the one read; or the changed record stored, reported as processed, with
the request in memory and every stored request, tier and space as they were. -/
theorem changeTierInMasterUserRecord_cases (env : Env) (ctr : ChangeTierRequest)
    (ns : String) (tier : NSTemplateTier) (w : World) :
    (changeTierInMasterUserRecord env ctr ns tier w).1.2.2 ≠ none
      ∨ changeTierInMasterUserRecord env ctr ns tier w
          = ((ctr, false, none), w.record (.getMasterUserRecord ⟨ns, ctr.spec.MurName⟩))
      ∨ ∃ mur labels,
          lookupKey MasterUserRecord.key w.masterUserRecords ⟨ns, ctr.spec.MurName⟩ = some mur
          ∧ (changeUserAccounts env ctr (env.NewNSTemplateSetSpec tier)
              mur.UserAccounts mur.Labels).2.2 = true
          ∧ computeHashLabels env
              (changeUserAccounts env ctr (env.NewNSTemplateSetSpec tier)
                mur.UserAccounts mur.Labels).1
              (changeUserAccounts env ctr (env.NewNSTemplateSetSpec tier)
                mur.UserAccounts mur.Labels).2.1 = .ok labels
          ∧ (changeTierInMasterUserRecord env ctr ns tier w).1 = (ctr, true, none)
          ∧ (changeTierInMasterUserRecord env ctr ns tier w).2.masterUserRecords
              = replaceKey MasterUserRecord.key w.masterUserRecords
                  (changedRecord env ctr tier mur labels)
          ∧ (changeTierInMasterUserRecord env ctr ns tier w).2.changeTierRequests
              = w.changeTierRequests
          ∧ (changeTierInMasterUserRecord env ctr ns tier w).2.nsTemplateTiers
              = w.nsTemplateTiers
          ∧ (changeTierInMasterUserRecord env ctr ns tier w).2.spaces = w.spaces := by
  unfold changeTierInMasterUserRecord
  split
  · rename_i heq
    simp only [getMasterUserRecord, Prod.mk.injEq] at heq
    obtain ⟨_, rfl⟩ := heq
    split
    · right; left; rfl
    · left; simp [failWith_result]
  · rename_i mur w1 heq
    simp only [getMasterUserRecord, Prod.mk.injEq] at heq
    obtain ⟨hget, rfl⟩ := heq
    obtain ⟨_, hl⟩ := getOutcome_ok _ _ _ _ _ _ hget
    dsimp only
    split
    · left; simp [failWith_result]
    · rename_i hch
      split
      · left; simp [failWith_result]
      · rename_i labels hh
        split
        · left; simp [failWith_result]
        · rename_i w2 hup
          obtain ⟨_, hm, hr, ht, hs, _⟩ := updateMasterUserRecord_ok _ _ _ _ hup
          rcases resetDeactivating_cases env ctr ns
            { mur with
              UserAccounts := (changeUserAccounts env ctr (env.NewNSTemplateSetSpec tier)
                mur.UserAccounts mur.Labels).1,
              TierName := ctr.spec.TierName, Labels := labels } w2 with hfail | ⟨hres, hstep⟩
          · left; exact hfail
          · right; right
            refine ⟨mur, labels, hl, by simpa using hch, hh, hres, ?_, ?_, ?_, ?_⟩
            · rw [hstep.2.2.1, hm]; rfl
            · rw [hstep.1, hr]; rfl
            · rw [hstep.2.1, ht]; rfl
            · rw [hstep.2.2.2, hs]; rfl

/-- The four outcomes of the space step: an error; no space found, reported as not
processed; a space that already has the tier, reported as processed without update; or
the space stored with the new tier and without the hash label of its previous tier. -/
theorem changeTierInSpace_cases (env : Env) (ctr : ChangeTierRequest) (ns : String)
    (w : World) :
    (changeTierInSpace env ctr ns w).1.2.2 ≠ none
      ∨ changeTierInSpace env ctr ns w
          = ((ctr, false, none), w.record (.getSpace ⟨ns, ctr.spec.MurName⟩))
      ∨ ((∃ space, lookupKey Space.key w.spaces ⟨ns, ctr.spec.MurName⟩ = some space
            ∧ space.TierName = ctr.spec.TierName)
          ∧ changeTierInSpace env ctr ns w
            = ((ctr, true, none), w.record (.getSpace ⟨ns, ctr.spec.MurName⟩)))
      ∨ ∃ space,
          lookupKey Space.key w.spaces ⟨ns, ctr.spec.MurName⟩ = some space
          ∧ space.TierName ≠ ctr.spec.TierName
          ∧ (changeTierInSpace env ctr ns w).1 = (ctr, true, none)
          ∧ (changeTierInSpace env ctr ns w).2.spaces
              = replaceKey Space.key w.spaces
                  { space with
                    Labels := mapDelete space.Labels
                      (env.TemplateTierHashLabelKey space.TierName),
                    TierName := ctr.spec.TierName }
          ∧ (changeTierInSpace env ctr ns w).2.changeTierRequests = w.changeTierRequests
          ∧ (changeTierInSpace env ctr ns w).2.nsTemplateTiers = w.nsTemplateTiers
          ∧ (changeTierInSpace env ctr ns w).2.masterUserRecords = w.masterUserRecords
          ∧ (changeTierInSpace env ctr ns w).2.userSignups = w.userSignups := by
  unfold changeTierInSpace
  split
  · rename_i heq
    simp only [getSpace, Prod.mk.injEq] at heq
    obtain ⟨_, rfl⟩ := heq
    split
    · right; left; rfl
    · left; simp [failWith_result]
  · rename_i space w1 heq
    simp only [getSpace, Prod.mk.injEq] at heq
    obtain ⟨hget, rfl⟩ := heq
    obtain ⟨_, hl⟩ := getOutcome_ok _ _ _ _ _ _ hget
    split
    · rename_i htier
      right; right; left
      exact ⟨⟨space, hl, htier⟩, rfl⟩
    · rename_i htier
      dsimp only
      split
      · left; simp [failWith_result]
      · rename_i w2 hup
        obtain ⟨_, hs, hr, ht, hm, hu⟩ := updateSpace_ok _ _ _ _ hup
        right; right; right
        exact ⟨space, hl, htier, rfl, hs, hr, ht, hm, hu⟩


theorem changeTierInMasterUserRecord_ok (env : Env) (ctr : ChangeTierRequest)
    (ns : String) (tier : NSTemplateTier) (w : World)
    (h : (changeTierInMasterUserRecord env ctr ns tier w).1.2.2 = none) :
    (changeTierInMasterUserRecord env ctr ns tier w).1.1 = ctr
      ∧ (changeTierInMasterUserRecord env ctr ns tier w).2.changeTierRequests
          = w.changeTierRequests := by
  rcases changeTierInMasterUserRecord_cases env ctr ns tier w with
    hfail | heq | ⟨mur, labels, _, _, _, hres, _, hr, _, _⟩
  · exact absurd h hfail
  · rw [heq]; exact ⟨rfl, rfl⟩
  · exact ⟨by rw [hres], hr⟩

theorem changeTierInSpace_ok (env : Env) (ctr : ChangeTierRequest) (ns : String) (w : World)
    (h : (changeTierInSpace env ctr ns w).1.2.2 = none) :
    (changeTierInSpace env ctr ns w).1.1 = ctr
      ∧ (changeTierInSpace env ctr ns w).2.changeTierRequests = w.changeTierRequests := by
  rcases changeTierInSpace_cases env ctr ns w with
    hfail | heq | ⟨_, heq⟩ | ⟨space, _, _, hres, _, hr, _, _, _⟩
  · exact absurd h hfail
  · rw [heq]; exact ⟨rfl, rfl⟩
  · rw [heq]; exact ⟨rfl, rfl⟩
  · exact ⟨by rw [hres], hr⟩

/-- A tier change without error leaves the request in memory and the stored requests as
they were: no status was written. -/
theorem changeTier_ok (env : Env) (ctr : ChangeTierRequest) (ns : String) (w : World)
    (h : (changeTier env ctr ns w).1.2 = none) :
    (changeTier env ctr ns w).1.1 = ctr
      ∧ (changeTier env ctr ns w).2.changeTierRequests = w.changeTierRequests := by
  unfold changeTier at h ⊢
  rcases hT : getNSTemplateTier env ⟨ns, ctr.spec.TierName⟩ w with ⟨e | tier, w1⟩
  · simp [hT, wrapErrorWithStatusUpdate] at h
  · have hw1 : w1.changeTierRequests = w.changeTierRequests := by
      have := congrArg Prod.snd hT
      simp only [getNSTemplateTier] at this
      rw [← this]; rfl
    simp only [hT] at h ⊢
    have hm := changeTierInMasterUserRecord_ok env ctr ns tier w1
    rcases hM : changeTierInMasterUserRecord env ctr ns tier w1 with ⟨⟨c1, b1, _ | e1⟩, w2⟩
    · rw [hM] at hm
      obtain ⟨hc1, hw2⟩ := hm rfl
      simp only at hc1 hw2
      subst hc1
      simp only [hM] at h ⊢
      have hs := changeTierInSpace_ok env c1 ns w2
      rcases hS : changeTierInSpace env c1 ns w2 with ⟨⟨c2, b2, _ | e2⟩, w3⟩
      · rw [hS] at hs
        obtain ⟨hc2, hw3⟩ := hs rfl
        simp only at hc2 hw3
        subst hc2
        simp only [hS] at h ⊢
        split_ifs at h ⊢ with hb
        · exfalso
          rcases hF : setStatusChangeFailed env c2
            (Err.other ("no MasterUserRecord nor Space named '" ++ c2.spec.MurName
              ++ "' matching the ChangeTierRequest")).Error w3 with ⟨⟨c3, _ | e3⟩, w4⟩
          · simp [hF] at h
          · simp [hF] at h
        · exact ⟨rfl, by rw [hw3, hw2, hw1]⟩
      · simp [hS] at h
    · simp [hM] at h



/-! ## A pending request -/

theorem Reconcile_pending (env : Env) (request : Key) (w : World) (d : Int)
    (ctr : ChangeTierRequest)
    (hcfg : env.GetToolchainConfig = .ok d)
    (hfault : env.faults (.getChangeTierRequest request) = none)
    (hstored : lookupKey ChangeTierRequest.key w.changeTierRequests request = some ctr)
    (hpending : isComplete ctr.conditions = false) :
    Reconcile env request w
      = reconcilePending env request d ctr (w.record (.getChangeTierRequest request)) := by
  unfold isComplete at hpending
  unfold Reconcile
  simp only [hcfg, getChangeTierRequest, getOutcome, hfault, hstored]
  cases hfind : FindConditionByType ctr.conditions ChangeTierRequestComplete with
  | none => rfl
  | some completeCond =>
    simp only [hfind, decide_eq_false_iff_not] at hpending
    simp only [hpending, if_false]

theorem isComplete_false_of_find (conds : List Condition) (c : Condition)
    (hfind : FindConditionByType conds ChangeTierRequestComplete = some c)
    (hstatus : c.status = ConditionFalse) : isComplete conds = false := by
  unfold isComplete
  simp only [hfind, hstatus]
  decide

/-- A pass on a pending request for an existing tier with neither record nor space:
the pass ends in the status update of the failure. -/
theorem Reconcile_no_target (env : Env) (request : Key) (w : World) (d : Int)
    (ctr : ChangeTierRequest) (tier : NSTemplateTier)
    (hcfg : env.GetToolchainConfig = .ok d)
    (hfault : env.faults (.getChangeTierRequest request) = none)
    (hstored : lookupKey ChangeTierRequest.key w.changeTierRequests request = some ctr)
    (hpending : isComplete ctr.conditions = false)
    (htierFault : env.faults (.getNSTemplateTier ⟨request.ns, ctr.spec.TierName⟩) = none)
    (htier : lookupKey NSTemplateTier.key w.nsTemplateTiers ⟨request.ns, ctr.spec.TierName⟩
      = some tier)
    (hmurFault : env.faults (.getMasterUserRecord ⟨request.ns, ctr.spec.MurName⟩) = none)
    (hmur : lookupKey MasterUserRecord.key w.masterUserRecords ⟨request.ns, ctr.spec.MurName⟩
      = none)
    (hspaceFault : env.faults (.getSpace ⟨request.ns, ctr.spec.MurName⟩) = none)
    (hspace : lookupKey Space.key w.spaces ⟨request.ns, ctr.spec.MurName⟩ = none) :
    Reconcile env request w
      = ((⟨false, 0⟩,
          some (((setStatusChangeFailed env ctr
              ("no MasterUserRecord nor Space named '" ++ ctr.spec.MurName
                ++ "' matching the ChangeTierRequest")
              ((((w.record (.getChangeTierRequest request)).record
                (.getNSTemplateTier ⟨request.ns, ctr.spec.TierName⟩)).record
                (.getMasterUserRecord ⟨request.ns, ctr.spec.MurName⟩)).record
                (.getSpace ⟨request.ns, ctr.spec.MurName⟩))).1.2).getD
            (.other ("no MasterUserRecord nor Space named '" ++ ctr.spec.MurName
                ++ "' matching the ChangeTierRequest")))),
         (setStatusChangeFailed env ctr
            ("no MasterUserRecord nor Space named '" ++ ctr.spec.MurName
              ++ "' matching the ChangeTierRequest")
            ((((w.record (.getChangeTierRequest request)).record
              (.getNSTemplateTier ⟨request.ns, ctr.spec.TierName⟩)).record
              (.getMasterUserRecord ⟨request.ns, ctr.spec.MurName⟩)).record
              (.getSpace ⟨request.ns, ctr.spec.MurName⟩))).2) := by
  rw [Reconcile_pending env request w d ctr hcfg hfault hstored hpending]
  unfold reconcilePending changeTier
  simp only [getNSTemplateTier, getOutcome, htierFault, World.record, htier,
    changeTierInMasterUserRecord, getMasterUserRecord, hmurFault, hmur, notFoundErr, IsNotFound,
    if_true, changeTierInSpace, getSpace, hspaceFault, hspace, and_self, Err.Error]
  rcases hF : setStatusChangeFailed env ctr
    ("no MasterUserRecord nor Space named '" ++ ctr.spec.MurName
      ++ "' matching the ChangeTierRequest")
    { changeTierRequests := w.changeTierRequests, nsTemplateTiers := w.nsTemplateTiers,
      masterUserRecords := w.masterUserRecords, spaces := w.spaces,
      userSignups := w.userSignups,
      calls := w.calls ++ [.getChangeTierRequest request]
        ++ [.getNSTemplateTier ⟨request.ns, ctr.spec.TierName⟩]
        ++ [.getMasterUserRecord ⟨request.ns, ctr.spec.MurName⟩]
        ++ [.getSpace ⟨request.ns, ctr.spec.MurName⟩] } with ⟨⟨c3, _ | e3⟩, w4⟩
  · simp
  · simp


/-- Claim C5, as stated, fails: with neither record nor space, when the status update of
the failure is rejected, the pass returns the error of the status update, not the error
"no MasterUserRecord nor Space named ...", and the stored request has no Complete
condition at all. -/
theorem Reconcile_no_target_counterexample :
    isComplete exPending.conditions = false
      ∧ (Reconcile (exEnvStatusFails 30) exKey exWorldNoTarget).1.2
          = some (.other "status update failed")
      ∧ (Reconcile (exEnvStatusFails 30) exKey exWorldNoTarget).1.2
          ≠ some (.other
              "no MasterUserRecord nor Space named 'john' matching the ChangeTierRequest")
      ∧ storedCondition (Reconcile (exEnvStatusFails 30) exKey exWorldNoTarget).2 exKey
          ChangeTierRequestComplete = none := by
  decide

/-- Claim C5, amended. For a pending request naming an existing tier, when neither a
MasterUserRecord nor a Space of the requested name exists and the status update is not
rejected, the pass returns the empty result and the error "no MasterUserRecord nor Space
named '<name>' matching the ChangeTierRequest", the stored request has the Complete
condition with status False, reason ChangeFailed and that message, and it is not complete. -/
theorem Reconcile_no_target_fails (env : Env) (request : Key) (w : World) (d : Int)
    (ctr : ChangeTierRequest) (tier : NSTemplateTier)
    (hcfg : env.GetToolchainConfig = .ok d)
    (hfault : env.faults (.getChangeTierRequest request) = none)
    (hstored : lookupKey ChangeTierRequest.key w.changeTierRequests request = some ctr)
    (hpending : isComplete ctr.conditions = false)
    (htierFault : env.faults (.getNSTemplateTier ⟨request.ns, ctr.spec.TierName⟩) = none)
    (htier : lookupKey NSTemplateTier.key w.nsTemplateTiers ⟨request.ns, ctr.spec.TierName⟩
      = some tier)
    (hmurFault : env.faults (.getMasterUserRecord ⟨request.ns, ctr.spec.MurName⟩) = none)
    (hmur : lookupKey MasterUserRecord.key w.masterUserRecords ⟨request.ns, ctr.spec.MurName⟩
      = none)
    (hspaceFault : env.faults (.getSpace ⟨request.ns, ctr.spec.MurName⟩) = none)
    (hspace : lookupKey Space.key w.spaces ⟨request.ns, ctr.spec.MurName⟩ = none)
    (hstatus : ∀ obj, env.faults (.statusUpdate obj) = none) :
    (Reconcile env request w).1
        = (⟨false, 0⟩, some (.other ("no MasterUserRecord nor Space named '"
            ++ ctr.spec.MurName ++ "' matching the ChangeTierRequest")))
      ∧ ∃ stored c,
          lookupKey ChangeTierRequest.key (Reconcile env request w).2.changeTierRequests
            request = some stored
          ∧ FindConditionByType stored.conditions ChangeTierRequestComplete = some c
          ∧ c.status = ConditionFalse
          ∧ c.reason = ChangeTierRequestChangeFailedReason
          ∧ c.message = "no MasterUserRecord nor Space named '" ++ ctr.spec.MurName
              ++ "' matching the ChangeTierRequest"
          ∧ isComplete stored.conditions = false := by
  have hkey : ctr.key = request := lookupKey_key _ _ _ _ hstored
  rw [Reconcile_no_target env request w d ctr tier hcfg hfault hstored hpending htierFault
    htier hmurFault hmur hspaceFault hspace]
  obtain ⟨_, hok, _, hnofault⟩ := updateStatusConditions_stored env ctr
    { type := ChangeTierRequestComplete, status := ConditionFalse,
      reason := ChangeTierRequestChangeFailedReason,
      message := "no MasterUserRecord nor Space named '" ++ ctr.spec.MurName
        ++ "' matching the ChangeTierRequest",
      lastTransitionTime := 0 }
    ((((w.record (.getChangeTierRequest request)).record
      (.getNSTemplateTier ⟨request.ns, ctr.spec.TierName⟩)).record
      (.getMasterUserRecord ⟨request.ns, ctr.spec.MurName⟩)).record
      (.getSpace ⟨request.ns, ctr.spec.MurName⟩))
    (by rw [hkey]; exact hstored)
  have hnone := hnofault hstatus
  have hlook := hok hnone
  rw [hkey] at hlook
  obtain ⟨c, hc, hs, hr, hm⟩ := find_addOrUpdateLoop_same
    { type := ChangeTierRequestComplete, status := ConditionFalse,
      reason := ChangeTierRequestChangeFailedReason,
      message := "no MasterUserRecord nor Space named '" ++ ctr.spec.MurName
        ++ "' matching the ChangeTierRequest",
      lastTransitionTime := env.now } ctr.conditions
  refine ⟨?_, _, c, hlook, hc, hs, hr, hm, isComplete_false_of_find _ c hc hs⟩
  unfold setStatusChangeFailed
  rw [hnone]
  rfl

/-- Claim C5, amended, at the pending request for `john`, with the tier stored and neither
record nor space. -/
theorem Reconcile_no_target_fails_witness :
    (Reconcile (exEnv 30) exKey exWorldNoTarget).1
        = (⟨false, 0⟩, some (.other ("no MasterUserRecord nor Space named '"
            ++ exPending.spec.MurName ++ "' matching the ChangeTierRequest"))) :=
  (Reconcile_no_target_fails (exEnv 30) exKey exWorldNoTarget 30 exPending exTier
    rfl rfl (by decide) (by decide) rfl (by decide) rfl (by decide) rfl (by decide)
    (fun _ => rfl)).1


/-- After a tier change without error the pass writes the completion status on the
request as it was read: the status error ends the pass, else the request is requeued. -/
theorem reconcilePending_ok (env : Env) (request : Key) (d : Int) (ctr : ChangeTierRequest)
    (w1 : World) (h : (changeTier env ctr request.ns w1).1.2 = none) :
    reconcilePending env request d ctr w1
      = ((match (setStatusChangeComplete env ctr (changeTier env ctr request.ns w1).2).1.2 with
          | some err => (⟨false, 0⟩, some err)
          | none => (⟨true, d⟩, none)),
         (setStatusChangeComplete env ctr (changeTier env ctr request.ns w1).2).2) := by
  have hok := (changeTier_ok env ctr request.ns w1 h).1
  unfold reconcilePending
  rcases hCT : changeTier env ctr request.ns w1 with ⟨⟨c1, _ | e⟩, w2⟩
  · rw [hCT] at hok
    simp only at hok
    subst hok
    simp only
    rcases hS : setStatusChangeComplete env c1 w2 with ⟨⟨c2, _ | e2⟩, w3⟩
    · rfl
    · rfl
  · rw [hCT] at h
    simp at h

/-- Claim C7, as stated, fails: the tier change of the pending request succeeds, but when
the status update is rejected the pass returns that error and the stored request has no
Complete condition. -/
theorem Reconcile_complete_status_counterexample :
    (changeTier (exEnvStatusFails 30) exPending exKey.ns
        ((exWorld exPending).record (.getChangeTierRequest exKey))).1.2 = none
      ∧ (Reconcile (exEnvStatusFails 30) exKey (exWorld exPending)).1.2
          = some (.other "status update failed")
      ∧ storedCondition (Reconcile (exEnvStatusFails 30) exKey (exWorld exPending)).2 exKey
          ChangeTierRequestComplete = none := by
  decide

/-- Claim C7, amended. For a pending request whose tier change succeeds, when the status
update is not rejected, the pass returns no error and the stored request has the
Complete condition with status True and reason Changed. -/
theorem Reconcile_marks_complete (env : Env) (request : Key) (w : World) (d : Int)
    (ctr : ChangeTierRequest)
    (hcfg : env.GetToolchainConfig = .ok d)
    (hfault : env.faults (.getChangeTierRequest request) = none)
    (hstored : lookupKey ChangeTierRequest.key w.changeTierRequests request = some ctr)
    (hpending : isComplete ctr.conditions = false)
    (hchange : (changeTier env ctr request.ns
      (w.record (.getChangeTierRequest request))).1.2 = none)
    (hstatus : ∀ obj, env.faults (.statusUpdate obj) = none) :
    (Reconcile env request w).1.2 = none
      ∧ ∃ c, storedCondition (Reconcile env request w).2 request ChangeTierRequestComplete
            = some c
          ∧ c.status = ConditionTrue
          ∧ c.reason = ChangeTierRequestChangedReason := by
  have hkey : ctr.key = request := lookupKey_key _ _ _ _ hstored
  rw [Reconcile_pending env request w d ctr hcfg hfault hstored hpending,
    reconcilePending_ok env request d ctr _ hchange]
  have hreq := (changeTier_ok env ctr request.ns _ hchange).2
  obtain ⟨_, hok, _, hnofault⟩ := updateStatusConditions_stored env ctr
    { type := ChangeTierRequestComplete, status := ConditionTrue,
      reason := ChangeTierRequestChangedReason, message := "", lastTransitionTime := 0 }
    (changeTier env ctr request.ns (w.record (.getChangeTierRequest request))).2
    (by rw [hreq, hkey]; exact hstored)
  have hnone := hnofault hstatus
  have hlook := hok hnone
  rw [hkey] at hlook
  obtain ⟨c, hc, hs, hr, _⟩ := find_addOrUpdateLoop_same
    { type := ChangeTierRequestComplete, status := ConditionTrue,
      reason := ChangeTierRequestChangedReason, message := "",
      lastTransitionTime := env.now } ctr.conditions
  unfold setStatusChangeComplete
  rw [hnone]
  refine ⟨rfl, c, ?_, hs, hr⟩
  rw [storedCondition_of_lookup _ _ _ _ hlook]
  exact hc

/-- Claim C7, amended, at the pending request for `john` with tier, record, space and
signup stored and no fault. -/
theorem Reconcile_marks_complete_witness :
    (Reconcile (exEnv 30) exKey (exWorld exPending)).1.2 = none
      ∧ ∃ c, storedCondition (Reconcile (exEnv 30) exKey (exWorld exPending)).2 exKey
            ChangeTierRequestComplete = some c
          ∧ c.status = ConditionTrue
          ∧ c.reason = ChangeTierRequestChangedReason :=
  Reconcile_marks_complete (exEnv 30) exKey (exWorld exPending) 30 exPending
    rfl rfl (by decide) (by decide) (by decide) (fun _ => rfl)

/-- Claim C8, as stated, fails: with a retention of 30 the tier change of the pending
request succeeds and the completion is stored, and the requeue is after 30, not after 0. -/
theorem Reconcile_requeue_after_counterexample :
    (changeTier (exEnv 30) exPending exKey.ns
        ((exWorld exPending).record (.getChangeTierRequest exKey))).1.2 = none
      ∧ (storedCondition (Reconcile (exEnv 30) exKey (exWorld exPending)).2 exKey
          ChangeTierRequestComplete).map (fun c => c.status) = some ConditionTrue
      ∧ (Reconcile (exEnv 30) exKey (exWorld exPending)).1 = (⟨true, 30⟩, none)
      ∧ (Reconcile (exEnv 30) exKey (exWorld exPending)).1.1.RequeueAfter ≠ 0 := by
  decide

/-- Claim C8, amended. For a pending request whose tier change succeeds and whose
completion status is written without error, the result asks for a requeue after the
configured retention duration `d`: the delay is zero only when `d` is zero. -/
theorem Reconcile_requeue_after_retention (env : Env) (request : Key) (w : World) (d : Int)
    (ctr : ChangeTierRequest)
    (hcfg : env.GetToolchainConfig = .ok d)
    (hfault : env.faults (.getChangeTierRequest request) = none)
    (hstored : lookupKey ChangeTierRequest.key w.changeTierRequests request = some ctr)
    (hpending : isComplete ctr.conditions = false)
    (hchange : (changeTier env ctr request.ns
      (w.record (.getChangeTierRequest request))).1.2 = none)
    (hset : (setStatusChangeComplete env ctr
      (changeTier env ctr request.ns (w.record (.getChangeTierRequest request))).2).1.2
      = none) :
    (Reconcile env request w).1 = (⟨true, d⟩, none)
      ∧ ((Reconcile env request w).1.1.RequeueAfter = 0 ↔ d = 0) := by
  rw [Reconcile_pending env request w d ctr hcfg hfault hstored hpending,
    reconcilePending_ok env request d ctr _ hchange, hset]
  exact ⟨rfl, Iff.rfl⟩

/-- Claim C8, amended, at the pending request for `john` with a retention of 30. -/
theorem Reconcile_requeue_after_retention_witness :
    (Reconcile (exEnv 30) exKey (exWorld exPending)).1 = (⟨true, 30⟩, none) :=
  (Reconcile_requeue_after_retention (exEnv 30) exKey (exWorld exPending) 30 exPending
    rfl rfl (by decide) (by decide) (by decide) (by decide)).1


theorem onRequest_not_writesTarget (c : Call) (h : Call.onRequest c = true) :
    Call.writesTarget c = false := by
  cases c <;> simp_all [Call.onRequest, Call.writesTarget]

/-- The tier change when the tier is read and both steps report "not processed" without
error: the failure is written on the request as it was read, over unchanged stored
requests, and its error or else the error "no MasterUserRecord nor Space" is returned. -/
theorem changeTier_neither (env : Env) (ctr : ChangeTierRequest) (ns : String) (w : World)
    (tier : NSTemplateTier)
    (htierFault : env.faults (.getNSTemplateTier ⟨ns, ctr.spec.TierName⟩) = none)
    (htier : lookupKey NSTemplateTier.key w.nsTemplateTiers ⟨ns, ctr.spec.TierName⟩
      = some tier)
    (h1 : (changeTierInMasterUserRecord env ctr ns tier
      (w.record (.getNSTemplateTier ⟨ns, ctr.spec.TierName⟩))).1.2 = (false, none))
    (h2 : (changeTierInSpace env ctr ns
      (changeTierInMasterUserRecord env ctr ns tier
        (w.record (.getNSTemplateTier ⟨ns, ctr.spec.TierName⟩))).2).1.2 = (false, none)) :
    ∃ w3, w3.changeTierRequests = w.changeTierRequests
      ∧ changeTier env ctr ns w
        = (((setStatusChangeFailed env ctr
              ("no MasterUserRecord nor Space named '" ++ ctr.spec.MurName
                ++ "' matching the ChangeTierRequest") w3).1.1,
            some (((setStatusChangeFailed env ctr
              ("no MasterUserRecord nor Space named '" ++ ctr.spec.MurName
                ++ "' matching the ChangeTierRequest") w3).1.2).getD
              (.other ("no MasterUserRecord nor Space named '" ++ ctr.spec.MurName
                ++ "' matching the ChangeTierRequest")))),
           (setStatusChangeFailed env ctr
              ("no MasterUserRecord nor Space named '" ++ ctr.spec.MurName
                ++ "' matching the ChangeTierRequest") w3).2) := by
  have hm := changeTierInMasterUserRecord_ok env ctr ns tier
    (w.record (.getNSTemplateTier ⟨ns, ctr.spec.TierName⟩))
  unfold changeTier
  simp only [getNSTemplateTier, getOutcome, htierFault, htier]
  rcases hM : changeTierInMasterUserRecord env ctr ns tier
    (w.record (.getNSTemplateTier ⟨ns, ctr.spec.TierName⟩)) with ⟨⟨c1, b1, e1⟩, w2⟩
  rw [hM] at h1 h2 hm
  simp only [Prod.mk.injEq] at h1
  obtain ⟨rfl, rfl⟩ := h1
  obtain ⟨hc1, hw2⟩ := hm rfl
  simp only at hc1 hw2 h2
  subst hc1
  have hs := changeTierInSpace_ok env c1 ns w2
  rcases hS : changeTierInSpace env c1 ns w2 with ⟨⟨c2, b2, e2⟩, w3⟩
  rw [hS] at h2 hs
  simp only [Prod.mk.injEq] at h2
  obtain ⟨rfl, rfl⟩ := h2
  obtain ⟨hc2, hw3⟩ := hs rfl
  simp only at hc2 hw3
  subst hc2
  refine ⟨w3, by rw [hw3, hw2]; rfl, ?_⟩
  simp only [hS, and_self, if_true, Err.Error]
  rcases hF : setStatusChangeFailed env c2
    ("no MasterUserRecord nor Space named '" ++ c2.spec.MurName
      ++ "' matching the ChangeTierRequest") w3 with ⟨⟨c3, _ | e3⟩, w4⟩
  · simp
  · simp

/-- The tier change when the tier is read, no record is found and the space found already
has the tier: no error, after the three reads. -/
theorem changeTier_space_done (env : Env) (ctr : ChangeTierRequest) (ns : String) (w : World)
    (tier : NSTemplateTier) (space : Space)
    (htierFault : env.faults (.getNSTemplateTier ⟨ns, ctr.spec.TierName⟩) = none)
    (htier : lookupKey NSTemplateTier.key w.nsTemplateTiers ⟨ns, ctr.spec.TierName⟩
      = some tier)
    (hmurFault : env.faults (.getMasterUserRecord ⟨ns, ctr.spec.MurName⟩) = none)
    (hmur : lookupKey MasterUserRecord.key w.masterUserRecords ⟨ns, ctr.spec.MurName⟩ = none)
    (hspaceFault : env.faults (.getSpace ⟨ns, ctr.spec.MurName⟩) = none)
    (hspace : lookupKey Space.key w.spaces ⟨ns, ctr.spec.MurName⟩ = some space)
    (hdone : space.TierName = ctr.spec.TierName) :
    changeTier env ctr ns w
      = ((ctr, none),
         ((w.record (.getNSTemplateTier ⟨ns, ctr.spec.TierName⟩)).record
            (.getMasterUserRecord ⟨ns, ctr.spec.MurName⟩)).record
            (.getSpace ⟨ns, ctr.spec.MurName⟩)) := by
  unfold changeTier
  simp [getNSTemplateTier, getOutcome, htierFault, World.record, htier,
    changeTierInMasterUserRecord, getMasterUserRecord, hmurFault, hmur, notFoundErr, IsNotFound,
    changeTierInSpace, getSpace, hspaceFault, hspace, hdone]


/-- Claim C6, as stated, fails: with no record and a space that already has the tier, the
pass updates neither a record nor a space, and yet it returns no error and the stored
request is complete. -/
theorem Reconcile_no_update_counterexample :
    isComplete exPending.conditions = false
      ∧ (Reconcile (exEnv 30) exKey exWorldSpaceDone).2.calls.all
          (fun c => !Call.writesTarget c) = true
      ∧ (Reconcile (exEnv 30) exKey exWorldSpaceDone).2.masterUserRecords
          = exWorldSpaceDone.masterUserRecords
      ∧ (Reconcile (exEnv 30) exKey exWorldSpaceDone).2.spaces = exWorldSpaceDone.spaces
      ∧ (Reconcile (exEnv 30) exKey exWorldSpaceDone).1 = (⟨true, 30⟩, none)
      ∧ (storedCondition (Reconcile (exEnv 30) exKey exWorldSpaceDone).2 exKey
          ChangeTierRequestComplete).map (fun c => c.status) = some ConditionTrue := by
  decide

/-- Claim C6, amended. For a pending request naming an existing tier, with status updates
not rejected: if the record step and the space step both report "not processed" without
error, the pass fails with the error "no MasterUserRecord nor Space named ...", and the
stored request has the Complete condition with status False, reason ChangeFailed and that
message; but if no record exists and the space already has the tier, the space counts as
processed: no record and no space is written, the pass returns no error and a requeue,
and the stored request is complete with reason Changed. -/
theorem Reconcile_neither_processed (env : Env) (request : Key) (w : World) (d : Int)
    (ctr : ChangeTierRequest) (tier : NSTemplateTier)
    (hcfg : env.GetToolchainConfig = .ok d)
    (hfault : env.faults (.getChangeTierRequest request) = none)
    (hstored : lookupKey ChangeTierRequest.key w.changeTierRequests request = some ctr)
    (hpending : isComplete ctr.conditions = false)
    (htierFault : env.faults (.getNSTemplateTier ⟨request.ns, ctr.spec.TierName⟩) = none)
    (htier : lookupKey NSTemplateTier.key w.nsTemplateTiers ⟨request.ns, ctr.spec.TierName⟩
      = some tier)
    (hstatus : ∀ obj, env.faults (.statusUpdate obj) = none) :
    ((changeTierInMasterUserRecord env ctr request.ns tier
          ((w.record (.getChangeTierRequest request)).record
            (.getNSTemplateTier ⟨request.ns, ctr.spec.TierName⟩))).1.2 = (false, none) →
      (changeTierInSpace env ctr request.ns
          (changeTierInMasterUserRecord env ctr request.ns tier
            ((w.record (.getChangeTierRequest request)).record
              (.getNSTemplateTier ⟨request.ns, ctr.spec.TierName⟩))).2).1.2 = (false, none) →
      (Reconcile env request w).1
          = (⟨false, 0⟩, some (.other ("no MasterUserRecord nor Space named '"
              ++ ctr.spec.MurName ++ "' matching the ChangeTierRequest")))
        ∧ ∃ c, storedCondition (Reconcile env request w).2 request ChangeTierRequestComplete
              = some c
            ∧ c.status = ConditionFalse
            ∧ c.reason = ChangeTierRequestChangeFailedReason
            ∧ c.message = "no MasterUserRecord nor Space named '" ++ ctr.spec.MurName
                ++ "' matching the ChangeTierRequest")
      ∧ (env.faults (.getMasterUserRecord ⟨request.ns, ctr.spec.MurName⟩) = none →
        lookupKey MasterUserRecord.key w.masterUserRecords ⟨request.ns, ctr.spec.MurName⟩
          = none →
        env.faults (.getSpace ⟨request.ns, ctr.spec.MurName⟩) = none →
        ∀ space, lookupKey Space.key w.spaces ⟨request.ns, ctr.spec.MurName⟩ = some space →
        space.TierName = ctr.spec.TierName →
        (Reconcile env request w).1 = (⟨true, d⟩, none)
          ∧ (Reconcile env request w).2.masterUserRecords = w.masterUserRecords
          ∧ (Reconcile env request w).2.spaces = w.spaces
          ∧ (∃ new, (Reconcile env request w).2.calls = w.calls ++ new
              ∧ ∀ c ∈ new, Call.writesTarget c = false)
          ∧ ∃ c, storedCondition (Reconcile env request w).2 request
                ChangeTierRequestComplete = some c
              ∧ c.status = ConditionTrue
              ∧ c.reason = ChangeTierRequestChangedReason) := by
  have hkey : ctr.key = request := lookupKey_key _ _ _ _ hstored
  rw [Reconcile_pending env request w d ctr hcfg hfault hstored hpending]
  constructor
  · intro h1 h2
    obtain ⟨w3, hw3, hCT⟩ := changeTier_neither env ctr request.ns
      (w.record (.getChangeTierRequest request)) tier htierFault htier h1 h2
    obtain ⟨_, hok, _, hnofault⟩ := updateStatusConditions_stored env ctr
      { type := ChangeTierRequestComplete, status := ConditionFalse,
        reason := ChangeTierRequestChangeFailedReason,
        message := "no MasterUserRecord nor Space named '" ++ ctr.spec.MurName
          ++ "' matching the ChangeTierRequest",
        lastTransitionTime := 0 } w3
      (by rw [hw3, hkey]; exact hstored)
    have hnone := hnofault hstatus
    have hlook := hok hnone
    rw [hkey] at hlook
    obtain ⟨c, hc, hs, hr, hm⟩ := find_addOrUpdateLoop_same
      { type := ChangeTierRequestComplete, status := ConditionFalse,
        reason := ChangeTierRequestChangeFailedReason,
        message := "no MasterUserRecord nor Space named '" ++ ctr.spec.MurName
          ++ "' matching the ChangeTierRequest",
        lastTransitionTime := env.now } ctr.conditions
    unfold reconcilePending
    rw [hCT]
    unfold setStatusChangeFailed
    simp only [hnone, Option.getD_none]
    refine ⟨trivial, c, ?_, hs, hr, hm⟩
    rw [storedCondition_of_lookup _ _ _ _ hlook]
    exact hc
  · intro hmurFault hmur hspaceFault space hspace hdone
    have hCT := changeTier_space_done env ctr request.ns
      (w.record (.getChangeTierRequest request)) tier space htierFault htier hmurFault hmur
      hspaceFault hspace hdone
    have hchange : (changeTier env ctr request.ns
        (w.record (.getChangeTierRequest request))).1.2 = none := by rw [hCT]
    rw [reconcilePending_ok env request d ctr _ hchange, hCT]
    obtain ⟨_, hok, _, hnofault⟩ := updateStatusConditions_stored env ctr
      { type := ChangeTierRequestComplete, status := ConditionTrue,
        reason := ChangeTierRequestChangedReason, message := "", lastTransitionTime := 0 }
      ((((w.record (.getChangeTierRequest request)).record
        (.getNSTemplateTier ⟨request.ns, ctr.spec.TierName⟩)).record
        (.getMasterUserRecord ⟨request.ns, ctr.spec.MurName⟩)).record
        (.getSpace ⟨request.ns, ctr.spec.MurName⟩))
      (by rw [hkey]; exact hstored)
    have hnone := hnofault hstatus
    have hlook := hok hnone
    rw [hkey] at hlook
    obtain ⟨c, hc, hs, hr, _⟩ := find_addOrUpdateLoop_same
      { type := ChangeTierRequestComplete, status := ConditionTrue,
        reason := ChangeTierRequestChangedReason, message := "",
        lastTransitionTime := env.now } ctr.conditions
    obtain ⟨_, hm, hsp, _, new, hnew, hall⟩ := requestOnly_updateStatusConditions env ctr
      [{ type := ChangeTierRequestComplete, status := ConditionTrue,
         reason := ChangeTierRequestChangedReason, message := "", lastTransitionTime := 0 }]
      ((((w.record (.getChangeTierRequest request)).record
        (.getNSTemplateTier ⟨request.ns, ctr.spec.TierName⟩)).record
        (.getMasterUserRecord ⟨request.ns, ctr.spec.MurName⟩)).record
        (.getSpace ⟨request.ns, ctr.spec.MurName⟩))
    unfold setStatusChangeComplete
    rw [hnone]
    refine ⟨rfl, hm, hsp, ⟨[.getChangeTierRequest request,
      .getNSTemplateTier ⟨request.ns, ctr.spec.TierName⟩,
      .getMasterUserRecord ⟨request.ns, ctr.spec.MurName⟩,
      .getSpace ⟨request.ns, ctr.spec.MurName⟩] ++ new, ?_, ?_⟩, c, ?_, hs, hr⟩
    · rw [hnew]
      simp [World.record]
    · intro c hc
      rcases List.mem_append.mp hc with h | h
      · simp only [List.mem_cons, List.mem_singleton, List.not_mem_nil, or_false] at h
        rcases h with rfl | rfl | rfl | rfl <;> rfl
      · exact onRequest_not_writesTarget c (hall c h)
    · rw [storedCondition_of_lookup _ _ _ _ hlook]
      exact hc

/-- Claim C6, amended, at the pending request for `john`: without record and space the
pass fails; without record and with the space already on tier `team` it completes. -/
theorem Reconcile_neither_processed_witness :
    (Reconcile (exEnv 30) exKey exWorldNoTarget).1
        = (⟨false, 0⟩, some (.other ("no MasterUserRecord nor Space named '"
            ++ exPending.spec.MurName ++ "' matching the ChangeTierRequest")))
      ∧ (Reconcile (exEnv 30) exKey exWorldSpaceDone).1 = (⟨true, 30⟩, none)
      ∧ (Reconcile (exEnv 30) exKey exWorldSpaceDone).2.spaces = exWorldSpaceDone.spaces :=
  have ha := (Reconcile_neither_processed (exEnv 30) exKey exWorldNoTarget 30 exPending exTier
    rfl rfl (by decide) (by decide) rfl (by decide) (fun _ => rfl)).1 (by decide) (by decide)
  have hb := (Reconcile_neither_processed (exEnv 30) exKey exWorldSpaceDone 30 exPending exTier
    rfl rfl (by decide) (by decide) rfl (by decide) (fun _ => rfl)).2 rfl (by decide) rfl
    { exSpace with TierName := "team", Labels := [] } (by decide) (by decide)
  ⟨ha.1, hb.1, hb.2.2.1⟩


/-! ## The change of the MasterUserRecord -/

/-- With a target cluster, the first loop changes the first user account that has the
target cluster and a template set, and leaves the accounts before and after it alone. -/
theorem changeUserAccounts_targeted (env : Env) (ctr : ChangeTierRequest)
    (newNsTemplateSet : NSTemplateSetSpec) (htarget : ctr.spec.TargetCluster ≠ "")
    (pre post : List UserAccountEmbedded) (ua : UserAccountEmbedded) (old : NSTemplateSetSpec)
    (labels : List (String × String))
    (hua : ua.TargetCluster = ctr.spec.TargetCluster)
    (hset : ua.NSTemplateSet = some old)
    (hpre : ∀ x ∈ pre, x.TargetCluster ≠ ctr.spec.TargetCluster) :
    changeUserAccounts env ctr newNsTemplateSet (pre ++ ua :: post) labels
      = (pre ++ { ua with NSTemplateSet := some newNsTemplateSet } :: post,
         mapDelete labels (env.TemplateTierHashLabelKey old.TierName), true) := by
  induction pre with
  | nil =>
    simp only [List.nil_append, changeUserAccounts, hset, htarget, hua, ne_eq, not_false_eq_true,
      if_true]
  | cons x rest ih =>
    have hx : x.TargetCluster ≠ ctr.spec.TargetCluster := hpre x (List.mem_cons_self _ _)
    have ih' := ih (fun y hy => hpre y (List.mem_cons_of_mem _ hy))
    cases hxs : x.NSTemplateSet with
    | none =>
      rw [List.cons_append, changeUserAccounts]
      simp only [hxs, ih']
      rfl
    | some s =>
      rw [List.cons_append, changeUserAccounts]
      simp only [hxs, htarget, ne_eq, not_false_eq_true, if_true, hx, if_false, ih']
      rfl

theorem resetDeactivating_records (env : Env) (ctr : ChangeTierRequest) (ns : String)
    (mur : MasterUserRecord) (w : World) :
    (resetDeactivating env ctr ns mur w).2.masterUserRecords = w.masterUserRecords := by
  unfold resetDeactivating
  split
  · exact (requestOnly_failWith env ctr _ _ w).2.1
  · split
    · exact (requestOnly_failWith env ctr _ _ w).2.1
    · split
      · rename_i heq
        simp only [getUserSignup, Prod.mk.injEq] at heq
        obtain ⟨_, rfl⟩ := heq
        exact (requestOnly_failWith env ctr _ _ (World.record w _)).2.1
      · rename_i heq
        simp only [getUserSignup, Prod.mk.injEq] at heq
        obtain ⟨_, rfl⟩ := heq
        split
        · split
          · rename_i heq2
            have hw := congrArg Prod.snd heq2
            simp only at hw
            subst hw
            rw [(requestOnly_failWith env ctr _ _ _).2.1]
            exact (signupStep_updateUserSignup env _ (World.record w _)).2.2.1
          · rename_i heq2
            have hw := congrArg Prod.snd heq2
            simp only at hw
            subst hw
            exact (signupStep_updateUserSignup env _ (World.record w _)).2.2.1
        · rfl

/-- Claim C9. With a non-empty target cluster, when exactly one user account of the stored
record has that cluster, and it has a template set, a successful record step stores the
record with exactly that account set to the template set derived from the tier; the
accounts before and after it are stored as they were, in the same order.  (The accounts
after it are not inspected: the loop ends at the first match.) -/
theorem changeTierInMasterUserRecord_one_entry (env : Env) (ctr : ChangeTierRequest)
    (ns : String) (tier : NSTemplateTier) (w : World) (mur : MasterUserRecord)
    (pre post : List UserAccountEmbedded) (ua : UserAccountEmbedded) (old : NSTemplateSetSpec)
    (htarget : ctr.spec.TargetCluster ≠ "")
    (hmur : lookupKey MasterUserRecord.key w.masterUserRecords ⟨ns, ctr.spec.MurName⟩
      = some mur)
    (huas : mur.UserAccounts = pre ++ ua :: post)
    (hua : ua.TargetCluster = ctr.spec.TargetCluster)
    (hset : ua.NSTemplateSet = some old)
    (hpre : ∀ x ∈ pre, x.TargetCluster ≠ ctr.spec.TargetCluster)
    (_hpost : ∀ x ∈ post, x.TargetCluster ≠ ctr.spec.TargetCluster)
    (hok : (changeTierInMasterUserRecord env ctr ns tier w).1.2 = (true, none)) :
    ∃ stored,
      lookupKey MasterUserRecord.key
          (changeTierInMasterUserRecord env ctr ns tier w).2.masterUserRecords
          ⟨ns, ctr.spec.MurName⟩ = some stored
      ∧ stored.UserAccounts
          = pre ++ { ua with NSTemplateSet := some (env.NewNSTemplateSetSpec tier) } :: post := by
  rcases changeTierInMasterUserRecord_cases env ctr ns tier w with
    hfail | heq | ⟨mur', labels, hl, _, _, _, hrec, _, _, _⟩
  · rw [hok] at hfail
    exact absurd rfl hfail
  · rw [heq] at hok
    simp at hok
  · rw [hmur] at hl
    cases hl
    have hkey0 : mur.key = ⟨ns, ctr.spec.MurName⟩ :=
      lookupKey_key MasterUserRecord.key _ _ _ hmur
    have hkey : (changedRecord env ctr tier mur labels).key = ⟨ns, ctr.spec.MurName⟩ := hkey0
    refine ⟨changedRecord env ctr tier mur labels, ?_, ?_⟩
    · rw [hrec, ← hkey]
      exact lookupKey_replaceKey MasterUserRecord.key _ _ mur (by rw [hkey]; exact hmur)
    · show (changeUserAccounts env ctr (env.NewNSTemplateSetSpec tier) mur.UserAccounts
        mur.Labels).1 = _
      rw [huas, changeUserAccounts_targeted env ctr _ htarget pre post ua old _ hua hset hpre]

/-- Claim C9 at the record of `john` and the request for cluster `member-2`: the second
account gets the template set of tier `team`, the first and the third stay. -/
theorem changeTierInMasterUserRecord_one_entry_witness :
    ∃ stored,
      lookupKey MasterUserRecord.key
          (changeTierInMasterUserRecord (exEnv 30) exPending "toolchain-host" exTier
            (exWorld exPending)).2.masterUserRecords
          ⟨"toolchain-host", exPending.spec.MurName⟩ = some stored
      ∧ stored.UserAccounts
          = [⟨"member-1", "default", some exBasicSet⟩]
            ++ { (⟨"member-2", "default", some exBasicSet⟩ : UserAccountEmbedded) with
                 NSTemplateSet := some ((exEnv 30).NewNSTemplateSetSpec exTier) }
              :: [⟨"member-3", "default", none⟩] :=
  changeTierInMasterUserRecord_one_entry (exEnv 30) exPending "toolchain-host" exTier
    (exWorld exPending) exRecord [⟨"member-1", "default", some exBasicSet⟩]
    [⟨"member-3", "default", none⟩] ⟨"member-2", "default", some exBasicSet⟩ exBasicSet
    (by decide) (by decide) rfl rfl rfl (by decide) (by decide) (by decide)

/-! ## Label maps -/

theorem mapGet_mapDelete (m : List (String × String)) (k k' : String) :
    mapGet (mapDelete m k) k' = if k' = k then none else mapGet m k' := by
  induction m with
  | nil => simp [mapDelete, mapGet]
  | cons p rest ih =>
    obtain ⟨a, b⟩ := p
    unfold mapDelete at ih ⊢
    by_cases ha : a = k
    · subst ha
      simp only [List.filter_cons, ne_eq, not_true_eq_false, decide_False, Bool.false_eq_true,
        if_false, ih]
      by_cases hk : k' = a
      · simp [hk]
      · have : ¬ a = k' := fun h => hk h.symm
        simp [hk, mapGet, this]
    · simp only [List.filter_cons, ne_eq, ha, not_false_eq_true, decide_True, if_true, mapGet, ih]
      by_cases hk : k' = k
      · subst hk
        simp [ha]
      · simp [hk]

theorem mapGet_mapDelete_self (m : List (String × String)) (k : String) :
    mapGet (mapDelete m k) k = none := by
  rw [mapGet_mapDelete]; simp

theorem mapGet_mapDelete_other (m : List (String × String)) (k k' : String) (h : k' ≠ k) :
    mapGet (mapDelete m k) k' = mapGet m k' := by
  rw [mapGet_mapDelete]; simp [h]

theorem mapGet_mapSet_self (m : List (String × String)) (k v : String) :
    mapGet (mapSet m k v) k = some v := by
  simp [mapSet, mapGet]

theorem mapGet_mapSet_other (m : List (String × String)) (k k' v : String) (h : k' ≠ k) :
    mapGet (mapSet m k v) k' = mapGet m k' := by
  have : ¬ k = k' := fun e => h e.symm
  simp [mapSet, mapGet, this, mapGet_mapDelete_other m k k' h]

/-! ## A record without matching user account -/

theorem updateStatusConditions_memory (env : Env) (cr : ChangeTierRequest) (nc : Condition)
    (w : World) :
    (updateStatusConditions env cr [nc] w).1.1
      = { cr with conditions := (addOrUpdateStatusCondition env.now cr.conditions nc).1 } := by
  unfold updateStatusConditions
  rw [AddOrUpdateStatusConditions_single]
  dsimp only
  split_ifs <;> rfl

theorem failWith_memory (env : Env) (ctr : ChangeTierRequest) (err : Err) (message : String)
    (w : World) :
    (failWith env ctr err message w).1.1
      = { ctr with
          conditions := (addOrUpdateStatusCondition env.now ctr.conditions
            { type := ChangeTierRequestComplete, status := ConditionFalse,
              reason := ChangeTierRequestChangeFailedReason, message := err.Error,
              lastTransitionTime := 0 }).1 } := by
  simp only [failWith, wrapErrorWithStatusUpdate, setStatusChangeFailed]
  exact updateStatusConditions_memory env ctr _ w

/-- With a target cluster that no user account has, the first loop changes nothing. -/
theorem changeUserAccounts_no_match (env : Env) (ctr : ChangeTierRequest)
    (newNsTemplateSet : NSTemplateSetSpec) (htarget : ctr.spec.TargetCluster ≠ "")
    (uas : List UserAccountEmbedded) (labels : List (String × String))
    (hnone : ∀ x ∈ uas, x.TargetCluster ≠ ctr.spec.TargetCluster) :
    changeUserAccounts env ctr newNsTemplateSet uas labels = (uas, labels, false) := by
  induction uas with
  | nil => rfl
  | cons x rest ih =>
    have hx : x.TargetCluster ≠ ctr.spec.TargetCluster := hnone x (List.mem_cons_self _ _)
    have ih' := ih (fun y hy => hnone y (List.mem_cons_of_mem _ hy))
    cases hxs : x.NSTemplateSet with
    | none =>
      rw [changeUserAccounts]
      simp only [hxs, ih']
    | some s =>
      rw [changeUserAccounts]
      simp only [hxs, htarget, ne_eq, not_false_eq_true, if_true, hx, if_false, ih']

/-- Claim C14. With a non-empty target cluster and a stored record none of whose user
accounts has that cluster, the record step returns "not processed" with the error
"the MasterUserRecord ... doesn't contain UserAccount with cluster ...", issues no update
of the record (the stored records are as before and the calls after the read are calls
on the request), and puts the Complete condition with status False, reason ChangeFailed
and that message on the request; the stored request carries it when the request in memory
is the stored one and the status update is not rejected. -/
theorem changeTierInMasterUserRecord_no_match (env : Env) (ctr : ChangeTierRequest)
    (ns : String) (tier : NSTemplateTier) (w : World) (mur : MasterUserRecord)
    (htarget : ctr.spec.TargetCluster ≠ "")
    (hfault : env.faults (.getMasterUserRecord ⟨ns, ctr.spec.MurName⟩) = none)
    (hmur : lookupKey MasterUserRecord.key w.masterUserRecords ⟨ns, ctr.spec.MurName⟩
      = some mur)
    (hnone : ∀ x ∈ mur.UserAccounts, x.TargetCluster ≠ ctr.spec.TargetCluster) :
    (changeTierInMasterUserRecord env ctr ns tier w).1.2
        = (false, some (Wrapf
            (.other ("the MasterUserRecord '" ++ ctr.spec.MurName
              ++ "' doesn't contain UserAccount with cluster '"
              ++ ctr.spec.TargetCluster ++ "' whose tier should be changed"))
            ("unable to change tier in MasterUserRecord " ++ ctr.spec.MurName)))
      ∧ (changeTierInMasterUserRecord env ctr ns tier w).2.masterUserRecords
          = w.masterUserRecords
      ∧ (∃ new, (changeTierInMasterUserRecord env ctr ns tier w).2.calls
            = w.calls ++ .getMasterUserRecord ⟨ns, ctr.spec.MurName⟩ :: new
          ∧ ∀ c ∈ new, Call.onRequest c = true)
      ∧ (∃ c, FindConditionByType
              (changeTierInMasterUserRecord env ctr ns tier w).1.1.conditions
              ChangeTierRequestComplete = some c
          ∧ c.status = ConditionFalse
          ∧ c.reason = ChangeTierRequestChangeFailedReason
          ∧ c.message = "the MasterUserRecord '" ++ ctr.spec.MurName
              ++ "' doesn't contain UserAccount with cluster '"
              ++ ctr.spec.TargetCluster ++ "' whose tier should be changed")
      ∧ (lookupKey ChangeTierRequest.key w.changeTierRequests ctr.key = some ctr →
          (∀ obj, env.faults (.statusUpdate obj) = none) →
          lookupKey ChangeTierRequest.key
              (changeTierInMasterUserRecord env ctr ns tier w).2.changeTierRequests ctr.key
            = some (changeTierInMasterUserRecord env ctr ns tier w).1.1) := by
  have hloop := changeUserAccounts_no_match env ctr (env.NewNSTemplateSetSpec tier) htarget
    mur.UserAccounts mur.Labels hnone
  have hR : changeTierInMasterUserRecord env ctr ns tier w
      = failWith env ctr
          (.other ("the MasterUserRecord '" ++ ctr.spec.MurName
            ++ "' doesn't contain UserAccount with cluster '"
            ++ ctr.spec.TargetCluster ++ "' whose tier should be changed"))
          ("unable to change tier in MasterUserRecord " ++ ctr.spec.MurName)
          (w.record (.getMasterUserRecord ⟨ns, ctr.spec.MurName⟩)) := by
    unfold changeTierInMasterUserRecord
    simp only [getMasterUserRecord, getOutcome, hfault, hmur, hloop, if_true]
  rw [hR]
  obtain ⟨_, hm, _, _, new, hnew, hall⟩ := requestOnly_failWith env ctr
    (.other ("the MasterUserRecord '" ++ ctr.spec.MurName
      ++ "' doesn't contain UserAccount with cluster '"
      ++ ctr.spec.TargetCluster ++ "' whose tier should be changed"))
    ("unable to change tier in MasterUserRecord " ++ ctr.spec.MurName)
    (w.record (.getMasterUserRecord ⟨ns, ctr.spec.MurName⟩))
  obtain ⟨c, hc, hs, hr, hmsg⟩ := find_addOrUpdateLoop_same
    { type := ChangeTierRequestComplete, status := ConditionFalse,
      reason := ChangeTierRequestChangeFailedReason,
      message := "the MasterUserRecord '" ++ ctr.spec.MurName
        ++ "' doesn't contain UserAccount with cluster '"
        ++ ctr.spec.TargetCluster ++ "' whose tier should be changed",
      lastTransitionTime := env.now } ctr.conditions
  refine ⟨failWith_result _ _ _ _ _, hm, ⟨new, ?_, hall⟩, ⟨c, ?_, hs, hr, hmsg⟩, ?_⟩
  · rw [hnew]
    simp [World.record]
  · rw [failWith_memory]
    exact hc
  · intro hstored hstatus
    obtain ⟨_, hok, _, hnofault⟩ := updateStatusConditions_stored env ctr
      { type := ChangeTierRequestComplete, status := ConditionFalse,
        reason := ChangeTierRequestChangeFailedReason,
        message := "the MasterUserRecord '" ++ ctr.spec.MurName
          ++ "' doesn't contain UserAccount with cluster '"
          ++ ctr.spec.TargetCluster ++ "' whose tier should be changed",
        lastTransitionTime := 0 }
      (w.record (.getMasterUserRecord ⟨ns, ctr.spec.MurName⟩)) hstored
    rw [failWith_memory, failWith_world]
    exact hok (hnofault hstatus)

/-- Claim C14 at the pending request for cluster `member-2` and the record of `john`
without an account on that cluster. -/
theorem changeTierInMasterUserRecord_no_match_witness :
    (changeTierInMasterUserRecord (exEnv 30) exPending "toolchain-host" exTier
        exWorldNoMatch).1.2.1 = false
      ∧ (changeTierInMasterUserRecord (exEnv 30) exPending "toolchain-host" exTier
        exWorldNoMatch).2.masterUserRecords = [exRecordNoMatch] :=
  have h := changeTierInMasterUserRecord_no_match (exEnv 30) exPending "toolchain-host" exTier
    exWorldNoMatch exRecordNoMatch (by decide) rfl (by decide) (by decide)
  ⟨by rw [h.1], h.2.1⟩

/-! ## The change of the Space -/

theorem changeTierInSpace_done_eq (env : Env) (ctr : ChangeTierRequest) (ns : String)
    (w : World) (space : Space)
    (hfault : env.faults (.getSpace ⟨ns, ctr.spec.MurName⟩) = none)
    (hspace : lookupKey Space.key w.spaces ⟨ns, ctr.spec.MurName⟩ = some space)
    (hdone : space.TierName = ctr.spec.TierName) :
    changeTierInSpace env ctr ns w
      = ((ctr, true, none), w.record (.getSpace ⟨ns, ctr.spec.MurName⟩)) := by
  unfold changeTierInSpace
  simp only [getSpace, getOutcome, hfault, hspace, hdone, if_true]

theorem changeTierInSpace_update_eq (env : Env) (ctr : ChangeTierRequest) (ns : String)
    (w : World) (space : Space)
    (hfault : env.faults (.getSpace ⟨ns, ctr.spec.MurName⟩) = none)
    (hspace : lookupKey Space.key w.spaces ⟨ns, ctr.spec.MurName⟩ = some space)
    (hdiff : space.TierName ≠ ctr.spec.TierName)
    (hup : env.faults (.updateSpace
      { space with
        Labels := mapDelete space.Labels (env.TemplateTierHashLabelKey space.TierName),
        TierName := ctr.spec.TierName }) = none) :
    changeTierInSpace env ctr ns w
      = ((ctr, true, none),
         { (w.record (.getSpace ⟨ns, ctr.spec.MurName⟩)).record
            (.updateSpace
              { space with
                Labels := mapDelete space.Labels (env.TemplateTierHashLabelKey space.TierName),
                TierName := ctr.spec.TierName }) with
           spaces := replaceKey Space.key w.spaces
             { space with
               Labels := mapDelete space.Labels (env.TemplateTierHashLabelKey space.TierName),
               TierName := ctr.spec.TierName } }) := by
  have hkey : space.key = ⟨ns, ctr.spec.MurName⟩ := lookupKey_key Space.key _ _ _ hspace
  have hkey' : Space.key
      { space with
        Labels := mapDelete space.Labels (env.TemplateTierHashLabelKey space.TierName),
        TierName := ctr.spec.TierName } = ⟨ns, ctr.spec.MurName⟩ := hkey
  unfold changeTierInSpace
  simp only [getSpace, getOutcome, hfault, hspace, hdiff, if_false]
  unfold updateSpace
  simp only [hup, hkey', World.record, hspace]

/-- Claim C17. For a stored space whose tier differs from the tier of the request, a
successful space step returns "processed" without error and stores the space with the
tier of the request, with the previous labels minus the hash label of the previous tier
(no label is added), and with its other fields as before. -/
theorem changeTierInSpace_changes (env : Env) (ctr : ChangeTierRequest) (ns : String)
    (w : World) (space : Space)
    (hfault : env.faults (.getSpace ⟨ns, ctr.spec.MurName⟩) = none)
    (hspace : lookupKey Space.key w.spaces ⟨ns, ctr.spec.MurName⟩ = some space)
    (hdiff : space.TierName ≠ ctr.spec.TierName)
    (hok : (changeTierInSpace env ctr ns w).1.2.2 = none) :
    (changeTierInSpace env ctr ns w).1.2 = (true, none)
      ∧ ∃ stored,
          lookupKey Space.key (changeTierInSpace env ctr ns w).2.spaces
            ⟨ns, ctr.spec.MurName⟩ = some stored
          ∧ stored.TierName = ctr.spec.TierName
          ∧ stored.Labels
              = mapDelete space.Labels (env.TemplateTierHashLabelKey space.TierName)
          ∧ (∀ k, mapGet stored.Labels k
              = if k = env.TemplateTierHashLabelKey space.TierName then none
                else mapGet space.Labels k)
          ∧ stored.ns = space.ns ∧ stored.name = space.name
          ∧ stored.TargetCluster = space.TargetCluster := by
  have hkey : space.key = ⟨ns, ctr.spec.MurName⟩ := lookupKey_key Space.key _ _ _ hspace
  have hkey' : Space.key
      { space with
        Labels := mapDelete space.Labels (env.TemplateTierHashLabelKey space.TierName),
        TierName := ctr.spec.TierName } = ⟨ns, ctr.spec.MurName⟩ := hkey
  have hform : changeTierInSpace env ctr ns w
      = match updateSpace env
          { space with
            Labels := mapDelete space.Labels (env.TemplateTierHashLabelKey space.TierName),
            TierName := ctr.spec.TierName }
          (w.record (.getSpace ⟨ns, ctr.spec.MurName⟩)) with
        | (some err, w2) =>
          failWith env ctr err ("unable to change tier in Space " ++ ctr.spec.MurName) w2
        | (none, w2) => ((ctr, true, none), w2) := by
    unfold changeTierInSpace
    simp only [getSpace, getOutcome, hfault, hspace, hdiff, if_false]
  rw [hform] at hok ⊢
  rcases hU : updateSpace env
      { space with
        Labels := mapDelete space.Labels (env.TemplateTierHashLabelKey space.TierName),
        TierName := ctr.spec.TierName }
      (w.record (.getSpace ⟨ns, ctr.spec.MurName⟩)) with ⟨_ | e, w2⟩
  · obtain ⟨_, hs, _⟩ := updateSpace_ok _ _ _ _ hU
    refine ⟨rfl,
      { space with
        Labels := mapDelete space.Labels (env.TemplateTierHashLabelKey space.TierName),
        TierName := ctr.spec.TierName }, ?_, rfl, rfl, ?_, rfl, rfl, rfl⟩
    · show lookupKey Space.key w2.spaces ⟨ns, ctr.spec.MurName⟩ = _
      rw [hs, ← hkey']
      exact lookupKey_replaceKey Space.key _ _ space (by rw [hkey']; exact hspace)
    · intro k
      exact mapGet_mapDelete _ _ _
  · rw [hU] at hok
    simp [failWith_result] at hok

/-- Claim C17 at the space of `john` on tier `basic` and the request for tier `team`. -/
theorem changeTierInSpace_changes_witness :
    (changeTierInSpace (exEnv 30) exPending "toolchain-host" (exWorld exPending)).1.2
        = (true, none)
      ∧ ∃ stored,
          lookupKey Space.key
            (changeTierInSpace (exEnv 30) exPending "toolchain-host"
              (exWorld exPending)).2.spaces
            ⟨"toolchain-host", exPending.spec.MurName⟩ = some stored
          ∧ stored.TierName = exPending.spec.TierName
          ∧ stored.Labels
              = mapDelete exSpace.Labels ((exEnv 30).TemplateTierHashLabelKey exSpace.TierName)
          ∧ (∀ k, mapGet stored.Labels k
              = if k = (exEnv 30).TemplateTierHashLabelKey exSpace.TierName then none
                else mapGet exSpace.Labels k)
          ∧ stored.ns = exSpace.ns ∧ stored.name = exSpace.name
          ∧ stored.TargetCluster = exSpace.TargetCluster :=
  changeTierInSpace_changes (exEnv 30) exPending "toolchain-host" (exWorld exPending) exSpace
    rfl (by decide) (by decide) (by decide)

/-- A pass on a pending request for an existing tier, without record and with a space that
already has the tier, when the status update is not rejected: no error, a requeue, the
spaces as before and the stored request complete. -/
theorem Reconcile_space_done (env : Env) (request : Key) (w : World) (d : Int)
    (ctr : ChangeTierRequest) (tier : NSTemplateTier) (space : Space)
    (hcfg : env.GetToolchainConfig = .ok d)
    (hfault : env.faults (.getChangeTierRequest request) = none)
    (hstored : lookupKey ChangeTierRequest.key w.changeTierRequests request = some ctr)
    (hpending : isComplete ctr.conditions = false)
    (htierFault : env.faults (.getNSTemplateTier ⟨request.ns, ctr.spec.TierName⟩) = none)
    (htier : lookupKey NSTemplateTier.key w.nsTemplateTiers ⟨request.ns, ctr.spec.TierName⟩
      = some tier)
    (hmurFault : env.faults (.getMasterUserRecord ⟨request.ns, ctr.spec.MurName⟩) = none)
    (hmur : lookupKey MasterUserRecord.key w.masterUserRecords ⟨request.ns, ctr.spec.MurName⟩
      = none)
    (hspaceFault : env.faults (.getSpace ⟨request.ns, ctr.spec.MurName⟩) = none)
    (hspace : lookupKey Space.key w.spaces ⟨request.ns, ctr.spec.MurName⟩ = some space)
    (hdone : space.TierName = ctr.spec.TierName)
    (hstatus : ∀ obj, env.faults (.statusUpdate obj) = none) :
    (Reconcile env request w).1 = (⟨true, d⟩, none)
      ∧ (Reconcile env request w).2.spaces = w.spaces
      ∧ ∃ c, storedCondition (Reconcile env request w).2 request ChangeTierRequestComplete
            = some c
          ∧ c.status = ConditionTrue
          ∧ c.reason = ChangeTierRequestChangedReason := by
  have hkey : ctr.key = request := lookupKey_key _ _ _ _ hstored
  rw [Reconcile_pending env request w d ctr hcfg hfault hstored hpending]
  have hCT := changeTier_space_done env ctr request.ns
    (w.record (.getChangeTierRequest request)) tier space htierFault htier hmurFault hmur
    hspaceFault hspace hdone
  have hchange : (changeTier env ctr request.ns
      (w.record (.getChangeTierRequest request))).1.2 = none := by rw [hCT]
  rw [reconcilePending_ok env request d ctr _ hchange, hCT]
  obtain ⟨_, hok, _, hnofault⟩ := updateStatusConditions_stored env ctr
    { type := ChangeTierRequestComplete, status := ConditionTrue,
      reason := ChangeTierRequestChangedReason, message := "", lastTransitionTime := 0 }
    ((((w.record (.getChangeTierRequest request)).record
      (.getNSTemplateTier ⟨request.ns, ctr.spec.TierName⟩)).record
      (.getMasterUserRecord ⟨request.ns, ctr.spec.MurName⟩)).record
      (.getSpace ⟨request.ns, ctr.spec.MurName⟩))
    (by rw [hkey]; exact hstored)
  have hnone := hnofault hstatus
  have hlook := hok hnone
  rw [hkey] at hlook
  obtain ⟨c, hc, hs, hr, _⟩ := find_addOrUpdateLoop_same
    { type := ChangeTierRequestComplete, status := ConditionTrue,
      reason := ChangeTierRequestChangedReason, message := "",
      lastTransitionTime := env.now } ctr.conditions
  obtain ⟨_, _, hsp, _, _⟩ := requestOnly_updateStatusConditions env ctr
    [{ type := ChangeTierRequestComplete, status := ConditionTrue,
       reason := ChangeTierRequestChangedReason, message := "", lastTransitionTime := 0 }]
    ((((w.record (.getChangeTierRequest request)).record
      (.getNSTemplateTier ⟨request.ns, ctr.spec.TierName⟩)).record
      (.getMasterUserRecord ⟨request.ns, ctr.spec.MurName⟩)).record
      (.getSpace ⟨request.ns, ctr.spec.MurName⟩))
  unfold setStatusChangeComplete
  rw [hnone]
  refine ⟨rfl, hsp, c, ?_, hs, hr⟩
  rw [storedCondition_of_lookup _ _ _ _ hlook]
  exact hc

/-- Claim C16. For a stored space that already has the tier of the request, the space
step issues no update (its only call is the read), leaves the stored spaces, and so the
tier and every label of the space, as they were, and returns "processed" without error;
so that a pass on a pending request for an existing tier, with no record of that name,
goes on to mark the request complete (stored as such when the status update is not
rejected). -/
theorem changeTierInSpace_same_tier (env : Env) (ctr : ChangeTierRequest) (ns : String)
    (w : World) (space : Space)
    (hfault : env.faults (.getSpace ⟨ns, ctr.spec.MurName⟩) = none)
    (hspace : lookupKey Space.key w.spaces ⟨ns, ctr.spec.MurName⟩ = some space)
    (hdone : space.TierName = ctr.spec.TierName) :
    (changeTierInSpace env ctr ns w).1 = (ctr, true, none)
      ∧ (changeTierInSpace env ctr ns w).2.spaces = w.spaces
      ∧ lookupKey Space.key (changeTierInSpace env ctr ns w).2.spaces ⟨ns, ctr.spec.MurName⟩
          = some space
      ∧ (changeTierInSpace env ctr ns w).2.calls
          = w.calls ++ [.getSpace ⟨ns, ctr.spec.MurName⟩]
      ∧ (∀ (request : Key) (w0 : World) (d : Int) (tier : NSTemplateTier),
          request.ns = ns →
          env.GetToolchainConfig = .ok d →
          env.faults (.getChangeTierRequest request) = none →
          lookupKey ChangeTierRequest.key w0.changeTierRequests request = some ctr →
          isComplete ctr.conditions = false →
          env.faults (.getNSTemplateTier ⟨request.ns, ctr.spec.TierName⟩) = none →
          lookupKey NSTemplateTier.key w0.nsTemplateTiers ⟨request.ns, ctr.spec.TierName⟩
            = some tier →
          env.faults (.getMasterUserRecord ⟨request.ns, ctr.spec.MurName⟩) = none →
          lookupKey MasterUserRecord.key w0.masterUserRecords
            ⟨request.ns, ctr.spec.MurName⟩ = none →
          lookupKey Space.key w0.spaces ⟨request.ns, ctr.spec.MurName⟩ = some space →
          (∀ obj, env.faults (.statusUpdate obj) = none) →
          (Reconcile env request w0).1 = (⟨true, d⟩, none)
            ∧ (Reconcile env request w0).2.spaces = w0.spaces
            ∧ ∃ c, storedCondition (Reconcile env request w0).2 request
                  ChangeTierRequestComplete = some c
                ∧ c.status = ConditionTrue
                ∧ c.reason = ChangeTierRequestChangedReason) := by
  rw [changeTierInSpace_done_eq env ctr ns w space hfault hspace hdone]
  refine ⟨rfl, rfl, hspace, rfl, ?_⟩
  intro request w0 d tier hns hcfg hget hstored hpending htf htier hmf hmur hsp hstatus
  subst hns
  exact Reconcile_space_done env request w0 d ctr tier space hcfg hget hstored hpending htf
    htier hmf hmur hfault hsp hdone hstatus

/-- Claim C16 at a space of `john` that is already on tier `team`: the step reads the
space and writes nothing, and the pass without record completes the request. -/
theorem changeTierInSpace_same_tier_witness :
    (changeTierInSpace (exEnv 30) exPending "toolchain-host" exWorldSpaceDone).1
        = (exPending, true, none)
      ∧ (changeTierInSpace (exEnv 30) exPending "toolchain-host" exWorldSpaceDone).2.spaces
        = exWorldSpaceDone.spaces
      ∧ (Reconcile (exEnv 30) exKey exWorldSpaceDone).1 = (⟨true, 30⟩, none) :=
  have h := changeTierInSpace_same_tier (exEnv 30) exPending "toolchain-host" exWorldSpaceDone
    { exSpace with TierName := "team", Labels := [] } rfl (by decide) (by decide)
  ⟨h.1, h.2.1,
    (h.2.2.2.2 exKey exWorldSpaceDone 30 exTier rfl rfl rfl (by decide) (by decide) rfl
      (by decide) rfl (by decide) (by decide) (fun _ => rfl)).1⟩

/-! ## The space step after the record step -/

theorem spaceUntouched_refl (w : World) : spaceUntouched w w :=
  ⟨rfl, [], by simp, by simp⟩

theorem spaceUntouched_trans {w1 w2 w3 : World} (h12 : spaceUntouched w1 w2)
    (h23 : spaceUntouched w2 w3) : spaceUntouched w1 w3 := by
  obtain ⟨a, n1, hn1, hc1⟩ := h12
  obtain ⟨b, n2, hn2, hc2⟩ := h23
  refine ⟨b.trans a, n1 ++ n2, ?_, ?_⟩
  · rw [hn2, hn1, List.append_assoc]
  · intro c hc
    rcases List.mem_append.mp hc with h | h
    · exact hc1 c h
    · exact hc2 c h

theorem spaceUntouched_record (w : World) (c : Call) (hc : Call.onSpace c = false) :
    spaceUntouched w (w.record c) :=
  ⟨rfl, [c], rfl, by simpa using hc⟩

theorem spaceUntouched_of_requestOnly {w w' : World} (h : requestOnly w w') :
    spaceUntouched w w' := by
  obtain ⟨_, _, hs, _, new, hnew, hall⟩ := h
  refine ⟨hs, new, hnew, ?_⟩
  intro c hc
  have := hall c hc
  cases c <;> simp_all [Call.onRequest, Call.onSpace]

theorem spaceUntouched_updateMasterUserRecord (env : Env) (obj : MasterUserRecord)
    (w : World) : spaceUntouched w (updateMasterUserRecord env obj w).2 := by
  have hrec := spaceUntouched_record w (.updateMasterUserRecord obj) rfl
  unfold updateMasterUserRecord
  cases env.faults (.updateMasterUserRecord obj) with
  | some e => exact hrec
  | none =>
    cases lookupKey MasterUserRecord.key w.masterUserRecords obj.key with
    | none => exact hrec
    | some x => exact hrec

theorem spaceUntouched_updateUserSignup (env : Env) (obj : UserSignup) (w : World) :
    spaceUntouched w (updateUserSignup env obj w).2 := by
  have hrec := spaceUntouched_record w (.updateUserSignup obj) rfl
  unfold updateUserSignup
  cases env.faults (.updateUserSignup obj) with
  | some e => exact hrec
  | none =>
    cases lookupKey UserSignup.key w.userSignups obj.key with
    | none => exact hrec
    | some x => exact hrec

theorem spaceUntouched_failWith (env : Env) (ctr : ChangeTierRequest) (err : Err)
    (message : String) (w : World) : spaceUntouched w (failWith env ctr err message w).2 :=
  spaceUntouched_of_requestOnly (requestOnly_failWith env ctr err message w)

theorem spaceUntouched_resetDeactivating (env : Env) (ctr : ChangeTierRequest) (ns : String)
    (mur : MasterUserRecord) (w : World) :
    spaceUntouched w (resetDeactivating env ctr ns mur w).2 := by
  have hget : ∀ n, spaceUntouched w (w.record (.getUserSignup ⟨ns, n⟩)) :=
    fun n => spaceUntouched_record w (.getUserSignup ⟨ns, n⟩) rfl
  unfold resetDeactivating
  split
  · exact spaceUntouched_failWith env ctr _ _ w
  · split
    · exact spaceUntouched_failWith env ctr _ _ w
    · split
      · rename_i heq
        simp only [getUserSignup, Prod.mk.injEq] at heq
        obtain ⟨_, rfl⟩ := heq
        exact spaceUntouched_trans (hget _) (spaceUntouched_failWith env ctr _ _ _)
      · rename_i heq
        simp only [getUserSignup, Prod.mk.injEq] at heq
        obtain ⟨_, rfl⟩ := heq
        split
        · split
          · rename_i heq2
            have hw := congrArg Prod.snd heq2
            simp only at hw
            subst hw
            exact spaceUntouched_trans
              (spaceUntouched_trans (hget _) (spaceUntouched_updateUserSignup env _ _))
              (spaceUntouched_failWith env ctr _ _ _)
          · rename_i heq2
            have hw := congrArg Prod.snd heq2
            simp only at hw
            subst hw
            exact spaceUntouched_trans (hget _) (spaceUntouched_updateUserSignup env _ _)
        · exact hget _

/-- The record step never reads or writes a space, whatever its outcome. -/
theorem spaceUntouched_changeTierInMasterUserRecord (env : Env) (ctr : ChangeTierRequest)
    (ns : String) (tier : NSTemplateTier) (w : World) :
    spaceUntouched w (changeTierInMasterUserRecord env ctr ns tier w).2 := by
  have hget := spaceUntouched_record w (.getMasterUserRecord ⟨ns, ctr.spec.MurName⟩) rfl
  unfold changeTierInMasterUserRecord
  split
  · rename_i heq
    simp only [getMasterUserRecord, Prod.mk.injEq] at heq
    obtain ⟨_, rfl⟩ := heq
    split
    · exact hget
    · exact spaceUntouched_trans hget (spaceUntouched_failWith env ctr _ _ _)
  · rename_i mur w1 heq
    simp only [getMasterUserRecord, Prod.mk.injEq] at heq
    obtain ⟨_, rfl⟩ := heq
    dsimp only
    split
    · exact spaceUntouched_trans hget (spaceUntouched_failWith env ctr _ _ _)
    · split
      · exact spaceUntouched_trans hget (spaceUntouched_failWith env ctr _ _ _)
      · split
        · rename_i heq2
          have hw := congrArg Prod.snd heq2
          simp only at hw
          subst hw
          exact spaceUntouched_trans
            (spaceUntouched_trans hget (spaceUntouched_updateMasterUserRecord env _ _))
            (spaceUntouched_failWith env ctr _ _ _)
        · rename_i heq2
          have hw := congrArg Prod.snd heq2
          simp only at hw
          subst hw
          exact spaceUntouched_trans
            (spaceUntouched_trans hget (spaceUntouched_updateMasterUserRecord env _ _))
            (spaceUntouched_resetDeactivating env ctr ns _ _)

/-- The last step of a pass on a pending request, the write of the completion status,
leaves the stored spaces as they are. -/
theorem completion_spaces (env : Env) (c : ChangeTierRequest) (W : World) (d : Int) :
    (match setStatusChangeComplete env c W with
      | ((_, some err), w1) => (((⟨false, 0⟩ : Result), some err), w1)
      | ((_, none), w2) => ((⟨true, d⟩, none), w2)).2.spaces = W.spaces := by
  have hro := requestOnly_updateStatusConditions env c
    [{ type := ChangeTierRequestComplete, status := ConditionTrue,
       reason := ChangeTierRequestChangedReason, message := "", lastTransitionTime := 0 }] W
  unfold setStatusChangeComplete
  rcases hC : updateStatusConditions env c
    [{ type := ChangeTierRequestComplete, status := ConditionTrue,
       reason := ChangeTierRequestChangedReason, message := "", lastTransitionTime := 0 }] W
    with ⟨⟨c2, _ | e2⟩, w4⟩
  · rw [hC] at hro
    exact hro.2.2.1
  · rw [hC] at hro
    exact hro.2.2.1

/-- Claim C15, as stated, fails: the record of `john` has no account on the target
cluster and his space is on another tier than the requested one; the pass returns the
error of the record step, the stored space keeps its tier and no call reads or writes
a space. -/
theorem Reconcile_space_skipped_counterexample :
    isComplete exPending.conditions = false
      ∧ (lookupKey Space.key exWorldNoMatch.spaces
          ⟨"toolchain-host", exPending.spec.MurName⟩).map (fun s => s.TierName) = some "basic"
      ∧ exPending.spec.TierName = "team"
      ∧ (Reconcile (exEnv 30) exKey exWorldNoMatch).1.2 ≠ none
      ∧ (lookupKey Space.key (Reconcile (exEnv 30) exKey exWorldNoMatch).2.spaces
          ⟨"toolchain-host", exPending.spec.MurName⟩).map (fun s => s.TierName) = some "basic"
      ∧ (Reconcile (exEnv 30) exKey exWorldNoMatch).2.calls.all
          (fun c => !Call.onSpace c) = true := by
  decide

/-- Claim C15, amended. The space step depends on the record step. For a pending request
naming an existing tier: when the record step returns no error, a stored space of the
requested name with another tier is stored with the tier of the request (its read and
its update not being rejected); when the record step returns an error (as it does when
the record exists and no user account matches the target cluster), the pass returns that
error, the stored spaces are as before and no call reads or writes a space. -/
theorem Reconcile_space_after_record (env : Env) (request : Key) (w : World) (d : Int)
    (ctr : ChangeTierRequest) (tier : NSTemplateTier)
    (hcfg : env.GetToolchainConfig = .ok d)
    (hfault : env.faults (.getChangeTierRequest request) = none)
    (hstored : lookupKey ChangeTierRequest.key w.changeTierRequests request = some ctr)
    (hpending : isComplete ctr.conditions = false)
    (htierFault : env.faults (.getNSTemplateTier ⟨request.ns, ctr.spec.TierName⟩) = none)
    (htier : lookupKey NSTemplateTier.key w.nsTemplateTiers ⟨request.ns, ctr.spec.TierName⟩
      = some tier) :
    (∀ space,
        (changeTierInMasterUserRecord env ctr request.ns tier
          ((w.record (.getChangeTierRequest request)).record
            (.getNSTemplateTier ⟨request.ns, ctr.spec.TierName⟩))).1.2.2 = none →
        env.faults (.getSpace ⟨request.ns, ctr.spec.MurName⟩) = none →
        lookupKey Space.key w.spaces ⟨request.ns, ctr.spec.MurName⟩ = some space →
        space.TierName ≠ ctr.spec.TierName →
        env.faults (.updateSpace
          { space with
            Labels := mapDelete space.Labels (env.TemplateTierHashLabelKey space.TierName),
            TierName := ctr.spec.TierName }) = none →
        lookupKey Space.key (Reconcile env request w).2.spaces ⟨request.ns, ctr.spec.MurName⟩
          = some { space with
              Labels := mapDelete space.Labels (env.TemplateTierHashLabelKey space.TierName),
              TierName := ctr.spec.TierName })
      ∧ (∀ e,
          (changeTierInMasterUserRecord env ctr request.ns tier
            ((w.record (.getChangeTierRequest request)).record
              (.getNSTemplateTier ⟨request.ns, ctr.spec.TierName⟩))).1.2.2 = some e →
          (Reconcile env request w).1 = (⟨false, 0⟩, some e)
            ∧ (Reconcile env request w).2.spaces = w.spaces
            ∧ ∃ new, (Reconcile env request w).2.calls = w.calls ++ new
                ∧ ∀ c ∈ new, Call.onSpace c = false) := by
  have hstep := spaceUntouched_changeTierInMasterUserRecord env ctr request.ns tier
    ((w.record (.getChangeTierRequest request)).record
      (.getNSTemplateTier ⟨request.ns, ctr.spec.TierName⟩))
  have h0 : spaceUntouched w ((w.record (.getChangeTierRequest request)).record
      (.getNSTemplateTier ⟨request.ns, ctr.spec.TierName⟩)) :=
    spaceUntouched_trans (spaceUntouched_record w (.getChangeTierRequest request) rfl)
      (spaceUntouched_record _ (.getNSTemplateTier ⟨request.ns, ctr.spec.TierName⟩) rfl)
  have hmok := changeTierInMasterUserRecord_ok env ctr request.ns tier
    ((w.record (.getChangeTierRequest request)).record
      (.getNSTemplateTier ⟨request.ns, ctr.spec.TierName⟩))
  rw [Reconcile_pending env request w d ctr hcfg hfault hstored hpending]
  unfold reconcilePending changeTier
  simp only [getNSTemplateTier, getOutcome, htierFault, World.record] at *
  simp only [htier]
  rcases hM : changeTierInMasterUserRecord env ctr request.ns tier
    { changeTierRequests := w.changeTierRequests, nsTemplateTiers := w.nsTemplateTiers,
      masterUserRecords := w.masterUserRecords, spaces := w.spaces,
      userSignups := w.userSignups,
      calls := w.calls ++ [.getChangeTierRequest request]
        ++ [.getNSTemplateTier ⟨request.ns, ctr.spec.TierName⟩] } with ⟨⟨c1, b1, e1⟩, w2⟩
  rw [hM] at hstep hmok
  constructor
  · intro space he hgs hspace hdiff hup
    simp only at he
    subst he
    obtain ⟨hc1, _⟩ := hmok rfl
    simp only at hc1
    subst hc1
    have hsp2 : lookupKey Space.key w2.spaces ⟨request.ns, c1.spec.MurName⟩ = some space := by
      rw [hstep.1]; exact hspace
    have hS := changeTierInSpace_update_eq env c1 request.ns w2 space hgs hsp2 hdiff hup
    simp only [hS]
    have hkey' : Space.key
        { space with
          Labels := mapDelete space.Labels (env.TemplateTierHashLabelKey space.TierName),
          TierName := c1.spec.TierName } = ⟨request.ns, c1.spec.MurName⟩ := by
      have hk0 : space.key = ⟨request.ns, c1.spec.MurName⟩ :=
        lookupKey_key Space.key _ _ _ hspace
      exact hk0
    have hfin : lookupKey Space.key
        (replaceKey Space.key w2.spaces
          { space with
            Labels := mapDelete space.Labels (env.TemplateTierHashLabelKey space.TierName),
            TierName := c1.spec.TierName }) ⟨request.ns, c1.spec.MurName⟩
        = some { space with
            Labels := mapDelete space.Labels (env.TemplateTierHashLabelKey space.TierName),
            TierName := c1.spec.TierName } := by
      rw [← hkey']
      exact lookupKey_replaceKey Space.key _ _ space (by rw [hkey']; exact hsp2)
    simp only [Bool.true_eq_false, and_false, if_false]
    rw [completion_spaces]
    exact hfin
  · intro e he
    simp only at he
    subst he
    simp only
    have h02 := spaceUntouched_trans h0 hstep
    exact ⟨trivial, h02.1, h02.2⟩

/-- Claim C15, amended, at the pending request for `john`: with the record changed the
space gets tier `team`; with the record without matching account the pass fails and the
space stays as it is. -/
theorem Reconcile_space_after_record_witness :
    (lookupKey Space.key (Reconcile (exEnv 30) exKey (exWorld exPending)).2.spaces
        ⟨exKey.ns, exPending.spec.MurName⟩).map (fun s => s.TierName) = some "team"
      ∧ (Reconcile (exEnv 30) exKey exWorldNoMatch).2.spaces = exWorldNoMatch.spaces :=
  have ha := (Reconcile_space_after_record (exEnv 30) exKey (exWorld exPending) 30 exPending
    exTier rfl rfl (by decide) (by decide) rfl (by decide)).1 exSpace (by decide) rfl
    (by decide) (by decide) rfl
  have hb := (Reconcile_space_after_record (exEnv 30) exKey exWorldNoMatch 30 exPending
    exTier rfl rfl (by decide) (by decide) rfl (by decide)).2
    (Wrapf
      (.other ("the MasterUserRecord '" ++ exPending.spec.MurName
        ++ "' doesn't contain UserAccount with cluster '"
        ++ exPending.spec.TargetCluster ++ "' whose tier should be changed"))
      ("unable to change tier in MasterUserRecord " ++ exPending.spec.MurName)) (by decide)
  ⟨by rw [ha]; rfl, hb.2.1⟩

/-! ## The hash labels of the MasterUserRecord -/

/-- The second loop leaves the label of a key at its value when every user account that
uses the key has that value as its hash. -/
theorem computeHashLabels_stable (env : Env) (k : String) (v : Option String) :
    ∀ (uas : List UserAccountEmbedded) (l0 l : List (String × String)),
      computeHashLabels env uas l0 = .ok l →
      mapGet l0 k = v →
      (∀ x ∈ uas, ∀ s, x.NSTemplateSet = some s →
        env.TemplateTierHashLabelKey s.TierName = k →
        ∃ h, env.ComputeHashForNSTemplateSetSpec s = .ok h ∧ v = some h) →
      mapGet l k = v := by
  intro uas
  induction uas with
  | nil =>
    intro l0 l hl hv _
    simp only [computeHashLabels, Except.ok.injEq] at hl
    rw [← hl]; exact hv
  | cons x rest ih =>
    intro l0 l hl hv hall
    have hrest : ∀ y ∈ rest, ∀ s, y.NSTemplateSet = some s →
        env.TemplateTierHashLabelKey s.TierName = k →
        ∃ h, env.ComputeHashForNSTemplateSetSpec s = .ok h ∧ v = some h :=
      fun y hy => hall y (List.mem_cons_of_mem _ hy)
    rw [computeHashLabels] at hl
    cases hxs : x.NSTemplateSet with
    | none =>
      simp only [hxs] at hl
      exact ih l0 l hl hv hrest
    | some s =>
      simp only [hxs] at hl
      cases hh : env.ComputeHashForNSTemplateSetSpec s with
      | error e => simp [hh] at hl
      | ok h =>
        simp only [hh] at hl
        refine ih _ l hl ?_ hrest
        by_cases hk : env.TemplateTierHashLabelKey s.TierName = k
        · obtain ⟨h', hh', hv'⟩ := hall x (List.mem_cons_self _ _) s hxs hk
          rw [hh] at hh'
          cases hh'
          rw [hk, mapGet_mapSet_self, hv']
        · rw [mapGet_mapSet_other _ _ _ _ (fun e => hk e.symm)]
          exact hv

/-- After the second loop the label of a key that some user account uses is the hash of a
user account that uses it. -/
theorem computeHashLabels_used (env : Env) (k : String) :
    ∀ (uas : List UserAccountEmbedded) (l0 l : List (String × String)),
      computeHashLabels env uas l0 = .ok l →
      (∃ x ∈ uas, ∃ s, x.NSTemplateSet = some s
        ∧ env.TemplateTierHashLabelKey s.TierName = k) →
      ∃ x ∈ uas, ∃ s h, x.NSTemplateSet = some s
        ∧ env.TemplateTierHashLabelKey s.TierName = k
        ∧ env.ComputeHashForNSTemplateSetSpec s = .ok h ∧ mapGet l k = some h := by
  intro uas
  induction uas with
  | nil =>
    intro l0 l _ hex
    obtain ⟨x, hx, _⟩ := hex
    simp at hx
  | cons x rest ih =>
    intro l0 l hl hex
    rw [computeHashLabels] at hl
    by_cases hrest : ∃ y ∈ rest, ∃ s, y.NSTemplateSet = some s
        ∧ env.TemplateTierHashLabelKey s.TierName = k
    · have hl' : ∃ l1, computeHashLabels env rest l1 = .ok l := by
        cases hxs : x.NSTemplateSet with
        | none =>
          simp only [hxs] at hl
          exact ⟨l0, hl⟩
        | some s =>
          simp only [hxs] at hl
          cases hh : env.ComputeHashForNSTemplateSetSpec s with
          | error e => simp [hh] at hl
          | ok h =>
            simp only [hh] at hl
            exact ⟨_, hl⟩
      obtain ⟨l1, hl1⟩ := hl'
      obtain ⟨y, hy, s, h, h1, h2, h3, h4⟩ := ih l1 l hl1 hrest
      exact ⟨y, List.mem_cons_of_mem _ hy, s, h, h1, h2, h3, h4⟩
    · obtain ⟨y, hy, s, hys, hyk⟩ := hex
      rcases List.mem_cons.mp hy with rfl | hy'
      · simp only [hys] at hl
        cases hh : env.ComputeHashForNSTemplateSetSpec s with
        | error e => simp [hh] at hl
        | ok h =>
          simp only [hh] at hl
          refine ⟨y, List.mem_cons_self _ _, s, h, hys, hyk, hh, ?_⟩
          refine computeHashLabels_stable env k (some h) rest _ l hl ?_ ?_
          · rw [hyk, mapGet_mapSet_self]
          · intro z hz s' hzs hzk
            exact absurd ⟨z, hz, s', hzs, hzk⟩ hrest
      · exact absurd ⟨y, hy', s, hys, hyk⟩ hrest

/-- After the second loop the label of the key of a user account is its hash, when every
later user account with the same key has the same hash. -/
theorem computeHashLabels_last (env : Env) (ua : UserAccountEmbedded) (s : NSTemplateSetSpec)
    (post : List UserAccountEmbedded) (hset : ua.NSTemplateSet = some s) :
    ∀ (pre : List UserAccountEmbedded) (l0 l : List (String × String)),
      computeHashLabels env (pre ++ ua :: post) l0 = .ok l →
      ∃ h, env.ComputeHashForNSTemplateSetSpec s = .ok h
        ∧ ((∀ x ∈ post, ∀ s', x.NSTemplateSet = some s' →
              env.TemplateTierHashLabelKey s'.TierName
                = env.TemplateTierHashLabelKey s.TierName →
              env.ComputeHashForNSTemplateSetSpec s' = .ok h) →
            mapGet l (env.TemplateTierHashLabelKey s.TierName) = some h) := by
  intro pre
  induction pre with
  | nil =>
    intro l0 l hl
    rw [List.nil_append, computeHashLabels] at hl
    simp only [hset] at hl
    cases hh : env.ComputeHashForNSTemplateSetSpec s with
    | error e => simp [hh] at hl
    | ok h =>
      simp only [hh] at hl
      refine ⟨h, rfl, fun hpost => ?_⟩
      refine computeHashLabels_stable env _ (some h) post _ l hl (mapGet_mapSet_self _ _ _) ?_
      intro x hx s' hxs hk
      exact ⟨h, hpost x hx s' hxs hk, rfl⟩
  | cons x rest ih =>
    intro l0 l hl
    rw [List.cons_append, computeHashLabels] at hl
    cases hxs : x.NSTemplateSet with
    | none =>
      simp only [hxs] at hl
      exact ih l0 l hl
    | some s' =>
      simp only [hxs] at hl
      cases hh : env.ComputeHashForNSTemplateSetSpec s' with
      | error e => simp [hh] at hl
      | ok h =>
        simp only [hh] at hl
        exact ih _ l hl

/-- With a target cluster, the first loop changes the first user account that has a
template set and the target cluster, and clears the hash label of its tier. -/
theorem changeUserAccounts_first_match (env : Env) (ctr : ChangeTierRequest)
    (newNsTemplateSet : NSTemplateSetSpec) (htarget : ctr.spec.TargetCluster ≠ "")
    (pre post : List UserAccountEmbedded) (ua : UserAccountEmbedded) (old : NSTemplateSetSpec)
    (labels : List (String × String))
    (hua : ua.TargetCluster = ctr.spec.TargetCluster)
    (hset : ua.NSTemplateSet = some old)
    (hpre : ∀ x ∈ pre, x.NSTemplateSet = none ∨ x.TargetCluster ≠ ctr.spec.TargetCluster) :
    changeUserAccounts env ctr newNsTemplateSet (pre ++ ua :: post) labels
      = (pre ++ { ua with NSTemplateSet := some newNsTemplateSet } :: post,
         mapDelete labels (env.TemplateTierHashLabelKey old.TierName), true) := by
  induction pre with
  | nil =>
    simp only [List.nil_append, changeUserAccounts, hset, htarget, hua, ne_eq, not_false_eq_true,
      if_true]
  | cons x rest ih =>
    have ih' := ih (fun y hy => hpre y (List.mem_cons_of_mem _ hy))
    cases hxs : x.NSTemplateSet with
    | none =>
      rw [List.cons_append, changeUserAccounts]
      simp only [hxs, ih']
      rfl
    | some s =>
      have hx : x.TargetCluster ≠ ctr.spec.TargetCluster := by
        rcases hpre x (List.mem_cons_self _ _) with h | h
        · rw [hxs] at h; cases h
        · exact h
      rw [List.cons_append, changeUserAccounts]
      simp only [hxs, htarget, ne_eq, not_false_eq_true, if_true, hx, if_false, ih']
      rfl

/-- The first loop only deletes labels: an absent label stays absent. -/
theorem changeUserAccounts_absent (env : Env) (ctr : ChangeTierRequest)
    (newNsTemplateSet : NSTemplateSetSpec) (k : String) :
    ∀ (uas : List UserAccountEmbedded) (labels : List (String × String)),
      mapGet labels k = none →
      mapGet (changeUserAccounts env ctr newNsTemplateSet uas labels).2.1 k = none := by
  intro uas
  induction uas with
  | nil => intro labels h; exact h
  | cons x rest ih =>
    intro labels h
    rw [changeUserAccounts]
    cases hxs : x.NSTemplateSet with
    | none => exact ih labels h
    | some s =>
      simp only
      split_ifs with h1 h2
      · show mapGet (mapDelete labels _) k = none
        rw [mapGet_mapDelete]
        split_ifs
        · rfl
        · exact h
      · exact ih labels h
      · refine ih _ ?_
        rw [mapGet_mapDelete]
        split_ifs
        · rfl
        · exact h

/-- Without a target cluster, the first loop clears the hash label of the tier of every
user account that has a template set. -/
theorem changeUserAccounts_all_cleared (env : Env) (ctr : ChangeTierRequest)
    (newNsTemplateSet : NSTemplateSetSpec) (htarget : ctr.spec.TargetCluster = "") :
    ∀ (uas : List UserAccountEmbedded) (labels : List (String × String)),
      ∀ ua ∈ uas, ∀ old, ua.NSTemplateSet = some old →
      mapGet (changeUserAccounts env ctr newNsTemplateSet uas labels).2.1
        (env.TemplateTierHashLabelKey old.TierName) = none := by
  intro uas
  induction uas with
  | nil => intro labels ua hua; simp at hua
  | cons x rest ih =>
    intro labels ua hua old hold
    rcases List.mem_cons.mp hua with rfl | hrest
    · rw [changeUserAccounts]
      simp only [hold, htarget, ne_eq, not_true_eq_false, if_false]
      exact changeUserAccounts_absent env ctr newNsTemplateSet _ rest _
        (mapGet_mapDelete_self _ _)
    · rw [changeUserAccounts]
      cases hxs : x.NSTemplateSet with
      | none => exact ih labels ua hrest old hold
      | some s =>
        simp only [htarget, ne_eq, not_true_eq_false, if_false]
        exact ih _ ua hrest old hold

/-- A successful record step on a stored record stores the changed record, with the
labels that the second loop computes. -/
theorem changeTierInMasterUserRecord_stored (env : Env) (ctr : ChangeTierRequest)
    (ns : String) (tier : NSTemplateTier) (w : World) (mur : MasterUserRecord)
    (hmur : lookupKey MasterUserRecord.key w.masterUserRecords ⟨ns, ctr.spec.MurName⟩
      = some mur)
    (hok : (changeTierInMasterUserRecord env ctr ns tier w).1.2 = (true, none)) :
    ∃ labels,
      computeHashLabels env
          (changeUserAccounts env ctr (env.NewNSTemplateSetSpec tier)
            mur.UserAccounts mur.Labels).1
          (changeUserAccounts env ctr (env.NewNSTemplateSetSpec tier)
            mur.UserAccounts mur.Labels).2.1 = .ok labels
      ∧ lookupKey MasterUserRecord.key
          (changeTierInMasterUserRecord env ctr ns tier w).2.masterUserRecords
          ⟨ns, ctr.spec.MurName⟩ = some (changedRecord env ctr tier mur labels) := by
  rcases changeTierInMasterUserRecord_cases env ctr ns tier w with
    hfail | heq | ⟨mur', labels, hl, _, hh, _, hrec, _, _, _⟩
  · rw [hok] at hfail
    exact absurd rfl hfail
  · rw [heq] at hok
    simp at hok
  · rw [hmur] at hl
    cases hl
    have hkey0 : mur.key = ⟨ns, ctr.spec.MurName⟩ :=
      lookupKey_key MasterUserRecord.key _ _ _ hmur
    have hkey : (changedRecord env ctr tier mur labels).key = ⟨ns, ctr.spec.MurName⟩ := hkey0
    refine ⟨labels, hh, ?_⟩
    rw [hrec, ← hkey]
    exact lookupKey_replaceKey MasterUserRecord.key _ _ mur (by rw [hkey]; exact hmur)

/-- Claim C11, as stated, fails: the first account of the record is on an outdated
revision of tier `team` and the request moves the second account to tier `team`; the
step succeeds, the stored record has both accounts on `team`, and the hash label of
`team` is the hash of the second account, not the hash of the first. -/
theorem hash_label_shared_counterexample :
    (changeTierInMasterUserRecord (exEnvRefs 30) exPending "toolchain-host" exTier
        (exWorldWith exRecordOutdated)).1.2 = (true, none)
      ∧ (lookupKey MasterUserRecord.key
          (changeTierInMasterUserRecord (exEnvRefs 30) exPending "toolchain-host" exTier
            (exWorldWith exRecordOutdated)).2.masterUserRecords
          ⟨"toolchain-host", "john"⟩).map (fun m => m.UserAccounts)
          = some [⟨"member-1", "default", some ⟨"team", ["team-dev-old"], none⟩⟩,
              ⟨"member-2", "default",
                some ⟨"team", ["team-dev", "team-stage"], some "team-cr"⟩⟩]
      ∧ (lookupKey MasterUserRecord.key
          (changeTierInMasterUserRecord (exEnvRefs 30) exPending "toolchain-host" exTier
            (exWorldWith exRecordOutdated)).2.masterUserRecords
          ⟨"toolchain-host", "john"⟩).bind
            (fun m => mapGet m.Labels ((exEnvRefs 30).TemplateTierHashLabelKey "team"))
          = some "team-dev,team-stage,team-cr"
      ∧ (exEnvRefs 30).ComputeHashForNSTemplateSetSpec ⟨"team", ["team-dev-old"], none⟩
          = .ok "team-dev-old" :=
  ⟨by decide, by decide, by decide, rfl⟩

/-- Claim C11, amended. After a successful record step, for every user account of the
stored record that has a template set, the hash of that template set is computed, and
the labels of the stored record map the hash-label key of its tier to that hash provided
every later user account with the same hash-label key has the same hash: the label of a
key holds the hash of the last account that uses the key. -/
theorem changeTierInMasterUserRecord_hash_labels (env : Env) (ctr : ChangeTierRequest)
    (ns : String) (tier : NSTemplateTier) (w : World) (mur : MasterUserRecord)
    (hmur : lookupKey MasterUserRecord.key w.masterUserRecords ⟨ns, ctr.spec.MurName⟩
      = some mur)
    (hok : (changeTierInMasterUserRecord env ctr ns tier w).1.2 = (true, none)) :
    ∃ stored,
      lookupKey MasterUserRecord.key
          (changeTierInMasterUserRecord env ctr ns tier w).2.masterUserRecords
          ⟨ns, ctr.spec.MurName⟩ = some stored
      ∧ ∀ pre ua post s, stored.UserAccounts = pre ++ ua :: post →
          ua.NSTemplateSet = some s →
          ∃ h, env.ComputeHashForNSTemplateSetSpec s = .ok h
            ∧ ((∀ x ∈ post, ∀ s', x.NSTemplateSet = some s' →
                  env.TemplateTierHashLabelKey s'.TierName
                    = env.TemplateTierHashLabelKey s.TierName →
                  env.ComputeHashForNSTemplateSetSpec s' = .ok h) →
                mapGet stored.Labels (env.TemplateTierHashLabelKey s.TierName) = some h) := by
  obtain ⟨labels, hh, hlook⟩ := changeTierInMasterUserRecord_stored env ctr ns tier w mur
    hmur hok
  refine ⟨changedRecord env ctr tier mur labels, hlook, ?_⟩
  intro pre ua post s huas hset
  have huas' : (changeUserAccounts env ctr (env.NewNSTemplateSetSpec tier)
      mur.UserAccounts mur.Labels).1 = pre ++ ua :: post := huas
  rw [huas'] at hh
  exact computeHashLabels_last env ua s post hset pre _ labels hh

/-- Claim C11, amended, at the record of `john`: after the change of the account on
`member-2` the hash labels of `basic` (first account) and of `team` (second account)
are the hashes of these accounts. -/
theorem changeTierInMasterUserRecord_hash_labels_witness :
    ∃ stored,
      lookupKey MasterUserRecord.key
          (changeTierInMasterUserRecord (exEnv 30) exPending "toolchain-host" exTier
            (exWorld exPending)).2.masterUserRecords
          ⟨"toolchain-host", exPending.spec.MurName⟩ = some stored
      ∧ ∀ pre ua post s, stored.UserAccounts = pre ++ ua :: post →
          ua.NSTemplateSet = some s →
          ∃ h, (exEnv 30).ComputeHashForNSTemplateSetSpec s = .ok h
            ∧ ((∀ x ∈ post, ∀ s', x.NSTemplateSet = some s' →
                  (exEnv 30).TemplateTierHashLabelKey s'.TierName
                    = (exEnv 30).TemplateTierHashLabelKey s.TierName →
                  (exEnv 30).ComputeHashForNSTemplateSetSpec s' = .ok h) →
                mapGet stored.Labels ((exEnv 30).TemplateTierHashLabelKey s.TierName)
                  = some h) :=
  changeTierInMasterUserRecord_hash_labels (exEnv 30) exPending "toolchain-host" exTier
    (exWorld exPending) exRecord (by decide) (by decide)

/-- The label of a tier name that the first loop cleared is settled after the second loop,
when different tier names have different hash-label keys. -/
theorem oldTierLabelSettled_of (env : Env) (old : String) (stored : MasterUserRecord)
    (l1 : List (String × String))
    (hinj : Function.Injective env.TemplateTierHashLabelKey)
    (hh : computeHashLabels env stored.UserAccounts l1 = .ok stored.Labels)
    (hcleared : mapGet l1 (env.TemplateTierHashLabelKey old) = none) :
    oldTierLabelSettled env old stored := by
  constructor
  · intro hno
    refine computeHashLabels_stable env _ none stored.UserAccounts l1 stored.Labels hh
      hcleared ?_
    intro x hx s hxs hk
    exact absurd (hinj hk) (hno x hx s hxs)
  · intro hex
    obtain ⟨x, hx, s, hxs, hname⟩ := hex
    obtain ⟨y, hy, s', h, h1, h2, h3, h4⟩ := computeHashLabels_used env
      (env.TemplateTierHashLabelKey old) stored.UserAccounts l1 stored.Labels hh
      ⟨x, hx, s, hxs, by rw [hname]⟩
    exact ⟨y, hy, s', h, h1, hinj h2, h3, h4⟩

/-- Claim C12. When different tier names have different hash-label keys: after a
successful record step, for every user account whose tier was changed (with a target
cluster: the first account with a template set on that cluster; without: every account
with a template set), the hash label of its previous tier name is absent from the stored
record, unless a user account of the stored record with a template set uses a tier of
that name, in which case the label is present with the hash of such an account. -/
theorem changeTierInMasterUserRecord_old_label (env : Env) (ctr : ChangeTierRequest)
    (ns : String) (tier : NSTemplateTier) (w : World) (mur : MasterUserRecord)
    (hinj : Function.Injective env.TemplateTierHashLabelKey)
    (hmur : lookupKey MasterUserRecord.key w.masterUserRecords ⟨ns, ctr.spec.MurName⟩
      = some mur)
    (hok : (changeTierInMasterUserRecord env ctr ns tier w).1.2 = (true, none)) :
    ∃ stored,
      lookupKey MasterUserRecord.key
          (changeTierInMasterUserRecord env ctr ns tier w).2.masterUserRecords
          ⟨ns, ctr.spec.MurName⟩ = some stored
      ∧ (ctr.spec.TargetCluster ≠ "" →
          ∀ pre ua post old, mur.UserAccounts = pre ++ ua :: post →
            ua.TargetCluster = ctr.spec.TargetCluster →
            ua.NSTemplateSet = some old →
            (∀ x ∈ pre, x.NSTemplateSet = none
              ∨ x.TargetCluster ≠ ctr.spec.TargetCluster) →
            oldTierLabelSettled env old.TierName stored)
      ∧ (ctr.spec.TargetCluster = "" →
          ∀ ua ∈ mur.UserAccounts, ∀ old, ua.NSTemplateSet = some old →
            oldTierLabelSettled env old.TierName stored) := by
  obtain ⟨labels, hh, hlook⟩ := changeTierInMasterUserRecord_stored env ctr ns tier w mur
    hmur hok
  refine ⟨changedRecord env ctr tier mur labels, hlook, ?_, ?_⟩
  · intro htarget pre ua post old huas hua hset hpre
    refine oldTierLabelSettled_of env old.TierName _ _ hinj hh ?_
    rw [huas, changeUserAccounts_first_match env ctr _ htarget pre post ua old _ hua hset hpre]
    exact mapGet_mapDelete_self _ _
  · intro htarget ua hua old hset
    refine oldTierLabelSettled_of env old.TierName _ _ hinj hh ?_
    exact changeUserAccounts_all_cleared env ctr _ htarget _ _ ua hua old hset

theorem exEnv_key_injective (d : Int) :
    Function.Injective (exEnv d).TemplateTierHashLabelKey := by
  intro a b h
  have hd := congrArg String.data h
  simp only [exEnv, String.data_append] at hd
  have h1 := List.append_cancel_right hd
  have h2 := List.append_cancel_left h1
  exact String.ext h2

/-- Claim C12 at the record of `john` and the request that moves the account on
`member-2` from tier `basic` to tier `team`: the first account still uses `basic`, so
the hash label of `basic` is present with the hash of an account on `basic`. -/
theorem changeTierInMasterUserRecord_old_label_witness :
    ∃ stored,
      lookupKey MasterUserRecord.key
          (changeTierInMasterUserRecord (exEnv 30) exPending "toolchain-host" exTier
            (exWorld exPending)).2.masterUserRecords
          ⟨"toolchain-host", exPending.spec.MurName⟩ = some stored
      ∧ oldTierLabelSettled (exEnv 30) exBasicSet.TierName stored :=
  have h := changeTierInMasterUserRecord_old_label (exEnv 30) exPending "toolchain-host"
    exTier (exWorld exPending) exRecord (exEnv_key_injective 30) (by decide) (by decide)
  h.elim fun stored hs =>
    ⟨stored, hs.1, hs.2.1 (by decide) [⟨"member-1", "default", some exBasicSet⟩]
      ⟨"member-2", "default", some exBasicSet⟩ [⟨"member-3", "default", none⟩] exBasicSet
      rfl rfl rfl (by decide)⟩

/-- Claim C13, as stated, fails: the record has the label of tier `basic`, used by its
first account, at a value that is not the hash of that account; the request moves the
account on `member-2` from `advanced` to `team`; the key of the label of `basic` is
neither the key of `advanced` nor the key of `team`, and yet the stored record has the
label at another value than before. -/
theorem other_label_recomputed_counterexample :
    (changeTierInMasterUserRecord (exEnv 30) exPending "toolchain-host" exTier
        (exWorldWith exRecordStale)).1.2 = (true, none)
      ∧ (exEnv 30).TemplateTierHashLabelKey "basic"
          ≠ (exEnv 30).TemplateTierHashLabelKey "advanced"
      ∧ (exEnv 30).TemplateTierHashLabelKey "basic"
          ≠ (exEnv 30).TemplateTierHashLabelKey "team"
      ∧ mapGet exRecordStale.Labels ((exEnv 30).TemplateTierHashLabelKey "basic")
          = some "stale"
      ∧ (lookupKey MasterUserRecord.key
          (changeTierInMasterUserRecord (exEnv 30) exPending "toolchain-host" exTier
            (exWorldWith exRecordStale)).2.masterUserRecords
          ⟨"toolchain-host", "john"⟩).bind
            (fun m => mapGet m.Labels ((exEnv 30).TemplateTierHashLabelKey "basic"))
          = some "hash-of-basic" := by
  decide

/-- Claim C13, amended. For a request with a target cluster that changes one user account
of the stored record, a label of the stored record whose key is not the hash-label key of
the previous tier of that account has the same value as before the change if every user
account of the stored record with a template set that uses this key has, as its hash,
the value the label had before; in particular if no user account uses the key.  The
hash labels of the tiers of the unchanged accounts are computed again from the accounts. -/
theorem changeTierInMasterUserRecord_other_labels (env : Env) (ctr : ChangeTierRequest)
    (ns : String) (tier : NSTemplateTier) (w : World) (mur : MasterUserRecord)
    (pre post : List UserAccountEmbedded) (ua : UserAccountEmbedded) (old : NSTemplateSetSpec)
    (htarget : ctr.spec.TargetCluster ≠ "")
    (hmur : lookupKey MasterUserRecord.key w.masterUserRecords ⟨ns, ctr.spec.MurName⟩
      = some mur)
    (huas : mur.UserAccounts = pre ++ ua :: post)
    (hua : ua.TargetCluster = ctr.spec.TargetCluster)
    (hset : ua.NSTemplateSet = some old)
    (hpre : ∀ x ∈ pre, x.NSTemplateSet = none ∨ x.TargetCluster ≠ ctr.spec.TargetCluster)
    (hok : (changeTierInMasterUserRecord env ctr ns tier w).1.2 = (true, none)) :
    ∃ stored,
      lookupKey MasterUserRecord.key
          (changeTierInMasterUserRecord env ctr ns tier w).2.masterUserRecords
          ⟨ns, ctr.spec.MurName⟩ = some stored
      ∧ stored.UserAccounts
          = pre ++ { ua with NSTemplateSet := some (env.NewNSTemplateSetSpec tier) } :: post
      ∧ ∀ k, k ≠ env.TemplateTierHashLabelKey old.TierName →
          (∀ x ∈ stored.UserAccounts, ∀ s, x.NSTemplateSet = some s →
            env.TemplateTierHashLabelKey s.TierName = k →
            ∃ h, env.ComputeHashForNSTemplateSetSpec s = .ok h
              ∧ mapGet mur.Labels k = some h) →
          mapGet stored.Labels k = mapGet mur.Labels k := by
  obtain ⟨labels, hh, hlook⟩ := changeTierInMasterUserRecord_stored env ctr ns tier w mur
    hmur hok
  have hloop := changeUserAccounts_first_match env ctr (env.NewNSTemplateSetSpec tier) htarget
    pre post ua old mur.Labels hua hset hpre
  rw [← huas] at hloop
  refine ⟨changedRecord env ctr tier mur labels, hlook, ?_, ?_⟩
  · show (changeUserAccounts env ctr (env.NewNSTemplateSetSpec tier) mur.UserAccounts
      mur.Labels).1 = _
    rw [hloop]
  · intro k hk hall
    refine computeHashLabels_stable env k (mapGet mur.Labels k) _ _ labels hh ?_ hall
    rw [hloop]
    exact mapGet_mapDelete_other _ _ _ hk

/-- Claim C13, amended, at the record of `john`: the change of the account on `member-2`
leaves the owner label, whose key no account uses, at its value. -/
theorem changeTierInMasterUserRecord_other_labels_witness :
    ∃ stored,
      lookupKey MasterUserRecord.key
          (changeTierInMasterUserRecord (exEnv 30) exPending "toolchain-host" exTier
            (exWorld exPending)).2.masterUserRecords
          ⟨"toolchain-host", exPending.spec.MurName⟩ = some stored
      ∧ mapGet stored.Labels MasterUserRecordOwnerLabelKey
          = mapGet exRecord.Labels MasterUserRecordOwnerLabelKey :=
  have h := changeTierInMasterUserRecord_other_labels (exEnv 30) exPending "toolchain-host"
    exTier (exWorld exPending) exRecord [⟨"member-1", "default", some exBasicSet⟩]
    [⟨"member-3", "default", none⟩] ⟨"member-2", "default", some exBasicSet⟩ exBasicSet
    (by decide) (by decide) rfl rfl rfl (by decide) (by decide)
  h.elim fun stored hs =>
    ⟨stored, hs.1, hs.2.2 MasterUserRecordOwnerLabelKey (by decide) (by
      rw [hs.2.1]
      intro x hx s hxs hk
      simp only [List.cons_append, List.nil_append, List.mem_cons, List.mem_singleton,
        List.not_mem_nil, or_false] at hx
      rcases hx with rfl | rfl | rfl
      · simp only [Option.some.injEq] at hxs
        subst hxs
        exact absurd hk (by decide)
      · simp only [Option.some.injEq] at hxs
        subst hxs
        exact absurd hk (by decide)
      · simp at hxs)⟩

/-! ## The MasterUserRecord controller -/

/-- Claim C18. For a record not marked for deletion and without the deletion guard, when
the persist of the added guard fails, the pass ends with that error (wrapped), no
replica is created in any member cluster, the condition of the record is not ready with
the reason UnableToAddFinalizer and the message of the error, and both counters are as
before. -/
theorem reconcileRecord_guard_fails (f : Remote) (h : Host) (err : Err)
    (hlive : h.record.deletionTimestamp = none)
    (hguard : h.record.finalizer = false)
    (hpersist : f.persist = some err) :
    (reconcileRecord f h).1
        = (⟨false, 0⟩, some (Wrapf err "failed while updating with added finalizer"))
      ∧ (reconcileRecord f h).2.members = h.members
      ∧ (reconcileRecord f h).2.userAccountCounts = h.userAccountCounts
      ∧ (reconcileRecord f h).2.recordCounts = h.recordCounts
      ∧ (reconcileRecord f h).2.record.finalizer = false
      ∧ ∃ c, FindConditionByType (reconcileRecord f h).2.record.conditions ConditionReady
            = some c
          ∧ c.status = ConditionFalse
          ∧ c.reason = UnableToAddFinalizerReason
          ∧ c.message = err.Error := by
  have hR : reconcileRecord f h
      = ((⟨false, 0⟩, some (Wrapf err "failed while updating with added finalizer")),
         recordCondition f.now h UnableToAddFinalizerReason err.Error) := by
    simp [reconcileRecord, hlive, ensureGuard, hguard, hpersist]
  rw [hR]
  refine ⟨rfl, rfl, rfl, rfl, hguard, ?_⟩
  exact find_addOrUpdateLoop_same
    { type := ConditionReady, status := ConditionFalse, reason := UnableToAddFinalizerReason,
      message := err.Error, lastTransitionTime := f.now } h.record.conditions

/-- Claim C18 at the record of `john` without guard, when the update of the record fails:
no replica, the counters as before. -/
theorem reconcileRecord_guard_fails_witness :
    (reconcileRecord exRemotePersistFails (exHost (exJohn false none) none none)).1
        = (⟨false, 0⟩, some (Wrapf (.other "unable to add finalizer to MUR john")
            "failed while updating with added finalizer"))
      ∧ (reconcileRecord exRemotePersistFails (exHost (exJohn false none) none none)).2.members
        = (exHost (exJohn false none) none none).members
      ∧ (reconcileRecord exRemotePersistFails
          (exHost (exJohn false none) none none)).2.userAccountCounts
        = [("member-1", 1), ("member-2", 0)] :=
  have h := reconcileRecord_guard_fails exRemotePersistFails
    (exHost (exJohn false none) none none) (.other "unable to add finalizer to MUR john")
    rfl rfl rfl
  ⟨h.1, h.2.1, h.2.2.1⟩

theorem find_setReplica_other (members : List MemberCluster) (c c' : String)
    (r : Option Replica) (hne : c' ≠ c) :
    (setReplica members c r).find? (fun m => m.name = c')
      = members.find? (fun m => m.name = c') := by
  unfold setReplica
  induction members with
  | nil => rfl
  | cons m rest ih =>
    simp only [List.map_cons, List.find?_cons]
    rw [ih]
    by_cases hm : m.name = c
    · have hm' : ¬ m.name = c' := fun e => hne (e.symm.trans hm)
      rw [if_pos hm]
      simp only [hm', decide_False]
    · rw [if_neg hm]

theorem find_setReplica_self (members : List MemberCluster) (c : String)
    (r : Option Replica) (m : MemberCluster)
    (hfind : members.find? (fun m => m.name = c) = some m) :
    (setReplica members c r).find? (fun m => m.name = c) = some { m with replica := r } := by
  unfold setReplica
  induction members with
  | nil => simp at hfind
  | cons x rest ih =>
    by_cases hx : x.name = c
    · simp only [List.find?_cons, hx, decide_True, Option.some.injEq] at hfind
      subst hfind
      simp only [List.map_cons, hx, if_true, List.find?_cons, decide_True]
    · simp only [List.find?_cons, hx, decide_False] at hfind
      simp only [List.map_cons, hx, if_false, List.find?_cons, decide_False]
      exact ih hfind

theorem resolve_ok (members : List MemberCluster) (c : String) (m : MemberCluster)
    (h : resolve members c = .ok m) :
    members.find? (fun m => m.name = c) = some m ∧ m.ready = true := by
  unfold resolve at h
  cases hf : members.find? (fun m => m.name = c) with
  | none => simp [hf] at h
  | some x =>
    simp only [hf] at h
    split_ifs at h with hr
    · simp only [Except.ok.injEq] at h
      subst h
      exact ⟨rfl, hr⟩

theorem resolve_congr (members members' : List MemberCluster) (c : String)
    (h : members'.find? (fun m => m.name = c) = members.find? (fun m => m.name = c)) :
    resolve members' c = resolve members c := by
  unfold resolve
  rw [h]

/-- The AccountRefs whose replica is gone are passed over by the deletion loop. -/
theorem deleteReplicas_skip (f : Remote) (h : Host) (tail : List UserAccountEmbedded) :
    ∀ (pre : List UserAccountEmbedded),
      (∀ x ∈ pre, ∃ m, resolve h.members x.TargetCluster = .ok m ∧ m.replica = none) →
      deleteReplicas f (pre ++ tail) h = deleteReplicas f tail h := by
  intro pre
  induction pre with
  | nil => intro _; rfl
  | cons x rest ih =>
    intro hgone
    obtain ⟨m, hres, hrep⟩ := hgone x (List.mem_cons_self _ _)
    rw [List.cons_append, deleteReplicas]
    simp only [hres, hrep]
    exact ih (fun y hy => hgone y (List.mem_cons_of_mem _ hy))

/-- Claim C20. For a record marked for deletion that has the deletion guard: when the
first AccountRef whose replica still exists has a replica that is either not yet in
deletion, with its delete accepted in this pass, or in deletion for no longer than the
maximum wait, the pass returns no error and a requeue after exactly 10 seconds, the
guard stays on the record and the counter of records per domain is as before. -/
theorem reconcileRecord_waits (f : Remote) (h : Host) (t0 : Int)
    (pre post : List UserAccountEmbedded) (a : UserAccountEmbedded)
    (m : MemberCluster) (r : Replica)
    (hdel : h.record.deletionTimestamp = some t0)
    (hguard : h.record.finalizer = true)
    (haccounts : h.record.accounts = pre ++ a :: post)
    (hgone : ∀ x ∈ pre, ∃ m, resolve h.members x.TargetCluster = .ok m ∧ m.replica = none)
    (hres : resolve h.members a.TargetCluster = .ok m)
    (hrep : m.replica = some r)
    (hstate : (r.deletionTimestamp = none ∧ f.delete a.TargetCluster = none)
      ∨ ∃ t, r.deletionTimestamp = some t ∧ timeSince f.now t ≤ deletionMaxWait) :
    (reconcileRecord f h).1 = (⟨true, 10 * Second⟩, none)
      ∧ (reconcileRecord f h).2.record.finalizer = true
      ∧ (reconcileRecord f h).2.recordCounts = h.recordCounts
      ∧ replicaOf (reconcileRecord f h).2.members a.TargetCluster ≠ none := by
  have hfind := (resolve_ok _ _ _ hres).1
  have hbefore : replicaOf h.members a.TargetCluster = some r := by
    unfold replicaOf
    rw [hfind]
    exact hrep
  have hpass : ∀ outcome h1, deleteReplicas f (a :: post) h = (some outcome, h1) →
      reconcileRecord f h = (outcome, h1) := by
    intro outcome h1 hD
    unfold reconcileRecord deletionPass
    simp only [hdel, hguard, if_true, haccounts]
    rw [deleteReplicas_skip f h (a :: post) pre hgone, hD]
  rcases hstate with ⟨hnone, hdelete⟩ | ⟨t, hsome, hwait⟩
  · have hD : deleteReplicas f (a :: post) h
        = (some (⟨true, deletionRequeue⟩, none),
           { h with
             members := setReplica h.members a.TargetCluster
               (some { r with deletionTimestamp := some f.now }),
             userAccountCounts := counterAdd h.userAccountCounts a.TargetCluster (-1) }) := by
      rw [deleteReplicas]
      simp only [hres, hrep, hnone, hdelete]
    rw [hpass _ _ hD]
    refine ⟨rfl, hguard, rfl, ?_⟩
    unfold replicaOf
    simp only
    rw [find_setReplica_self h.members a.TargetCluster _ m hfind]
    simp
  · have hD : deleteReplicas f (a :: post) h = (some (⟨true, deletionRequeue⟩, none), h) := by
      rw [deleteReplicas]
      simp only [hres, hrep, hsome, not_lt.mpr hwait, if_false, gt_iff_lt]
    rw [hpass _ _ hD]
    refine ⟨rfl, hguard, rfl, ?_⟩
    rw [hbefore]
    simp

/-- Claim C20 at the record of `john` marked for deletion, whose replica in `member-1` is
in deletion since 5 seconds and whose replica in `member-2` is not yet deleted. -/
theorem reconcileRecord_waits_witness :
    (reconcileRecord exRemote
        (exHost (exJohn true (some (90 * Second)))
          (some ⟨⟨"member-1", "default", some exBasicSet⟩, some (95 * Second)⟩)
          (some ⟨⟨"member-2", "default", some exBasicSet⟩, none⟩))).1
        = (⟨true, 10 * Second⟩, none)
      ∧ (reconcileRecord exRemote
        (exHost (exJohn true (some (90 * Second)))
          (some ⟨⟨"member-1", "default", some exBasicSet⟩, some (95 * Second)⟩)
          (some ⟨⟨"member-2", "default", some exBasicSet⟩, none⟩))).2.record.finalizer = true :=
  have h := reconcileRecord_waits exRemote
    (exHost (exJohn true (some (90 * Second)))
      (some ⟨⟨"member-1", "default", some exBasicSet⟩, some (95 * Second)⟩)
      (some ⟨⟨"member-2", "default", some exBasicSet⟩, none⟩))
    (90 * Second) [] [⟨"member-2", "default", some exBasicSet⟩]
    ⟨"member-1", "default", some exBasicSet⟩
    ⟨"member-1", true, some ⟨⟨"member-1", "default", some exBasicSet⟩, some (95 * Second)⟩⟩
    ⟨⟨"member-1", "default", some exBasicSet⟩, some (95 * Second)⟩
    rfl rfl rfl (fun _ hx => by simp at hx) rfl rfl
    (Or.inr ⟨95 * Second, rfl, by decide⟩)
  ⟨h.1, h.2.1⟩

/-- Claim C21. For a record marked for deletion that has the deletion guard: when the
first AccountRef whose replica still exists has a replica in deletion for longer than the
maximum wait of one minute, the pass returns the empty result and the error
"UserAccount deletion has not completed in over 1 minute", wrapped with the name of the
member cluster; the guard stays on the record, the replica still exists and both counters
are as before. -/
theorem reconcileRecord_deletion_timeout (f : Remote) (h : Host) (t0 t : Int)
    (pre post : List UserAccountEmbedded) (a : UserAccountEmbedded)
    (m : MemberCluster) (r : Replica)
    (hdel : h.record.deletionTimestamp = some t0)
    (hguard : h.record.finalizer = true)
    (haccounts : h.record.accounts = pre ++ a :: post)
    (hgone : ∀ x ∈ pre, ∃ m, resolve h.members x.TargetCluster = .ok m ∧ m.replica = none)
    (hres : resolve h.members a.TargetCluster = .ok m)
    (hrep : m.replica = some r)
    (hsince : r.deletionTimestamp = some t)
    (hlong : timeSince f.now t > 60 * Second) :
    (∃ err, (reconcileRecord f h).1 = (⟨false, 0⟩, some err)
        ∧ err = Wrapf (.other "UserAccount deletion has not completed in over 1 minute")
            ("failed to delete UserAccount in the member cluster '" ++ a.TargetCluster ++ "'")
        ∧ err.Error = "failed to delete UserAccount in the member cluster '"
            ++ a.TargetCluster ++ "'" ++ ": "
            ++ "UserAccount deletion has not completed in over 1 minute")
      ∧ (reconcileRecord f h).2.record.finalizer = true
      ∧ (reconcileRecord f h).2.members = h.members
      ∧ (reconcileRecord f h).2.userAccountCounts = h.userAccountCounts
      ∧ (reconcileRecord f h).2.recordCounts = h.recordCounts := by
  have hD : deleteReplicas f (a :: post) h
      = (some (⟨false, 0⟩,
          some (Wrapf (.other "UserAccount deletion has not completed in over 1 minute")
            ("failed to delete UserAccount in the member cluster '" ++ a.TargetCluster
              ++ "'"))),
         recordCondition f.now h UnableToDeleteUserAccountsReason
          (Err.other "UserAccount deletion has not completed in over 1 minute").Error) := by
    have hlong' : timeSince f.now t > deletionMaxWait := hlong
    rw [deleteReplicas]
    simp only [hres, hrep, hsince, hlong', if_true]
  have hR : reconcileRecord f h
      = ((⟨false, 0⟩,
          some (Wrapf (.other "UserAccount deletion has not completed in over 1 minute")
            ("failed to delete UserAccount in the member cluster '" ++ a.TargetCluster
              ++ "'"))),
         recordCondition f.now h UnableToDeleteUserAccountsReason
          (Err.other "UserAccount deletion has not completed in over 1 minute").Error) := by
    unfold reconcileRecord deletionPass
    simp only [hdel, hguard, if_true, haccounts]
    rw [deleteReplicas_skip f h (a :: post) pre hgone, hD]
  rw [hR]
  exact ⟨⟨_, rfl, rfl, rfl⟩, hguard, rfl, rfl, rfl⟩

/-- Claim C21 at the record of `john` marked for deletion, whose replica in `member-1` is
in deletion since 61 seconds. -/
theorem reconcileRecord_deletion_timeout_witness :
    (∃ err, (reconcileRecord exRemote
          (exHost (exJohn true (some (30 * Second)))
            (some ⟨⟨"member-1", "default", some exBasicSet⟩, some (39 * Second)⟩) none)).1
          = (⟨false, 0⟩, some err)
        ∧ err = Wrapf (.other "UserAccount deletion has not completed in over 1 minute")
            ("failed to delete UserAccount in the member cluster '" ++ "member-1" ++ "'")
        ∧ err.Error = "failed to delete UserAccount in the member cluster '"
            ++ "member-1" ++ "'" ++ ": "
            ++ "UserAccount deletion has not completed in over 1 minute")
      ∧ (reconcileRecord exRemote
          (exHost (exJohn true (some (30 * Second)))
            (some ⟨⟨"member-1", "default", some exBasicSet⟩, some (39 * Second)⟩)
            none)).2.record.finalizer = true
      ∧ (reconcileRecord exRemote
          (exHost (exJohn true (some (30 * Second)))
            (some ⟨⟨"member-1", "default", some exBasicSet⟩, some (39 * Second)⟩)
            none)).2.userAccountCounts = [("member-1", 1), ("member-2", 0)] :=
  have h := reconcileRecord_deletion_timeout exRemote
    (exHost (exJohn true (some (30 * Second)))
      (some ⟨⟨"member-1", "default", some exBasicSet⟩, some (39 * Second)⟩) none)
    (30 * Second) (39 * Second) [] [⟨"member-2", "default", some exBasicSet⟩]
    ⟨"member-1", "default", some exBasicSet⟩
    ⟨"member-1", true, some ⟨⟨"member-1", "default", some exBasicSet⟩, some (39 * Second)⟩⟩
    ⟨⟨"member-1", "default", some exBasicSet⟩, some (39 * Second)⟩
    rfl rfl rfl (fun _ hx => by simp at hx) rfl rfl rfl (by decide)
  ⟨h.1, h.2.1, h.2.2.2.1⟩

theorem counterGet_counterAdd_self (counts : List (String × Int)) (k : String) (delta : Int) :
    counterGet (counterAdd counts k delta) k = counterGet counts k + delta := by
  induction counts with
  | nil => simp [counterAdd, counterGet]
  | cons p rest ih =>
    obtain ⟨a, b⟩ := p
    by_cases ha : a = k
    · simp [counterAdd, counterGet, ha]
    · simp [counterAdd, counterGet, ha, ih]

theorem counterGet_counterAdd_other (counts : List (String × Int)) (k k' : String)
    (delta : Int) (hne : k' ≠ k) :
    counterGet (counterAdd counts k delta) k' = counterGet counts k' := by
  induction counts with
  | nil =>
    have : ¬ k = k' := fun e => hne e.symm
    simp [counterAdd, counterGet, this]
  | cons p rest ih =>
    obtain ⟨a, b⟩ := p
    by_cases ha : a = k
    · have : ¬ k = k' := fun e => hne e.symm
      simp [counterAdd, counterGet, ha, this]
    · by_cases hk : a = k'
      · subst hk
        simp [counterAdd, counterGet, ha]
      · simp [counterAdd, counterGet, ha, hk, ih]

/-- When no replica of the record remains, the deletion pass is the removal of the guard:
on a failed persist the error, on a successful persist the record without guard and the
counter of its domain moved by minus one. -/
theorem reconcileRecord_no_replica (f : Remote) (h : Host) (t0 : Int)
    (hdel : h.record.deletionTimestamp = some t0)
    (hguard : h.record.finalizer = true)
    (hgone : ∀ x ∈ h.record.accounts,
      ∃ m, resolve h.members x.TargetCluster = .ok m ∧ m.replica = none) :
    reconcileRecord f h
      = match f.persist with
        | some err =>
          ((⟨false, 0⟩,
            some (Wrapf err "failed to update MasterUserRecord while deleting finalizer")),
           recordCondition f.now h UnableToRemoveFinalizerReason err.Error)
        | none =>
          ((⟨false, 0⟩, none),
           { h with
             record := { h.record with finalizer := false },
             recordCounts := counterAdd h.recordCounts h.record.domain (-1) }) := by
  have hD : deleteReplicas f h.record.accounts h = (none, h) := by
    have := deleteReplicas_skip f h [] h.record.accounts hgone
    rw [List.append_nil] at this
    rw [this]
    rfl
  unfold reconcileRecord deletionPass
  cases hp : f.persist with
  | none => simp only [hdel, hguard, if_true, hD, hp]
  | some err => simp only [hdel, hguard, if_true, hD, hp]

/-- Claim C22. For a record marked for deletion with the deletion guard, once no replica
remains: when the persist of the record without guard succeeds, the guard is removed and
the counter of records of the domain of the record is decremented by exactly one, and a
further pass does not decrement it again; when the persist fails, the pass returns the
error, the guard stays and the counter is unchanged, so that a re-entered pass whose
persist succeeds decrements it once; the counters of the other domains never change. -/
theorem reconcileRecord_guard_removed (f : Remote) (h : Host) (t0 : Int)
    (hdel : h.record.deletionTimestamp = some t0)
    (hguard : h.record.finalizer = true)
    (hgone : ∀ x ∈ h.record.accounts,
      ∃ m, resolve h.members x.TargetCluster = .ok m ∧ m.replica = none) :
    (f.persist = none →
        (reconcileRecord f h).1 = (⟨false, 0⟩, none)
          ∧ (reconcileRecord f h).2.record.finalizer = false
          ∧ counterGet (reconcileRecord f h).2.recordCounts h.record.domain
              = counterGet h.recordCounts h.record.domain - 1
          ∧ ∀ f2, (reconcileRecord f2 (reconcileRecord f h).2).2.recordCounts
              = (reconcileRecord f h).2.recordCounts)
      ∧ (∀ err, f.persist = some err →
          (reconcileRecord f h).1
              = (⟨false, 0⟩,
                 some (Wrapf err "failed to update MasterUserRecord while deleting finalizer"))
            ∧ (reconcileRecord f h).2.record.finalizer = true
            ∧ (reconcileRecord f h).2.recordCounts = h.recordCounts
            ∧ ∀ f2, f2.persist = none →
                counterGet (reconcileRecord f2 (reconcileRecord f h).2).2.recordCounts
                    h.record.domain
                  = counterGet h.recordCounts h.record.domain - 1)
      ∧ ∀ d, d ≠ h.record.domain →
          counterGet (reconcileRecord f h).2.recordCounts d = counterGet h.recordCounts d := by
  have hR := reconcileRecord_no_replica f h t0 hdel hguard hgone
  refine ⟨?_, ?_, ?_⟩
  · intro hp
    rw [hp] at hR
    simp only at hR
    rw [hR]
    refine ⟨rfl, rfl, ?_, ?_⟩
    · show counterGet (counterAdd h.recordCounts h.record.domain (-1)) h.record.domain = _
      rw [counterGet_counterAdd_self]
      ring
    · intro f2
      unfold reconcileRecord
      simp only [hdel, Bool.false_eq_true, if_false]
  · intro err hp
    rw [hp] at hR
    simp only at hR
    rw [hR]
    refine ⟨rfl, hguard, rfl, ?_⟩
    intro f2 hp2
    have hR2 := reconcileRecord_no_replica f2
      (recordCondition f.now h UnableToRemoveFinalizerReason err.Error) t0 hdel hguard hgone
    rw [hp2] at hR2
    simp only at hR2
    rw [hR2]
    show counterGet (counterAdd h.recordCounts h.record.domain (-1)) h.record.domain = _
    rw [counterGet_counterAdd_self]
    ring
  · intro d hd
    cases hp : f.persist with
    | none =>
      rw [hp] at hR
      simp only at hR
      rw [hR]
      exact counterGet_counterAdd_other _ _ _ _ hd
    | some err =>
      rw [hp] at hR
      simp only at hR
      rw [hR]
      rfl

/-- Claim C22 at the record of `john` marked for deletion without replica: the counter of
the domain `internal` goes from 1 to 0 when the persist succeeds and stays at 1 when it
fails; the counter of `external` stays at 1. -/
theorem reconcileRecord_guard_removed_witness :
    counterGet (reconcileRecord exRemote
        (exHost (exJohn true (some (90 * Second))) none none)).2.recordCounts "internal" = 0
      ∧ (reconcileRecord exRemotePersistFails
        (exHost (exJohn true (some (90 * Second))) none none)).2.recordCounts
          = [("internal", 1), ("external", 1)]
      ∧ counterGet (reconcileRecord exRemote
        (exHost (exJohn true (some (90 * Second))) none none)).2.recordCounts "external" = 1 :=
  have hgone : ∀ x ∈ (exHost (exJohn true (some (90 * Second))) none none).record.accounts,
      ∃ m, resolve (exHost (exJohn true (some (90 * Second))) none none).members
        x.TargetCluster = .ok m ∧ m.replica = none := by
    intro a ha
    simp only [exHost, exJohn, List.mem_cons, List.mem_singleton, List.not_mem_nil,
      or_false] at ha
    rcases ha with rfl | rfl
    · exact ⟨⟨"member-1", true, none⟩, rfl, rfl⟩
    · exact ⟨⟨"member-2", true, none⟩, rfl, rfl⟩
  have h := reconcileRecord_guard_removed exRemote
    (exHost (exJohn true (some (90 * Second))) none none) (90 * Second) rfl rfl hgone
  have h2 := reconcileRecord_guard_removed exRemotePersistFails
    (exHost (exJohn true (some (90 * Second))) none none) (90 * Second) rfl rfl hgone
  ⟨(h.1 rfl).2.2.1, (h2.2.1 _ rfl).2.2.1, h.2.2 "external" (by decide)⟩

/-! ## Several user accounts on the target cluster -/

/-- Claim C23, as stated, fails: the record of `john` has two accounts on `member-2`, both
with a template set; the request for `member-2` succeeds, the first of them is stored
with the template set of tier `team`, the second is stored as it was. -/
theorem changeTierInMasterUserRecord_all_entries_counterexample :
    exPending.spec.TargetCluster = "member-2"
      ∧ (changeTierInMasterUserRecord (exEnv 30) exPending "toolchain-host" exTier
          (exWorldWith exRecordTwice)).1.2 = (true, none)
      ∧ (lookupKey MasterUserRecord.key
          (changeTierInMasterUserRecord (exEnv 30) exPending "toolchain-host" exTier
            (exWorldWith exRecordTwice)).2.masterUserRecords
          ⟨"toolchain-host", "john"⟩).map (fun m => m.UserAccounts)
          = some [⟨"member-1", "default", some exBasicSet⟩,
              ⟨"member-2", "first", some ⟨"team", ["team-dev", "team-stage"], some "team-cr"⟩⟩,
              ⟨"member-2", "second", some exBasicSet⟩] := by
  decide

/-- Claim C23, amended. For a request with a non-empty target cluster, a successful record
step sets the template set of the new tier on the first user account of the record that
has the target cluster and a template set, and on no other: the accounts before it and
all accounts after it, those on the target cluster included, are stored as they were. -/
theorem changeTierInMasterUserRecord_first_entry (env : Env) (ctr : ChangeTierRequest)
    (ns : String) (tier : NSTemplateTier) (w : World) (mur : MasterUserRecord)
    (pre post : List UserAccountEmbedded) (ua : UserAccountEmbedded) (old : NSTemplateSetSpec)
    (htarget : ctr.spec.TargetCluster ≠ "")
    (hmur : lookupKey MasterUserRecord.key w.masterUserRecords ⟨ns, ctr.spec.MurName⟩
      = some mur)
    (huas : mur.UserAccounts = pre ++ ua :: post)
    (hua : ua.TargetCluster = ctr.spec.TargetCluster)
    (hset : ua.NSTemplateSet = some old)
    (hpre : ∀ x ∈ pre, x.NSTemplateSet = none ∨ x.TargetCluster ≠ ctr.spec.TargetCluster)
    (hok : (changeTierInMasterUserRecord env ctr ns tier w).1.2 = (true, none)) :
    ∃ stored,
      lookupKey MasterUserRecord.key
          (changeTierInMasterUserRecord env ctr ns tier w).2.masterUserRecords
          ⟨ns, ctr.spec.MurName⟩ = some stored
      ∧ stored.UserAccounts
          = pre ++ { ua with NSTemplateSet := some (env.NewNSTemplateSetSpec tier) } :: post
      ∧ (∀ (i : Nat) x, post[i]? = some x →
          stored.UserAccounts[pre.length + 1 + i]? = some x)
      ∧ (∀ (i : Nat) x, pre[i]? = some x → stored.UserAccounts[i]? = some x) := by
  obtain ⟨labels, _, hlook⟩ := changeTierInMasterUserRecord_stored env ctr ns tier w mur
    hmur hok
  have hloop := changeUserAccounts_first_match env ctr (env.NewNSTemplateSetSpec tier) htarget
    pre post ua old mur.Labels hua hset hpre
  rw [← huas] at hloop
  have hacc : (changedRecord env ctr tier mur labels).UserAccounts
      = pre ++ { ua with NSTemplateSet := some (env.NewNSTemplateSetSpec tier) } :: post := by
    show (changeUserAccounts env ctr (env.NewNSTemplateSetSpec tier) mur.UserAccounts
      mur.Labels).1 = _
    rw [hloop]
  refine ⟨changedRecord env ctr tier mur labels, hlook, hacc, ?_, ?_⟩
  · intro i x hx
    rw [hacc, List.getElem?_append_right (by omega)]
    have : pre.length + 1 + i - pre.length = i + 1 := by omega
    rw [this, List.getElem?_cons_succ]
    exact hx
  · intro i x hx
    have hi : i < pre.length := by
      by_contra hge
      rw [List.getElem?_eq_none (by omega)] at hx
      cases hx
    rw [hacc, List.getElem?_append_left hi]
    exact hx

/-- Claim C23, amended, at the record of `john` with two accounts on `member-2`: the
first of them gets the template set of tier `team`, the second stays. -/
theorem changeTierInMasterUserRecord_first_entry_witness :
    ∃ stored,
      lookupKey MasterUserRecord.key
          (changeTierInMasterUserRecord (exEnv 30) exPending "toolchain-host" exTier
            (exWorldWith exRecordTwice)).2.masterUserRecords
          ⟨"toolchain-host", exPending.spec.MurName⟩ = some stored
      ∧ stored.UserAccounts
          = [⟨"member-1", "default", some exBasicSet⟩]
            ++ { (⟨"member-2", "first", some exBasicSet⟩ : UserAccountEmbedded) with
                 NSTemplateSet := some ((exEnv 30).NewNSTemplateSetSpec exTier) }
              :: [⟨"member-2", "second", some exBasicSet⟩] :=
  have h := changeTierInMasterUserRecord_first_entry (exEnv 30) exPending "toolchain-host"
    exTier (exWorldWith exRecordTwice) exRecordTwice [⟨"member-1", "default", some exBasicSet⟩]
    [⟨"member-2", "second", some exBasicSet⟩] ⟨"member-2", "first", some exBasicSet⟩ exBasicSet
    (by decide) (by decide) rfl rfl rfl (by decide) (by decide)
  h.elim fun stored hs => ⟨stored, hs.1, hs.2.1⟩

/-! ## A failed pass leaves the request pending -/

theorem lookupKey_replaceKey_other {α : Type} (keyOf : α → Key) (xs : List α) (obj : α)
    (key : Key) (hne : keyOf obj ≠ key) :
    lookupKey keyOf (replaceKey keyOf xs obj) key = lookupKey keyOf xs key := by
  unfold lookupKey replaceKey
  induction xs with
  | nil => rfl
  | cons y ys ih =>
    simp only [List.map_cons, List.find?_cons]
    rw [ih]
    by_cases hy : keyOf y = keyOf obj
    · have hy' : ¬ keyOf y = key := fun e => hne (hy.symm.trans e)
      rw [if_pos hy]
      simp only [hne, hy', decide_False]
    · rw [if_neg hy]

theorem storedPending_of_requests {w w' : World} (request : Key)
    (h : w'.changeTierRequests = w.changeTierRequests) (hp : storedPending w request) :
    storedPending w' request := by
  unfold storedPending at *
  rw [h]
  exact hp

/-- A status update that sends conditions which are not complete leaves a pending stored
request pending. -/
theorem storedPending_statusUpdate (env : Env) (obj : ChangeTierRequest) (w : World)
    (request : Key) (hobj : isComplete obj.conditions = false)
    (hp : storedPending w request) : storedPending (statusUpdate env obj w).2 request := by
  unfold statusUpdate
  cases env.faults (.statusUpdate obj) with
  | some e => exact hp
  | none =>
    cases hl : lookupKey ChangeTierRequest.key w.changeTierRequests obj.key with
    | none => exact hp
    | some stored =>
      have hkey : stored.key = obj.key := lookupKey_key ChangeTierRequest.key _ _ _ hl
      have hkey' : ChangeTierRequest.key { stored with conditions := obj.conditions }
          = obj.key := hkey
      by_cases hk : obj.key = request
      · refine ⟨{ stored with conditions := obj.conditions }, ?_, hobj⟩
        show lookupKey ChangeTierRequest.key
          (replaceKey ChangeTierRequest.key w.changeTierRequests
            { stored with conditions := obj.conditions }) request = _
        rw [← hk, ← hkey']
        exact lookupKey_replaceKey ChangeTierRequest.key _ _ stored (by rw [hkey']; exact hl)
      · obtain ⟨s, hs, hc⟩ := hp
        refine ⟨s, ?_, hc⟩
        show lookupKey ChangeTierRequest.key
          (replaceKey ChangeTierRequest.key w.changeTierRequests
            { stored with conditions := obj.conditions }) request = _
        rw [lookupKey_replaceKey_other ChangeTierRequest.key _ _ request
          (by rw [hkey']; exact hk)]
        exact hs

/-- The conditions after a failure was put on them are not complete. -/
theorem isComplete_failed (now : Int) (conds : List Condition) (message : String) :
    isComplete (addOrUpdateStatusCondition now conds
      { type := ChangeTierRequestComplete, status := ConditionFalse,
        reason := ChangeTierRequestChangeFailedReason, message := message,
        lastTransitionTime := 0 }).1 = false := by
  obtain ⟨c, hc, hs, _, _⟩ := find_addOrUpdateLoop_same
    { type := ChangeTierRequestComplete, status := ConditionFalse,
      reason := ChangeTierRequestChangeFailedReason, message := message,
      lastTransitionTime := now } conds
  exact isComplete_false_of_find _ c hc hs

theorem storedPending_setStatusChangeFailed (env : Env) (cr : ChangeTierRequest)
    (message : String) (w : World) (request : Key) (hp : storedPending w request) :
    storedPending (setStatusChangeFailed env cr message w).2 request := by
  unfold setStatusChangeFailed updateStatusConditions
  rw [AddOrUpdateStatusConditions_single]
  dsimp only
  split_ifs
  · exact hp
  · exact storedPending_statusUpdate env _ w request (isComplete_failed env.now _ message) hp

theorem storedPending_failWith (env : Env) (ctr : ChangeTierRequest) (err : Err)
    (message : String) (w : World) (request : Key) (hp : storedPending w request) :
    storedPending (failWith env ctr err message w).2 request := by
  rw [failWith_world]
  exact storedPending_setStatusChangeFailed env ctr _ w request hp

theorem updateMasterUserRecord_requests (env : Env) (obj : MasterUserRecord) (w : World) :
    (updateMasterUserRecord env obj w).2.changeTierRequests = w.changeTierRequests := by
  unfold updateMasterUserRecord
  cases env.faults (.updateMasterUserRecord obj) with
  | some e => rfl
  | none =>
    cases lookupKey MasterUserRecord.key w.masterUserRecords obj.key with
    | none => rfl
    | some x => rfl

theorem updateSpace_requests (env : Env) (obj : Space) (w : World) :
    (updateSpace env obj w).2.changeTierRequests = w.changeTierRequests := by
  unfold updateSpace
  cases env.faults (.updateSpace obj) with
  | some e => rfl
  | none =>
    cases lookupKey Space.key w.spaces obj.key with
    | none => rfl
    | some x => rfl

theorem storedPending_resetDeactivating (env : Env) (ctr : ChangeTierRequest) (ns : String)
    (mur : MasterUserRecord) (w : World) (request : Key) (hp : storedPending w request) :
    storedPending (resetDeactivating env ctr ns mur w).2 request := by
  unfold resetDeactivating
  split
  · exact storedPending_failWith env ctr _ _ w request hp
  · split
    · exact storedPending_failWith env ctr _ _ w request hp
    · split
      · rename_i heq
        simp only [getUserSignup, Prod.mk.injEq] at heq
        obtain ⟨_, rfl⟩ := heq
        exact storedPending_failWith env ctr _ _ _ request
          (storedPending_of_requests request rfl hp)
      · rename_i heq
        simp only [getUserSignup, Prod.mk.injEq] at heq
        obtain ⟨_, rfl⟩ := heq
        split
        · split
          · rename_i heq2
            have hw := congrArg Prod.snd heq2
            simp only at hw
            subst hw
            exact storedPending_failWith env ctr _ _ _ request
              (storedPending_of_requests request
                (signupStep_updateUserSignup env _ (World.record w _)).1 hp)
          · rename_i heq2
            have hw := congrArg Prod.snd heq2
            simp only at hw
            subst hw
            exact storedPending_of_requests request
              (signupStep_updateUserSignup env _ (World.record w _)).1 hp
        · exact storedPending_of_requests request rfl hp

/-- The record step writes no completion: a pending stored request stays pending,
whatever the outcome of the step. -/
theorem storedPending_changeTierInMasterUserRecord (env : Env) (ctr : ChangeTierRequest)
    (ns : String) (tier : NSTemplateTier) (w : World) (request : Key)
    (hp : storedPending w request) :
    storedPending (changeTierInMasterUserRecord env ctr ns tier w).2 request := by
  have hget : storedPending (w.record (.getMasterUserRecord ⟨ns, ctr.spec.MurName⟩)) request :=
    storedPending_of_requests request rfl hp
  unfold changeTierInMasterUserRecord
  split
  · rename_i heq
    simp only [getMasterUserRecord, Prod.mk.injEq] at heq
    obtain ⟨_, rfl⟩ := heq
    split
    · exact hget
    · exact storedPending_failWith env ctr _ _ _ request hget
  · rename_i mur w1 heq
    simp only [getMasterUserRecord, Prod.mk.injEq] at heq
    obtain ⟨_, rfl⟩ := heq
    dsimp only
    split
    · exact storedPending_failWith env ctr _ _ _ request hget
    · split
      · exact storedPending_failWith env ctr _ _ _ request hget
      · split
        · rename_i heq2
          have hw := congrArg Prod.snd heq2
          simp only at hw
          subst hw
          exact storedPending_failWith env ctr _ _ _ request
            (storedPending_of_requests request (updateMasterUserRecord_requests env _ _) hget)
        · rename_i heq2
          have hw := congrArg Prod.snd heq2
          simp only at hw
          subst hw
          exact storedPending_resetDeactivating env ctr ns _ _ request
            (storedPending_of_requests request (updateMasterUserRecord_requests env _ _) hget)

/-- The space step writes no completion either. -/
theorem storedPending_changeTierInSpace (env : Env) (ctr : ChangeTierRequest)
    (ns : String) (w : World) (request : Key) (hp : storedPending w request) :
    storedPending (changeTierInSpace env ctr ns w).2 request := by
  have hget : storedPending (w.record (.getSpace ⟨ns, ctr.spec.MurName⟩)) request :=
    storedPending_of_requests request rfl hp
  unfold changeTierInSpace
  split
  · rename_i heq
    simp only [getSpace, Prod.mk.injEq] at heq
    obtain ⟨_, rfl⟩ := heq
    split
    · exact hget
    · exact storedPending_failWith env ctr _ _ _ request hget
  · rename_i space w1 heq
    simp only [getSpace, Prod.mk.injEq] at heq
    obtain ⟨_, rfl⟩ := heq
    split
    · exact hget
    · dsimp only
      split
      · rename_i heq2
        have hw := congrArg Prod.snd heq2
        simp only at hw
        subst hw
        exact storedPending_failWith env ctr _ _ _ request
          (storedPending_of_requests request (updateSpace_requests env _ _) hget)
      · rename_i heq2
        have hw := congrArg Prod.snd heq2
        simp only at hw
        subst hw
        exact storedPending_of_requests request (updateSpace_requests env _ _) hget

/-- The tier change writes only failures on the request: a pending stored request stays
pending, whatever the outcome. -/
theorem storedPending_changeTier (env : Env) (ctr : ChangeTierRequest) (ns : String)
    (w : World) (request : Key) (hp : storedPending w request) :
    storedPending (changeTier env ctr ns w).2 request := by
  have hget : storedPending (w.record (.getNSTemplateTier ⟨ns, ctr.spec.TierName⟩)) request :=
    storedPending_of_requests request rfl hp
  unfold changeTier
  rcases hT : getNSTemplateTier env ⟨ns, ctr.spec.TierName⟩ w with ⟨e | tier, w1⟩
  · have hw1 : w1 = w.record (.getNSTemplateTier ⟨ns, ctr.spec.TierName⟩) := by
      have := congrArg Prod.snd hT
      simp only [getNSTemplateTier] at this
      exact this.symm
    subst hw1
    simp only [wrapErrorWithStatusUpdate]
    exact storedPending_setStatusChangeFailed env ctr _ _ request hget
  · have hw1 : w1 = w.record (.getNSTemplateTier ⟨ns, ctr.spec.TierName⟩) := by
      have := congrArg Prod.snd hT
      simp only [getNSTemplateTier] at this
      exact this.symm
    subst hw1
    simp only
    have hM := storedPending_changeTierInMasterUserRecord env ctr ns tier _ request hget
    rcases hMeq : changeTierInMasterUserRecord env ctr ns tier
      (w.record (.getNSTemplateTier ⟨ns, ctr.spec.TierName⟩)) with ⟨⟨c1, b1, _ | e1⟩, w2⟩
    · rw [hMeq] at hM
      simp only
      have hS := storedPending_changeTierInSpace env c1 ns w2 request hM
      rcases hSeq : changeTierInSpace env c1 ns w2 with ⟨⟨c2, b2, _ | e2⟩, w3⟩
      · rw [hSeq] at hS
        simp only
        split_ifs
        · have hF := storedPending_setStatusChangeFailed env c2
            (Err.other ("no MasterUserRecord nor Space named '" ++ c2.spec.MurName
              ++ "' matching the ChangeTierRequest")).Error w3 request hS
          rcases hFeq : setStatusChangeFailed env c2
            (Err.other ("no MasterUserRecord nor Space named '" ++ c2.spec.MurName
              ++ "' matching the ChangeTierRequest")).Error w3 with ⟨⟨c3, _ | e3⟩, w4⟩
          · rw [hFeq] at hF
            exact hF
          · rw [hFeq] at hF
            exact hF
        · exact hS
      · rw [hSeq] at hS
        exact hS
    · rw [hMeq] at hM
      exact hM

theorem updateStatusConditions_error_requests (env : Env) (cr : ChangeTierRequest)
    (newConditions : List Condition) (w : World)
    (herr : (updateStatusConditions env cr newConditions w).1.2 ≠ none) :
    (updateStatusConditions env cr newConditions w).2.changeTierRequests
      = w.changeTierRequests := by
  unfold updateStatusConditions at herr ⊢
  dsimp only at herr ⊢
  split_ifs at herr ⊢ with h
  · rfl
  · unfold statusUpdate at herr ⊢
    cases hf : env.faults (.statusUpdate
        { cr with conditions := (AddOrUpdateStatusConditions env.now cr.conditions
            newConditions).1 }) with
    | some e => simp only [hf]; rfl
    | none =>
      cases hl : lookupKey ChangeTierRequest.key w.changeTierRequests
          (ChangeTierRequest.key { cr with conditions :=
            (AddOrUpdateStatusConditions env.now cr.conditions newConditions).1 }) with
      | none => simp only [hf, hl]; rfl
      | some x => simp [hf, hl] at herr

/-- A pass on a pending request that returns an error leaves the stored request pending. -/
theorem Reconcile_error_pending (env : Env) (request : Key) (w : World) (d : Int)
    (ctr : ChangeTierRequest)
    (hcfg : env.GetToolchainConfig = .ok d)
    (hfault : env.faults (.getChangeTierRequest request) = none)
    (hstored : lookupKey ChangeTierRequest.key w.changeTierRequests request = some ctr)
    (hpending : isComplete ctr.conditions = false)
    (herr : (Reconcile env request w).1.2 ≠ none) :
    storedPending (Reconcile env request w).2 request := by
  have h0 : storedPending (w.record (.getChangeTierRequest request)) request :=
    ⟨ctr, hstored, hpending⟩
  rw [Reconcile_pending env request w d ctr hcfg hfault hstored hpending] at herr ⊢
  have hC := storedPending_changeTier env ctr request.ns
    (w.record (.getChangeTierRequest request)) request h0
  unfold reconcilePending at herr ⊢
  rcases hCeq : changeTier env ctr request.ns (w.record (.getChangeTierRequest request))
    with ⟨⟨c1, _ | e1⟩, w1⟩
  · rw [hCeq] at hC
    simp only [hCeq] at herr ⊢
    have hU := updateStatusConditions_error_requests env c1
      [{ type := ChangeTierRequestComplete, status := ConditionTrue,
         reason := ChangeTierRequestChangedReason, message := "", lastTransitionTime := 0 }] w1
    unfold setStatusChangeComplete at herr ⊢
    rcases hSeq : updateStatusConditions env c1
      [{ type := ChangeTierRequestComplete, status := ConditionTrue,
         reason := ChangeTierRequestChangedReason, message := "", lastTransitionTime := 0 }] w1
      with ⟨⟨c2, _ | e2⟩, w2⟩
    · simp [hSeq] at herr
    · rw [hSeq] at hU
      simp only [hSeq]
      exact storedPending_of_requests request (hU (by simp)) hC
  · rw [hCeq] at hC
    simp only [hCeq]
    exact hC

/-- When the record step returns an error, the pass ends with that error in the world
that the record step left. -/
theorem Reconcile_record_error (env : Env) (request : Key) (w : World) (d : Int)
    (ctr : ChangeTierRequest) (tier : NSTemplateTier) (e : Err)
    (hcfg : env.GetToolchainConfig = .ok d)
    (hfault : env.faults (.getChangeTierRequest request) = none)
    (hstored : lookupKey ChangeTierRequest.key w.changeTierRequests request = some ctr)
    (hpending : isComplete ctr.conditions = false)
    (htierFault : env.faults (.getNSTemplateTier ⟨request.ns, ctr.spec.TierName⟩) = none)
    (htier : lookupKey NSTemplateTier.key w.nsTemplateTiers ⟨request.ns, ctr.spec.TierName⟩
      = some tier)
    (he : (changeTierInMasterUserRecord env ctr request.ns tier
      ((w.record (.getChangeTierRequest request)).record
        (.getNSTemplateTier ⟨request.ns, ctr.spec.TierName⟩))).1.2.2 = some e) :
    Reconcile env request w
      = ((⟨false, 0⟩, some e),
         (changeTierInMasterUserRecord env ctr request.ns tier
          ((w.record (.getChangeTierRequest request)).record
            (.getNSTemplateTier ⟨request.ns, ctr.spec.TierName⟩))).2) := by
  have htier' : lookupKey NSTemplateTier.key
      (w.record (.getChangeTierRequest request)).nsTemplateTiers
      ⟨request.ns, ctr.spec.TierName⟩ = some tier := htier
  rw [Reconcile_pending env request w d ctr hcfg hfault hstored hpending]
  unfold reconcilePending changeTier
  simp only [getNSTemplateTier, getOutcome, htierFault, htier']
  rcases hM : changeTierInMasterUserRecord env ctr request.ns tier
    ((w.record (.getChangeTierRequest request)).record
      (.getNSTemplateTier ⟨request.ns, ctr.spec.TierName⟩)) with ⟨⟨c1, b1, e1⟩, w2⟩
  rw [hM] at he
  simp only at he
  subst he
  rfl

/-- Claim C24. For a pending request naming an existing tier, whenever the record step
returns an error, the pass returns that error with the empty result, the stored spaces
are as before and no call of the pass reads or writes a space, and the stored request is
still not complete. -/
theorem Reconcile_record_step_fails (env : Env) (request : Key) (w : World) (d : Int)
    (ctr : ChangeTierRequest) (tier : NSTemplateTier) (e : Err)
    (hcfg : env.GetToolchainConfig = .ok d)
    (hfault : env.faults (.getChangeTierRequest request) = none)
    (hstored : lookupKey ChangeTierRequest.key w.changeTierRequests request = some ctr)
    (hpending : isComplete ctr.conditions = false)
    (htierFault : env.faults (.getNSTemplateTier ⟨request.ns, ctr.spec.TierName⟩) = none)
    (htier : lookupKey NSTemplateTier.key w.nsTemplateTiers ⟨request.ns, ctr.spec.TierName⟩
      = some tier)
    (he : (changeTierInMasterUserRecord env ctr request.ns tier
      ((w.record (.getChangeTierRequest request)).record
        (.getNSTemplateTier ⟨request.ns, ctr.spec.TierName⟩))).1.2.2 = some e) :
    (Reconcile env request w).1 = (⟨false, 0⟩, some e)
      ∧ (Reconcile env request w).2.spaces = w.spaces
      ∧ (∃ new, (Reconcile env request w).2.calls = w.calls ++ new
          ∧ ∀ c ∈ new, Call.onSpace c = false)
      ∧ ∃ s, lookupKey ChangeTierRequest.key (Reconcile env request w).2.changeTierRequests
            request = some s
          ∧ isComplete s.conditions = false := by
  have hR := Reconcile_record_error env request w d ctr tier e hcfg hfault hstored hpending
    htierFault htier he
  have h0 : spaceUntouched w ((w.record (.getChangeTierRequest request)).record
      (.getNSTemplateTier ⟨request.ns, ctr.spec.TierName⟩)) :=
    spaceUntouched_trans (spaceUntouched_record w (.getChangeTierRequest request) rfl)
      (spaceUntouched_record _ (.getNSTemplateTier ⟨request.ns, ctr.spec.TierName⟩) rfl)
  have hstep := spaceUntouched_trans h0
    (spaceUntouched_changeTierInMasterUserRecord env ctr request.ns tier
      ((w.record (.getChangeTierRequest request)).record
        (.getNSTemplateTier ⟨request.ns, ctr.spec.TierName⟩)))
  have hp : storedPending (Reconcile env request w).2 request := by
    refine Reconcile_error_pending env request w d ctr hcfg hfault hstored hpending ?_
    rw [hR]
    simp
  rw [hR] at hp ⊢
  exact ⟨rfl, hstep.1, hstep.2, hp⟩

/-- Claim C24 at the pending request for `member-2` and the record of `john` without an
account on that cluster: the pass fails, the space of `john` is as before and the stored
request is not complete. -/
theorem Reconcile_record_step_fails_witness :
    (Reconcile (exEnv 30) exKey exWorldNoMatch).1.2 ≠ none
      ∧ (Reconcile (exEnv 30) exKey exWorldNoMatch).2.spaces = [exSpace]
      ∧ ∃ s, lookupKey ChangeTierRequest.key
            (Reconcile (exEnv 30) exKey exWorldNoMatch).2.changeTierRequests exKey = some s
          ∧ isComplete s.conditions = false :=
  have h := Reconcile_record_step_fails (exEnv 30) exKey exWorldNoMatch 30 exPending exTier
    (Wrapf
      (.other ("the MasterUserRecord '" ++ exPending.spec.MurName
        ++ "' doesn't contain UserAccount with cluster '"
        ++ exPending.spec.TargetCluster ++ "' whose tier should be changed"))
      ("unable to change tier in MasterUserRecord " ++ exPending.spec.MurName))
    rfl rfl (by decide) (by decide) rfl (by decide) (by decide)
  ⟨by rw [h.1]; simp, h.2.1, h.2.2.2⟩

/-! ## Errors with a status update -/

/-- Claim C25. The method `wrapErrorWithStatusUpdate`, for every status updater: it returns
no error exactly when it is given none, and then returns the request and the world as
they are, whatever the updater (the updater is not called); given an error, it returns
that error wrapped, printed as the formatted message, a colon and the message of the
error, in the world and with the request that one call of the updater with the message of
the error leaves; this holds whether that call of the updater fails or not. -/
theorem wrapErrorWithStatusUpdate_contract (changeRequest : ChangeTierRequest)
    (statusUpdater : ChangeTierRequest → String → World → Step) (message : String)
    (w : World) :
    wrapErrorWithStatusUpdate changeRequest statusUpdater none message w
        = ((changeRequest, none), w)
      ∧ (∀ err, (wrapErrorWithStatusUpdate changeRequest statusUpdater err message w).1.2 = none
          ↔ err = none)
      ∧ ∀ err,
          (wrapErrorWithStatusUpdate changeRequest statusUpdater (some err) message w).1.2
              = some (Wrapf err message)
            ∧ (Wrapf err message).Error = message ++ ": " ++ err.Error
            ∧ (wrapErrorWithStatusUpdate changeRequest statusUpdater (some err) message w).2
              = (statusUpdater changeRequest err.Error w).2
            ∧ (wrapErrorWithStatusUpdate changeRequest statusUpdater (some err) message w).1.1
              = (statusUpdater changeRequest err.Error w).1.1 := by
  refine ⟨rfl, ?_, ?_⟩
  · intro err
    cases err with
    | none => exact ⟨fun _ => rfl, fun _ => rfl⟩
    | some e =>
      constructor
      · intro h
        simp [wrapErrorWithStatusUpdate] at h
      · intro h
        cases h
  · intro err
    exact ⟨rfl, rfl, rfl, rfl⟩

/-- Claim C25 with the updater `setStatusChangeFailed` where every status update fails:
the error returned is the wrapped error "failed to create user bob: oopsy woopsy", not
the error of the status update, and the one call issued is the status update. -/
theorem wrapErrorWithStatusUpdate_contract_witness :
    ((wrapErrorWithStatusUpdate exPending (setStatusChangeFailed (exEnvStatusFails 30))
        (some (.other "oopsy woopsy")) "failed to create user bob"
        (exWorld exPending)).1.2.map Err.Error) = some "failed to create user bob: oopsy woopsy"
      ∧ (setStatusChangeFailed (exEnvStatusFails 30) exPending "oopsy woopsy"
          (exWorld exPending)).1.2 = some (.other "status update failed")
      ∧ (wrapErrorWithStatusUpdate exPending (setStatusChangeFailed (exEnvStatusFails 30))
          (some (.other "oopsy woopsy")) "failed to create user bob"
          (exWorld exPending)).2.calls.length = 1 :=
  have h := (wrapErrorWithStatusUpdate_contract exPending
    (setStatusChangeFailed (exEnvStatusFails 30)) "failed to create user bob"
    (exWorld exPending)).2.2 (.other "oopsy woopsy")
  ⟨by rw [h.1]; rfl, by decide, by rw [h.2.2.1]; decide⟩

/-! ## The UserSignup of the changed record -/

/-- When the record is found, the first loop changes an account, the hashes are computed
and the update is accepted, the record step is the reset of the deactivating state, run
on the changed record in the world in which that record is stored. -/
theorem changeTierInMasterUserRecord_updated (env : Env) (ctr : ChangeTierRequest)
    (ns : String) (tier : NSTemplateTier) (w : World) (mur : MasterUserRecord)
    (labels : List (String × String))
    (hfault : env.faults (.getMasterUserRecord ⟨ns, ctr.spec.MurName⟩) = none)
    (hmur : lookupKey MasterUserRecord.key w.masterUserRecords ⟨ns, ctr.spec.MurName⟩
      = some mur)
    (hch : (changeUserAccounts env ctr (env.NewNSTemplateSetSpec tier)
      mur.UserAccounts mur.Labels).2.2 = true)
    (hh : computeHashLabels env
      (changeUserAccounts env ctr (env.NewNSTemplateSetSpec tier)
        mur.UserAccounts mur.Labels).1
      (changeUserAccounts env ctr (env.NewNSTemplateSetSpec tier)
        mur.UserAccounts mur.Labels).2.1 = .ok labels)
    (hup : env.faults (.updateMasterUserRecord (changedRecord env ctr tier mur labels))
      = none) :
    changeTierInMasterUserRecord env ctr ns tier w
      = resetDeactivating env ctr ns (changedRecord env ctr tier mur labels)
          (afterRecordUpdate w ⟨ns, ctr.spec.MurName⟩ (changedRecord env ctr tier mur labels)) := by
  have hkey : mur.key = ⟨ns, ctr.spec.MurName⟩ := lookupKey_key MasterUserRecord.key _ _ _ hmur
  have hkey' : (changedRecord env ctr tier mur labels).key = ⟨ns, ctr.spec.MurName⟩ := hkey
  have hlook : lookupKey MasterUserRecord.key
      (w.record (.getMasterUserRecord ⟨ns, ctr.spec.MurName⟩)).masterUserRecords
      (changedRecord env ctr tier mur labels).key = some mur := by
    rw [hkey']; exact hmur
  unfold changeTierInMasterUserRecord
  simp only [getMasterUserRecord, getOutcome, hfault, hmur, hch, hh]
  simp only [Bool.true_eq_false, if_false]
  have hU : updateMasterUserRecord env (changedRecord env ctr tier mur labels)
      (w.record (.getMasterUserRecord ⟨ns, ctr.spec.MurName⟩))
      = (none, afterRecordUpdate w ⟨ns, ctr.spec.MurName⟩
          (changedRecord env ctr tier mur labels)) := by
    unfold updateMasterUserRecord
    simp only [hup, hlook]
    rfl
  have hU' : updateMasterUserRecord env
      { mur with
        UserAccounts := (changeUserAccounts env ctr (env.NewNSTemplateSetSpec tier)
          mur.UserAccounts mur.Labels).1,
        TierName := ctr.spec.TierName, Labels := labels }
      (w.record (.getMasterUserRecord ⟨ns, ctr.spec.MurName⟩))
      = (none, afterRecordUpdate w ⟨ns, ctr.spec.MurName⟩
          (changedRecord env ctr tier mur labels)) := hU
  simp only [hU']
  rfl

theorem Deactivating_iff (userSignup : UserSignup) :
    Deactivating userSignup = true ↔ UserSignupStateDeactivating ∈ userSignup.States := by
  unfold Deactivating
  simp

/-- Claim C27, as stated, fails: the signup of `john` lists the deactivating state twice;
the step updates it and returns "processed" without error, and the stored signup still
lists the state: it is persisted in the deactivating state. -/
theorem changeTierInMasterUserRecord_signup_counterexample :
    Deactivating exSignupTwice = true
      ∧ (changeTierInMasterUserRecord (exEnv 30) exPending "toolchain-host" exTier
          exWorldTwice).1.2 = (true, none)
      ∧ lookupKey UserSignup.key
          (changeTierInMasterUserRecord (exEnv 30) exPending "toolchain-host" exTier
            exWorldTwice).2.userSignups ⟨"toolchain-host", "john"⟩
          = some ⟨"toolchain-host", "john", ["approved", "deactivating"]⟩
      ∧ (lookupKey UserSignup.key
          (changeTierInMasterUserRecord (exEnv 30) exPending "toolchain-host" exTier
            exWorldTwice).2.userSignups ⟨"toolchain-host", "john"⟩).map Deactivating
          = some true := by
  decide

/-- Claim C27, amended. After the update of the changed record was accepted, with the
owner label of the changed record naming a stored UserSignup that can be read: when the
UserSignup is not in the deactivating state, the step issues no update of it (its calls
are the read and the update of the record and the read of the UserSignup, and the stored
UserSignups are as before) and returns "processed" without error; when it is in the
deactivating state and its update is accepted, the step issues exactly one update of it,
stores it with the first occurrence of the deactivating state removed and every other
state kept, and returns "processed" without error; the stored UserSignup is then out of
the deactivating state exactly when the state was listed once. -/
theorem changeTierInMasterUserRecord_signup (env : Env) (ctr : ChangeTierRequest)
    (ns : String) (tier : NSTemplateTier) (w : World) (mur : MasterUserRecord)
    (labels : List (String × String)) (name : String) (us : UserSignup)
    (hfault : env.faults (.getMasterUserRecord ⟨ns, ctr.spec.MurName⟩) = none)
    (hmur : lookupKey MasterUserRecord.key w.masterUserRecords ⟨ns, ctr.spec.MurName⟩
      = some mur)
    (hch : (changeUserAccounts env ctr (env.NewNSTemplateSetSpec tier)
      mur.UserAccounts mur.Labels).2.2 = true)
    (hh : computeHashLabels env
      (changeUserAccounts env ctr (env.NewNSTemplateSetSpec tier)
        mur.UserAccounts mur.Labels).1
      (changeUserAccounts env ctr (env.NewNSTemplateSetSpec tier)
        mur.UserAccounts mur.Labels).2.1 = .ok labels)
    (hup : env.faults (.updateMasterUserRecord (changedRecord env ctr tier mur labels))
      = none)
    (hlabel : mapGet labels MasterUserRecordOwnerLabelKey = some name)
    (hname : name ≠ "")
    (hget : env.faults (.getUserSignup ⟨ns, name⟩) = none)
    (hsignup : lookupKey UserSignup.key w.userSignups ⟨ns, name⟩ = some us) :
    (Deactivating us = false →
        (changeTierInMasterUserRecord env ctr ns tier w).1 = (ctr, true, none)
          ∧ (changeTierInMasterUserRecord env ctr ns tier w).2.userSignups = w.userSignups
          ∧ (changeTierInMasterUserRecord env ctr ns tier w).2.calls
              = w.calls ++ [.getMasterUserRecord ⟨ns, ctr.spec.MurName⟩,
                  .updateMasterUserRecord (changedRecord env ctr tier mur labels),
                  .getUserSignup ⟨ns, name⟩])
      ∧ (Deactivating us = true →
          env.faults (.updateUserSignup (SetDeactivating us false)) = none →
          (changeTierInMasterUserRecord env ctr ns tier w).1 = (ctr, true, none)
            ∧ (changeTierInMasterUserRecord env ctr ns tier w).2.calls
                = w.calls ++ [.getMasterUserRecord ⟨ns, ctr.spec.MurName⟩,
                    .updateMasterUserRecord (changedRecord env ctr tier mur labels),
                    .getUserSignup ⟨ns, name⟩,
                    .updateUserSignup (SetDeactivating us false)]
            ∧ lookupKey UserSignup.key
                (changeTierInMasterUserRecord env ctr ns tier w).2.userSignups ⟨ns, name⟩
                = some (SetDeactivating us false)
            ∧ (SetDeactivating us false).States = us.States.erase UserSignupStateDeactivating
            ∧ (∀ s, s ≠ UserSignupStateDeactivating →
                (s ∈ (SetDeactivating us false).States ↔ s ∈ us.States))
            ∧ (Deactivating (SetDeactivating us false) = false
                ↔ us.States.count UserSignupStateDeactivating ≤ 1)) := by
  have hR := changeTierInMasterUserRecord_updated env ctr ns tier w mur labels hfault hmur hch
    hh hup
  have hlabel' : mapGet (changedRecord env ctr tier mur labels).Labels
      MasterUserRecordOwnerLabelKey = some name := hlabel
  have hsignup' : lookupKey UserSignup.key
      (afterRecordUpdate w ⟨ns, ctr.spec.MurName⟩
        (changedRecord env ctr tier mur labels)).userSignups ⟨ns, name⟩ = some us := hsignup
  have hkey : us.key = ⟨ns, name⟩ := lookupKey_key UserSignup.key _ _ _ hsignup
  rw [hR]
  unfold resetDeactivating
  simp only [hlabel', hname, if_false, getUserSignup, getOutcome, hget, hsignup']
  constructor
  · intro hd
    simp only [hd, Bool.false_eq_true, if_false]
    refine ⟨trivial, rfl, ?_⟩
    simp [afterRecordUpdate, World.record]
  · intro hd hupd
    have hstates : (SetDeactivating us false).States
        = us.States.erase UserSignupStateDeactivating := by
      unfold SetDeactivating
      unfold Deactivating at hd
      simp only [Bool.false_eq_true, if_false, hd, if_true]
    have hkey2 : (SetDeactivating us false).key = ⟨ns, name⟩ := by
      unfold SetDeactivating
      split_ifs <;> exact hkey
    have hlook : lookupKey UserSignup.key
        ((afterRecordUpdate w ⟨ns, ctr.spec.MurName⟩
          (changedRecord env ctr tier mur labels)).record
            (.getUserSignup ⟨ns, name⟩)).userSignups
        (SetDeactivating us false).key = some us := by
      rw [hkey2]; exact hsignup
    have hU : updateUserSignup env (SetDeactivating us false)
        ((afterRecordUpdate w ⟨ns, ctr.spec.MurName⟩
          (changedRecord env ctr tier mur labels)).record (.getUserSignup ⟨ns, name⟩))
        = (none,
           { ((afterRecordUpdate w ⟨ns, ctr.spec.MurName⟩
                (changedRecord env ctr tier mur labels)).record
                  (.getUserSignup ⟨ns, name⟩)).record
                (.updateUserSignup (SetDeactivating us false)) with
             userSignups := replaceKey UserSignup.key w.userSignups
               (SetDeactivating us false) }) := by
      unfold updateUserSignup
      simp only [hupd, hlook]
      rfl
    simp only [hd, if_true, hU]
    refine ⟨trivial, ?_, ?_, hstates, ?_, ?_⟩
    · simp [afterRecordUpdate, World.record]
    · show lookupKey UserSignup.key
        (replaceKey UserSignup.key w.userSignups (SetDeactivating us false)) ⟨ns, name⟩ = _
      rw [← hkey2]
      exact lookupKey_replaceKey UserSignup.key _ _ us (by rw [hkey2]; exact hsignup)
    · intro s hs
      rw [hstates]
      exact List.mem_erase_of_ne hs
    · constructor
      · intro hfalse
        by_contra hcount
        have hmem : UserSignupStateDeactivating
            ∈ us.States.erase UserSignupStateDeactivating := by
          apply List.count_pos_iff.mp
          rw [List.count_erase_self]
          omega
        have hstill : Deactivating (SetDeactivating us false) = true := by
          rw [Deactivating_iff, hstates]
          exact hmem
        rw [hfalse] at hstill
        cases hstill
      · intro hcount
        rw [Bool.eq_false_iff]
        intro hcon
        rw [Deactivating_iff, hstates] at hcon
        have hpos := List.count_pos_iff.mpr hcon
        rw [List.count_erase_self] at hpos
        omega

/-- Claim C27, amended, at the record of `john`: his signup that is not being deactivated is left as
it is; his signup that is being deactivated is stored without the deactivating state. -/
theorem changeTierInMasterUserRecord_signup_witness :
    (changeTierInMasterUserRecord (exEnv 30) exPending "toolchain-host" exTier
        exWorldActive).2.userSignups = [exSignupActive]
      ∧ lookupKey UserSignup.key
          (changeTierInMasterUserRecord (exEnv 30) exPending "toolchain-host" exTier
            (exWorld exPending)).2.userSignups ⟨"toolchain-host", "john"⟩
          = some ⟨"toolchain-host", "john", ["approved"]⟩
      ∧ Deactivating (SetDeactivating exSignup false) = false :=
  have ha := (changeTierInMasterUserRecord_signup (exEnv 30) exPending "toolchain-host" exTier
    exWorldActive exRecord
    [("toolchain.dev.openshift.com/team-tier-hash", "hash-of-team"),
     ("toolchain.dev.openshift.com/basic-tier-hash", "hash-of-basic"),
     ("toolchain.dev.openshift.com/owner", "john")]
    "john" exSignupActive rfl (by decide) (by decide) rfl rfl (by decide) (by decide) rfl
    (by decide)).1 (by decide)
  have hb := (changeTierInMasterUserRecord_signup (exEnv 30) exPending "toolchain-host" exTier
    (exWorld exPending) exRecord
    [("toolchain.dev.openshift.com/team-tier-hash", "hash-of-team"),
     ("toolchain.dev.openshift.com/basic-tier-hash", "hash-of-basic"),
     ("toolchain.dev.openshift.com/owner", "john")]
    "john" exSignup rfl (by decide) (by decide) rfl rfl (by decide) (by decide) rfl
    (by decide)).2 (by decide) rfl
  ⟨ha.2.1, by rw [hb.2.2.1]; rfl, hb.2.2.2.2.2.mpr (by decide)⟩

/-- The first loop leaves a label alone whose key is not the hash-label key of a tier. -/
theorem changeUserAccounts_other_key (env : Env) (ctr : ChangeTierRequest)
    (newNsTemplateSet : NSTemplateSetSpec) (k : String)
    (hk : ∀ t, env.TemplateTierHashLabelKey t ≠ k) :
    ∀ (uas : List UserAccountEmbedded) (labels : List (String × String)),
      mapGet (changeUserAccounts env ctr newNsTemplateSet uas labels).2.1 k
        = mapGet labels k := by
  intro uas
  induction uas with
  | nil => intro labels; rfl
  | cons x rest ih =>
    intro labels
    rw [changeUserAccounts]
    cases hxs : x.NSTemplateSet with
    | none => exact ih labels
    | some s =>
      simp only
      split_ifs with h1 h2
      · exact mapGet_mapDelete_other _ _ _ (fun e => hk _ e.symm)
      · exact ih labels
      · show mapGet (changeUserAccounts env ctr newNsTemplateSet rest _).2.1 k = _
        rw [ih]
        exact mapGet_mapDelete_other _ _ _ (fun e => hk _ e.symm)

/-- Both loops leave a label alone whose key is not the hash-label key of a tier. -/
theorem changedLabels_other_key (env : Env) (ctr : ChangeTierRequest)
    (newNsTemplateSet : NSTemplateSetSpec) (k : String)
    (hk : ∀ t, env.TemplateTierHashLabelKey t ≠ k)
    (uas : List UserAccountEmbedded) (labels0 labels : List (String × String))
    (hh : computeHashLabels env (changeUserAccounts env ctr newNsTemplateSet uas labels0).1
      (changeUserAccounts env ctr newNsTemplateSet uas labels0).2.1 = .ok labels) :
    mapGet labels k = mapGet labels0 k := by
  refine computeHashLabels_stable env k (mapGet labels0 k) _ _ labels hh
    (changeUserAccounts_other_key env ctr newNsTemplateSet k hk uas labels0) ?_
  intro x _ s _ hkey
  exact absurd hkey (hk _)

/-- The reset of the deactivating state fails, without a write of a record, when the
owner label is absent or empty or the UserSignup it names cannot be read. -/
theorem resetDeactivating_fails (env : Env) (ctr : ChangeTierRequest) (ns : String)
    (mur : MasterUserRecord) (w : World)
    (hsignup : mapGet mur.Labels MasterUserRecordOwnerLabelKey = none
      ∨ mapGet mur.Labels MasterUserRecordOwnerLabelKey = some ""
      ∨ ∃ name, mapGet mur.Labels MasterUserRecordOwnerLabelKey = some name ∧ name ≠ ""
          ∧ (env.faults (.getUserSignup ⟨ns, name⟩) ≠ none
            ∨ lookupKey UserSignup.key w.userSignups ⟨ns, name⟩ = none)) :
    ∃ err message w1,
      resetDeactivating env ctr ns mur w = failWith env ctr err message w1
        ∧ w1.masterUserRecords = w.masterUserRecords
        ∧ w1.changeTierRequests = w.changeTierRequests
        ∧ (mapGet mur.Labels MasterUserRecordOwnerLabelKey = none
            ∨ mapGet mur.Labels MasterUserRecordOwnerLabelKey = some "" →
          err = .other ("MasterUserRecord is missing label '"
              ++ MasterUserRecordOwnerLabelKey ++ "'")
            ∧ message = "failed to get corresponding UserSignup for MasterUserRecord with name '"
              ++ ctr.spec.MurName ++ "'")
        ∧ ∀ name, mapGet mur.Labels MasterUserRecordOwnerLabelKey = some name → name ≠ "" →
            message = "failed to get UserSignup '" ++ name ++ "'" := by
  unfold resetDeactivating
  rcases hsignup with h | h | ⟨name, h, hname, hbad⟩
  · simp only [h]
    refine ⟨_, _, w, rfl, rfl, rfl, fun _ => ⟨rfl, rfl⟩, ?_⟩
    intro name hn
    cases hn
  · simp only [h, if_true]
    refine ⟨_, _, w, rfl, rfl, rfl, fun _ => ⟨rfl, rfl⟩, ?_⟩
    intro name hn hne
    simp only [Option.some.injEq] at hn
    exact absurd hn.symm hne
  · simp only [h, hname, if_false, getUserSignup]
    have hout : ∃ e, getOutcome env (.getUserSignup ⟨ns, name⟩) "usersignups" ⟨ns, name⟩
        (lookupKey UserSignup.key w.userSignups ⟨ns, name⟩) = .error e := by
      unfold getOutcome
      rcases hbad with hf | hl
      · cases hfe : env.faults (.getUserSignup ⟨ns, name⟩) with
        | none => exact absurd hfe hf
        | some e => exact ⟨e, rfl⟩
      · cases hfe : env.faults (.getUserSignup ⟨ns, name⟩) with
        | none => exact ⟨notFoundErr "usersignups" ⟨ns, name⟩, by simp only [hl]⟩
        | some e => exact ⟨e, rfl⟩
    obtain ⟨e, he⟩ := hout
    simp only [he]
    refine ⟨_, _, w.record (.getUserSignup ⟨ns, name⟩), rfl, rfl, rfl, ?_, ?_⟩
    · intro hno
      rcases hno with hno | hno
      · cases hno
      · simp only [Option.some.injEq] at hno
        exact absurd hno hname
    · intro name2 hn _
      simp only [Option.some.injEq] at hn
      rw [hn]

/-- Claim C29. For a pending request naming an existing tier, with a stored record of
which the first loop changes an account, the hashes computed and the update of the record
accepted: when the record has no owner label, or an empty one, or the UserSignup that the
label names cannot be read, the record step has stored the changed record (new tier name,
new template set, hash labels) and yet returns "not processed" with an error and puts the
failed condition on the request; the pass returns that error, the stored spaces are as
before and no call reads or writes a space, and the stored request is not complete (with
the failed condition, when the status update is accepted). -/
theorem Reconcile_signup_unavailable (env : Env) (request : Key) (w : World) (d : Int)
    (ctr : ChangeTierRequest) (tier : NSTemplateTier) (mur : MasterUserRecord)
    (labels : List (String × String))
    (hcfg : env.GetToolchainConfig = .ok d)
    (hfault : env.faults (.getChangeTierRequest request) = none)
    (hstored : lookupKey ChangeTierRequest.key w.changeTierRequests request = some ctr)
    (hpending : isComplete ctr.conditions = false)
    (htierFault : env.faults (.getNSTemplateTier ⟨request.ns, ctr.spec.TierName⟩) = none)
    (htier : lookupKey NSTemplateTier.key w.nsTemplateTiers ⟨request.ns, ctr.spec.TierName⟩
      = some tier)
    (hmurFault : env.faults (.getMasterUserRecord ⟨request.ns, ctr.spec.MurName⟩) = none)
    (hmur : lookupKey MasterUserRecord.key w.masterUserRecords
      ⟨request.ns, ctr.spec.MurName⟩ = some mur)
    (hch : (changeUserAccounts env ctr (env.NewNSTemplateSetSpec tier)
      mur.UserAccounts mur.Labels).2.2 = true)
    (hh : computeHashLabels env
      (changeUserAccounts env ctr (env.NewNSTemplateSetSpec tier)
        mur.UserAccounts mur.Labels).1
      (changeUserAccounts env ctr (env.NewNSTemplateSetSpec tier)
        mur.UserAccounts mur.Labels).2.1 = .ok labels)
    (hup : env.faults (.updateMasterUserRecord (changedRecord env ctr tier mur labels))
      = none)
    (hkeys : ∀ t, env.TemplateTierHashLabelKey t ≠ MasterUserRecordOwnerLabelKey)
    (hsignup : mapGet mur.Labels MasterUserRecordOwnerLabelKey = none
      ∨ mapGet mur.Labels MasterUserRecordOwnerLabelKey = some ""
      ∨ ∃ name, mapGet mur.Labels MasterUserRecordOwnerLabelKey = some name ∧ name ≠ ""
          ∧ (env.faults (.getUserSignup ⟨request.ns, name⟩) ≠ none
            ∨ lookupKey UserSignup.key w.userSignups ⟨request.ns, name⟩ = none)) :
    ∃ err message,
      (changeTierInMasterUserRecord env ctr request.ns tier
          ((w.record (.getChangeTierRequest request)).record
            (.getNSTemplateTier ⟨request.ns, ctr.spec.TierName⟩))).1.2
          = (false, some (Wrapf err message))
        ∧ (mapGet mur.Labels MasterUserRecordOwnerLabelKey = none
            ∨ mapGet mur.Labels MasterUserRecordOwnerLabelKey = some "" →
          err = .other ("MasterUserRecord is missing label '"
              ++ MasterUserRecordOwnerLabelKey ++ "'")
            ∧ message = "failed to get corresponding UserSignup for MasterUserRecord with name '"
              ++ ctr.spec.MurName ++ "'")
        ∧ (∀ name, mapGet mur.Labels MasterUserRecordOwnerLabelKey = some name → name ≠ "" →
            message = "failed to get UserSignup '" ++ name ++ "'")
        ∧ (∃ c, FindConditionByType
              (changeTierInMasterUserRecord env ctr request.ns tier
                ((w.record (.getChangeTierRequest request)).record
                  (.getNSTemplateTier ⟨request.ns, ctr.spec.TierName⟩))).1.1.conditions
              ChangeTierRequestComplete = some c
            ∧ c.status = ConditionFalse ∧ c.reason = ChangeTierRequestChangeFailedReason
            ∧ c.message = err.Error)
        ∧ (Reconcile env request w).1 = (⟨false, 0⟩, some (Wrapf err message))
        ∧ lookupKey MasterUserRecord.key (Reconcile env request w).2.masterUserRecords
            ⟨request.ns, ctr.spec.MurName⟩ = some (changedRecord env ctr tier mur labels)
        ∧ (changedRecord env ctr tier mur labels).TierName = ctr.spec.TierName
        ∧ (Reconcile env request w).2.spaces = w.spaces
        ∧ (∃ new, (Reconcile env request w).2.calls = w.calls ++ new
            ∧ ∀ c ∈ new, Call.onSpace c = false)
        ∧ (∃ s, lookupKey ChangeTierRequest.key
              (Reconcile env request w).2.changeTierRequests request = some s
            ∧ isComplete s.conditions = false)
        ∧ ((∀ obj, env.faults (.statusUpdate obj) = none) →
            ∃ c, storedCondition (Reconcile env request w).2 request ChangeTierRequestComplete
                = some c
              ∧ c.status = ConditionFalse ∧ c.reason = ChangeTierRequestChangeFailedReason
              ∧ c.message = err.Error) := by
  have hmur1 : lookupKey MasterUserRecord.key
      ((w.record (.getChangeTierRequest request)).record
        (.getNSTemplateTier ⟨request.ns, ctr.spec.TierName⟩)).masterUserRecords
      ⟨request.ns, ctr.spec.MurName⟩ = some mur := hmur
  have hS := changeTierInMasterUserRecord_updated env ctr request.ns tier
    ((w.record (.getChangeTierRequest request)).record
      (.getNSTemplateTier ⟨request.ns, ctr.spec.TierName⟩)) mur labels hmurFault hmur1 hch hh hup
  have hlab : mapGet (changedRecord env ctr tier mur labels).Labels
      MasterUserRecordOwnerLabelKey = mapGet mur.Labels MasterUserRecordOwnerLabelKey :=
    changedLabels_other_key env ctr _ _ hkeys mur.UserAccounts mur.Labels labels hh
  obtain ⟨err, message, w1, hF, hm1, hr1, hspec, hname⟩ := resetDeactivating_fails env ctr
    request.ns (changedRecord env ctr tier mur labels)
    (afterRecordUpdate ((w.record (.getChangeTierRequest request)).record
      (.getNSTemplateTier ⟨request.ns, ctr.spec.TierName⟩)) ⟨request.ns, ctr.spec.MurName⟩
      (changedRecord env ctr tier mur labels)) (by rw [hlab]; exact hsignup)
  rw [hlab] at hspec hname
  rw [hF] at hS
  have he : (changeTierInMasterUserRecord env ctr request.ns tier
      ((w.record (.getChangeTierRequest request)).record
        (.getNSTemplateTier ⟨request.ns, ctr.spec.TierName⟩))).1.2.2
      = some (Wrapf err message) := by
    rw [hS, failWith_result]
  have hR := Reconcile_record_error env request w d ctr tier _ hcfg hfault hstored hpending
    htierFault htier he
  have h0 : spaceUntouched w ((w.record (.getChangeTierRequest request)).record
      (.getNSTemplateTier ⟨request.ns, ctr.spec.TierName⟩)) :=
    spaceUntouched_trans (spaceUntouched_record w (.getChangeTierRequest request) rfl)
      (spaceUntouched_record _ (.getNSTemplateTier ⟨request.ns, ctr.spec.TierName⟩) rfl)
  have hstep := spaceUntouched_trans h0
    (spaceUntouched_changeTierInMasterUserRecord env ctr request.ns tier
      ((w.record (.getChangeTierRequest request)).record
        (.getNSTemplateTier ⟨request.ns, ctr.spec.TierName⟩)))
  have hp : storedPending (Reconcile env request w).2 request := by
    refine Reconcile_error_pending env request w d ctr hcfg hfault hstored hpending ?_
    rw [hR]
    simp
  have hkey0 : mur.key = ⟨request.ns, ctr.spec.MurName⟩ :=
    lookupKey_key MasterUserRecord.key _ _ _ hmur
  have hkey : (changedRecord env ctr tier mur labels).key = ⟨request.ns, ctr.spec.MurName⟩ :=
    hkey0
  have hckey : ctr.key = request := lookupKey_key ChangeTierRequest.key _ _ _ hstored
  obtain ⟨c, hc, hcs, hcr, hcm⟩ := find_addOrUpdateLoop_same
    { type := ChangeTierRequestComplete, status := ConditionFalse,
      reason := ChangeTierRequestChangeFailedReason, message := err.Error,
      lastTransitionTime := env.now } ctr.conditions
  rw [hR] at hp ⊢
  rw [hS] at hstep hp ⊢
  refine ⟨err, message, failWith_result _ _ _ _ _, hspec, hname, ⟨c, ?_, hcs, hcr, hcm⟩, rfl,
    ?_, rfl, hstep.1, hstep.2, hp, ?_⟩
  · rw [failWith_memory]
    exact hc
  · show lookupKey MasterUserRecord.key (failWith env ctr err message w1).2.masterUserRecords
      ⟨request.ns, ctr.spec.MurName⟩ = _
    rw [(requestOnly_failWith env ctr err message w1).2.1, hm1]
    show lookupKey MasterUserRecord.key
      (replaceKey MasterUserRecord.key w.masterUserRecords
        (changedRecord env ctr tier mur labels)) ⟨request.ns, ctr.spec.MurName⟩ = _
    rw [← hkey]
    exact lookupKey_replaceKey MasterUserRecord.key _ _ mur (by rw [hkey]; exact hmur)
  · intro hstatus
    have hst1 : lookupKey ChangeTierRequest.key w1.changeTierRequests ctr.key = some ctr := by
      rw [hr1, hckey]
      exact hstored
    obtain ⟨_, hok, _, hnofault⟩ := updateStatusConditions_stored env ctr
      { type := ChangeTierRequestComplete, status := ConditionFalse,
        reason := ChangeTierRequestChangeFailedReason, message := err.Error,
        lastTransitionTime := 0 } w1 hst1
    have hlook := hok (hnofault hstatus)
    refine ⟨c, ?_, hcs, hcr, hcm⟩
    show storedCondition (failWith env ctr err message w1).2 request
      ChangeTierRequestComplete = some c
    rw [failWith_world]
    unfold storedCondition
    rw [← hckey]
    unfold setStatusChangeFailed
    rw [hlook]
    exact hc

theorem exEnv_key_not_owner (d : Int) :
    ∀ t, (exEnv d).TemplateTierHashLabelKey t ≠ MasterUserRecordOwnerLabelKey := by
  intro t h
  have hd := congrArg (fun s => s.data.length) h
  simp only [exEnv, MasterUserRecordOwnerLabelKey, String.data_append, List.length_append] at hd
  have h1 : ("toolchain.dev.openshift.com/" : String).data.length = 28 := by decide
  have h2 : ("-tier-hash" : String).data.length = 10 := by decide
  have h3 : ("toolchain.dev.openshift.com/owner" : String).data.length = 33 := by decide
  rw [h1, h2, h3] at hd
  omega

/-- Claim C29 at the record of `john` without owner label: the pass fails, the stored
record is on tier `team`, the space of `john` is as before and the stored request is not
complete. -/
theorem Reconcile_signup_unavailable_witness :
    (Reconcile (exEnv 30) exKey (exWorldWith exRecordNoOwner)).1.2 ≠ none
      ∧ (lookupKey MasterUserRecord.key
          (Reconcile (exEnv 30) exKey (exWorldWith exRecordNoOwner)).2.masterUserRecords
          ⟨exKey.ns, exPending.spec.MurName⟩).map (fun m => m.TierName) = some "team"
      ∧ (Reconcile (exEnv 30) exKey (exWorldWith exRecordNoOwner)).2.spaces = [exSpace]
      ∧ ∃ s, lookupKey ChangeTierRequest.key
            (Reconcile (exEnv 30) exKey (exWorldWith exRecordNoOwner)).2.changeTierRequests
            exKey = some s
          ∧ isComplete s.conditions = false :=
  have h := Reconcile_signup_unavailable (exEnv 30) exKey (exWorldWith exRecordNoOwner) 30
    exPending exTier exRecordNoOwner
    [("toolchain.dev.openshift.com/team-tier-hash", "hash-of-team"),
     ("toolchain.dev.openshift.com/basic-tier-hash", "hash-of-basic")]
    rfl rfl (by decide) (by decide) rfl (by decide) rfl (by decide) (by decide) rfl rfl
    (exEnv_key_not_owner 30) (Or.inl (by decide))
  h.elim fun err h1 => h1.elim fun message hs =>
    ⟨by rw [hs.2.2.2.2.1]; simp, by rw [hs.2.2.2.2.2.1]; rfl, hs.2.2.2.2.2.2.2.1,
      hs.2.2.2.2.2.2.2.2.2.1⟩

/-! ## Failed and complete -/

/-- With at most one condition per type, every condition of the type of the new condition
has its status after the update. -/
theorem addOrUpdateLoop_unique (nc : Condition) (conds : List Condition)
    (hnodup : (conds.map (fun c => c.type)).Nodup) :
    ∀ c ∈ (addOrUpdateLoop nc conds).1, c.type = nc.type → c.status = nc.status := by
  induction conds with
  | nil =>
    intro c hc _
    simp only [addOrUpdateLoop, List.mem_singleton] at hc
    rw [hc]
  | cons c0 rest ih =>
    simp only [List.map_cons, List.nodup_cons, List.mem_map, not_exists, not_and] at hnodup
    obtain ⟨hfresh, hrest⟩ := hnodup
    intro c hc htype
    unfold addOrUpdateLoop at hc
    by_cases h1 : c0.type = nc.type
    · have hnot : c ∉ rest := fun hmem => hfresh c hmem (htype.trans h1.symm)
      simp only [h1, if_true] at hc
      split_ifs at hc with h2 h3
      · rcases List.mem_cons.mp hc with rfl | hmem
        · exact h2.1
        · exact absurd hmem hnot
      · rcases List.mem_cons.mp hc with rfl | hmem
        · rfl
        · exact absurd hmem hnot
      · rcases List.mem_cons.mp hc with rfl | hmem
        · rfl
        · exact absurd hmem hnot
    · simp only [h1, if_false] at hc
      rcases List.mem_cons.mp hc with rfl | hmem
      · exact absurd htype h1
      · exact ih hrest c hmem htype

theorem isComplete_true_of_find (conds : List Condition) (c : Condition)
    (hfind : FindConditionByType conds ChangeTierRequestComplete = some c)
    (hstatus : c.status = ConditionTrue) : isComplete conds = true := by
  unfold isComplete
  simp only [hfind, hstatus, decide_True]

/-- Claim C28. The failure and the completion of a request are written as the same
condition type, Complete, with status False and True: after `setStatusChangeFailed` the
request is not complete (and, with at most one condition per type before, no Complete
condition has another status than False), after `setStatusChangeComplete` it is complete;
`setStatusChangeTierRequestDeletionFailed` leaves unchanged whether the request is
complete; and after a pass on a pending request that returns an error the stored request
is not complete, so that the next pass on it runs the tier change, not the expiry check. -/
theorem failed_and_complete_exclusive (env : Env) (changeRequest : ChangeTierRequest)
    (message : String) (w : World) :
    (∃ c, FindConditionByType (setStatusChangeFailed env changeRequest message w).1.1.conditions
          ChangeTierRequestComplete = some c
        ∧ c.status = ConditionFalse)
      ∧ isComplete (setStatusChangeFailed env changeRequest message w).1.1.conditions = false
      ∧ ((changeRequest.conditions.map (fun c => c.type)).Nodup →
          ∀ c ∈ (setStatusChangeFailed env changeRequest message w).1.1.conditions,
            c.type = ChangeTierRequestComplete → c.status = ConditionFalse)
      ∧ (∃ c, FindConditionByType (setStatusChangeComplete env changeRequest w).1.1.conditions
            ChangeTierRequestComplete = some c
          ∧ c.status = ConditionTrue)
      ∧ isComplete (setStatusChangeComplete env changeRequest w).1.1.conditions = true
      ∧ isComplete
          (setStatusChangeTierRequestDeletionFailed env changeRequest message w).1.1.conditions
          = isComplete changeRequest.conditions
      ∧ ∀ request d ctr,
          env.GetToolchainConfig = .ok d →
          env.faults (.getChangeTierRequest request) = none →
          lookupKey ChangeTierRequest.key w.changeTierRequests request = some ctr →
          isComplete ctr.conditions = false →
          (Reconcile env request w).1.2 ≠ none →
          ∃ s, lookupKey ChangeTierRequest.key
                (Reconcile env request w).2.changeTierRequests request = some s
            ∧ isComplete s.conditions = false
            ∧ ∀ env2 d2, env2.GetToolchainConfig = .ok d2 →
                env2.faults (.getChangeTierRequest request) = none →
                Reconcile env2 request (Reconcile env request w).2
                  = reconcilePending env2 request d2 s
                      ((Reconcile env request w).2.record (.getChangeTierRequest request)) := by
  have hF := find_addOrUpdateLoop_same
    { type := ChangeTierRequestComplete, status := ConditionFalse,
      reason := ChangeTierRequestChangeFailedReason, message := message,
      lastTransitionTime := env.now } changeRequest.conditions
  have hC := find_addOrUpdateLoop_same
    { type := ChangeTierRequestComplete, status := ConditionTrue,
      reason := ChangeTierRequestChangedReason, message := "",
      lastTransitionTime := env.now } changeRequest.conditions
  have hFm : (setStatusChangeFailed env changeRequest message w).1.1.conditions
      = (addOrUpdateLoop
          { type := ChangeTierRequestComplete, status := ConditionFalse,
            reason := ChangeTierRequestChangeFailedReason, message := message,
            lastTransitionTime := env.now } changeRequest.conditions).1 := by
    unfold setStatusChangeFailed
    rw [updateStatusConditions_memory]
    rfl
  have hCm : (setStatusChangeComplete env changeRequest w).1.1.conditions
      = (addOrUpdateLoop
          { type := ChangeTierRequestComplete, status := ConditionTrue,
            reason := ChangeTierRequestChangedReason, message := "",
            lastTransitionTime := env.now } changeRequest.conditions).1 := by
    unfold setStatusChangeComplete
    rw [updateStatusConditions_memory]
    rfl
  have hDm : (setStatusChangeTierRequestDeletionFailed env changeRequest message
        w).1.1.conditions
      = (addOrUpdateLoop
          { type := ChangeTierRequestDeletionError, status := ConditionTrue,
            reason := ChangeTierRequestDeletionErrorReason, message := message,
            lastTransitionTime := env.now } changeRequest.conditions).1 := by
    unfold setStatusChangeTierRequestDeletionFailed
    rw [updateStatusConditions_memory]
    rfl
  obtain ⟨cf, hcf, hcfs, _, _⟩ := hF
  obtain ⟨cc, hcc, hccs, _, _⟩ := hC
  refine ⟨⟨cf, by rw [hFm]; exact hcf, hcfs⟩, ?_, ?_, ⟨cc, by rw [hCm]; exact hcc, hccs⟩,
    ?_, ?_, ?_⟩
  · rw [hFm]
    exact isComplete_false_of_find _ cf hcf hcfs
  · intro hnodup c hc htype
    rw [hFm] at hc
    exact addOrUpdateLoop_unique _ _ hnodup c hc htype
  · rw [hCm]
    exact isComplete_true_of_find _ cc hcc hccs
  · rw [hDm]
    unfold isComplete
    rw [find_addOrUpdateLoop_other _ _ _ deletionError_ne_complete]
  · intro request d ctr hcfg hfault hstored hpending herr
    obtain ⟨s, hs, hsp⟩ := Reconcile_error_pending env request w d ctr hcfg hfault hstored
      hpending herr
    refine ⟨s, hs, hsp, ?_⟩
    intro env2 d2 hcfg2 hfault2
    exact Reconcile_pending env2 request _ d2 s hcfg2 hfault2 hs hsp

/-- Claim C28 at the pending request for `member-2` and the record of `john` without an
account on that cluster: the pass records the failure, the stored request is not complete
and the next pass runs the tier change again. -/
theorem failed_and_complete_exclusive_witness :
    ∃ s, lookupKey ChangeTierRequest.key
          (Reconcile (exEnv 30) exKey exWorldNoMatch).2.changeTierRequests exKey = some s
      ∧ isComplete s.conditions = false
      ∧ Reconcile (exEnv 30) exKey (Reconcile (exEnv 30) exKey exWorldNoMatch).2
          = reconcilePending (exEnv 30) exKey 30 s
              ((Reconcile (exEnv 30) exKey exWorldNoMatch).2.record
                (.getChangeTierRequest exKey)) :=
  have h := (failed_and_complete_exclusive (exEnv 30) exPending "" exWorldNoMatch).2.2.2.2.2.2
    exKey 30 exPending rfl rfl (by decide) (by decide) (by decide)
  h.elim fun s hs => ⟨s, hs.1, hs.2.1, hs.2.2 (exEnv 30) 30 rfl rfl⟩

/-! ## User accounts without a template set -/

/-- The first loop leaves a user account without a template set where and as it is. -/
theorem changeUserAccounts_bare_kept (env : Env) (ctr : ChangeTierRequest)
    (newNsTemplateSet : NSTemplateSetSpec) :
    ∀ (uas : List UserAccountEmbedded) (labels : List (String × String)) (i : Nat)
      (ua : UserAccountEmbedded),
      uas[i]? = some ua → ua.NSTemplateSet = none →
      (changeUserAccounts env ctr newNsTemplateSet uas labels).1[i]? = some ua := by
  intro uas
  induction uas with
  | nil => intro labels i ua h; simp at h
  | cons x rest ih =>
    intro labels i ua h hbare
    rw [changeUserAccounts]
    cases i with
    | zero =>
      simp only [List.getElem?_cons_zero, Option.some.injEq] at h
      subst h
      simp only [hbare, List.getElem?_cons_zero]
    | succ j =>
      simp only [List.getElem?_cons_succ] at h
      cases hxs : x.NSTemplateSet with
      | none =>
        simp only [List.getElem?_cons_succ]
        exact ih labels j ua h hbare
      | some s =>
        simp only
        split_ifs with h1 h2
        · simp only [List.getElem?_cons_succ]
          exact h
        · simp only [List.getElem?_cons_succ]
          exact ih labels j ua h hbare
        · simp only [List.getElem?_cons_succ]
          exact ih _ j ua h hbare

/-- User accounts without a template set are no match, whatever their cluster. -/
theorem changeUserAccounts_all_bare (env : Env) (ctr : ChangeTierRequest)
    (newNsTemplateSet : NSTemplateSetSpec) :
    ∀ (uas : List UserAccountEmbedded) (labels : List (String × String)),
      (∀ x ∈ uas, x.NSTemplateSet = none) →
      changeUserAccounts env ctr newNsTemplateSet uas labels = (uas, labels, false) := by
  intro uas
  induction uas with
  | nil => intro labels _; rfl
  | cons x rest ih =>
    intro labels hall
    rw [changeUserAccounts]
    simp only [hall x (List.mem_cons_self _ _),
      ih labels (fun y hy => hall y (List.mem_cons_of_mem _ hy))]

/-- A user account without a template set adds nothing to the hash labels: the second
loop computes the same labels with and without it. -/
theorem computeHashLabels_bare (env : Env) (ua : UserAccountEmbedded)
    (post : List UserAccountEmbedded) (hbare : ua.NSTemplateSet = none) :
    ∀ (pre : List UserAccountEmbedded) (labels : List (String × String)),
      computeHashLabels env (pre ++ ua :: post) labels
        = computeHashLabels env (pre ++ post) labels := by
  intro pre
  induction pre with
  | nil =>
    intro labels
    rw [List.nil_append, List.nil_append, computeHashLabels]
    simp only [hbare]
  | cons x rest ih =>
    intro labels
    rw [List.cons_append, List.cons_append, computeHashLabels, computeHashLabels]
    cases hxs : x.NSTemplateSet with
    | none => exact ih labels
    | some s =>
      simp only
      cases env.ComputeHashForNSTemplateSetSpec s with
      | error e => rfl
      | ok h => exact ih _

/-- Without a target cluster, the first loop sets the new template set on every user
account that has a template set, and reports a change when there is such an account. -/
theorem changeUserAccounts_untargeted (env : Env) (ctr : ChangeTierRequest)
    (newNsTemplateSet : NSTemplateSetSpec) (htarget : ctr.spec.TargetCluster = "") :
    ∀ (uas : List UserAccountEmbedded) (labels : List (String × String)),
      (changeUserAccounts env ctr newNsTemplateSet uas labels).1
          = uas.map (withTemplateSet newNsTemplateSet)
        ∧ ((changeUserAccounts env ctr newNsTemplateSet uas labels).2.2 = true
            ↔ ∃ x ∈ uas, x.NSTemplateSet ≠ none) := by
  intro uas
  induction uas with
  | nil =>
    intro labels
    simp [changeUserAccounts]
  | cons x rest ih =>
    intro labels
    rw [changeUserAccounts]
    cases hxs : x.NSTemplateSet with
    | none =>
      obtain ⟨h1, h2⟩ := ih labels
      simp only [List.map_cons, h1, withTemplateSet, hxs, true_and, h2, List.mem_cons,
        exists_eq_or_imp, ne_eq, not_true_eq_false, false_or]
    | some s =>
      obtain ⟨h1, _⟩ := ih (mapDelete labels (env.TemplateTierHashLabelKey s.TierName))
      simp only [htarget, ne_eq, not_true_eq_false, if_false, List.map_cons, h1,
        withTemplateSet, hxs, true_and, List.mem_cons, exists_eq_or_imp]
      simp

/-- Claim C30. User accounts without a template set are no match for the first loop,
whatever their cluster, and the second loop computes the same labels with and without
them; a successful record step stores each of them where and as it was.  A request
without target cluster on a stored record whose user accounts all lack a template set (or
that has no user account) fails with the error "the MasterUserRecord ... doesn't contain
UserAccount with cluster ..." and issues no update of the record; on a record with a user
account that has a template set, a successful step stores every such account with the
template set of the new tier. -/
theorem changeTierInMasterUserRecord_bare_accounts (env : Env) (ctr : ChangeTierRequest)
    (ns : String) (tier : NSTemplateTier) (w : World) (mur : MasterUserRecord)
    (hfault : env.faults (.getMasterUserRecord ⟨ns, ctr.spec.MurName⟩) = none)
    (hmur : lookupKey MasterUserRecord.key w.masterUserRecords ⟨ns, ctr.spec.MurName⟩
      = some mur) :
    (∀ uas labels, (∀ x ∈ uas, x.NSTemplateSet = none) →
        changeUserAccounts env ctr (env.NewNSTemplateSetSpec tier) uas labels
          = (uas, labels, false))
      ∧ (∀ pre ua post labels, ua.NSTemplateSet = none →
          computeHashLabels env (pre ++ ua :: post) labels
            = computeHashLabels env (pre ++ post) labels)
      ∧ ((changeTierInMasterUserRecord env ctr ns tier w).1.2 = (true, none) →
          ∃ stored,
            lookupKey MasterUserRecord.key
                (changeTierInMasterUserRecord env ctr ns tier w).2.masterUserRecords
                ⟨ns, ctr.spec.MurName⟩ = some stored
              ∧ (∀ (i : Nat) ua, mur.UserAccounts[i]? = some ua → ua.NSTemplateSet = none →
                  stored.UserAccounts[i]? = some ua)
              ∧ (ctr.spec.TargetCluster = "" →
                  stored.UserAccounts
                      = mur.UserAccounts.map (withTemplateSet (env.NewNSTemplateSetSpec tier))
                    ∧ ∀ (i : Nat) ua s, mur.UserAccounts[i]? = some ua →
                        ua.NSTemplateSet = some s →
                        stored.UserAccounts[i]?
                          = some { ua with
                              NSTemplateSet := some (env.NewNSTemplateSetSpec tier) }))
      ∧ (ctr.spec.TargetCluster = "" → (∀ x ∈ mur.UserAccounts, x.NSTemplateSet = none) →
          (changeTierInMasterUserRecord env ctr ns tier w).1.2
              = (false, some (Wrapf
                  (.other ("the MasterUserRecord '" ++ ctr.spec.MurName
                    ++ "' doesn't contain UserAccount with cluster '"
                    ++ ctr.spec.TargetCluster ++ "' whose tier should be changed"))
                  ("unable to change tier in MasterUserRecord " ++ ctr.spec.MurName)))
            ∧ (changeTierInMasterUserRecord env ctr ns tier w).2.masterUserRecords
                = w.masterUserRecords
            ∧ ∃ new, (changeTierInMasterUserRecord env ctr ns tier w).2.calls
                  = w.calls ++ .getMasterUserRecord ⟨ns, ctr.spec.MurName⟩ :: new
                ∧ ∀ c ∈ new, Call.onRequest c = true)
      ∧ (ctr.spec.TargetCluster = "" → (∃ x ∈ mur.UserAccounts, x.NSTemplateSet ≠ none) →
          (changeUserAccounts env ctr (env.NewNSTemplateSetSpec tier) mur.UserAccounts
            mur.Labels).2.2 = true) := by
  refine ⟨changeUserAccounts_all_bare env ctr _,
    fun pre ua post labels hbare => computeHashLabels_bare env ua post hbare pre labels,
    ?_, ?_, ?_⟩
  · intro hok
    obtain ⟨labels, _, hlook⟩ := changeTierInMasterUserRecord_stored env ctr ns tier w mur
      hmur hok
    refine ⟨changedRecord env ctr tier mur labels, hlook, ?_, ?_⟩
    · intro i ua hi hbare
      exact changeUserAccounts_bare_kept env ctr _ mur.UserAccounts mur.Labels i ua hi hbare
    · intro htarget
      have hmap : (changedRecord env ctr tier mur labels).UserAccounts
          = mur.UserAccounts.map (withTemplateSet (env.NewNSTemplateSetSpec tier)) :=
        (changeUserAccounts_untargeted env ctr _ htarget mur.UserAccounts mur.Labels).1
      refine ⟨hmap, ?_⟩
      intro i ua s hi hs
      rw [hmap, List.getElem?_map, hi]
      simp only [Option.map_some', withTemplateSet, hs]
  · intro htarget hall
    have hloop := changeUserAccounts_all_bare env ctr (env.NewNSTemplateSetSpec tier)
      mur.UserAccounts mur.Labels hall
    have hR : changeTierInMasterUserRecord env ctr ns tier w
        = failWith env ctr
            (.other ("the MasterUserRecord '" ++ ctr.spec.MurName
              ++ "' doesn't contain UserAccount with cluster '"
              ++ ctr.spec.TargetCluster ++ "' whose tier should be changed"))
            ("unable to change tier in MasterUserRecord " ++ ctr.spec.MurName)
            (w.record (.getMasterUserRecord ⟨ns, ctr.spec.MurName⟩)) := by
      unfold changeTierInMasterUserRecord
      simp only [getMasterUserRecord, getOutcome, hfault, hmur, hloop, if_true]
    rw [hR]
    obtain ⟨_, hm, _, _, new, hnew, hallc⟩ := requestOnly_failWith env ctr
      (.other ("the MasterUserRecord '" ++ ctr.spec.MurName
        ++ "' doesn't contain UserAccount with cluster '"
        ++ ctr.spec.TargetCluster ++ "' whose tier should be changed"))
      ("unable to change tier in MasterUserRecord " ++ ctr.spec.MurName)
      (w.record (.getMasterUserRecord ⟨ns, ctr.spec.MurName⟩))
    refine ⟨failWith_result _ _ _ _ _, hm, new, ?_, hallc⟩
    rw [hnew]
    simp [World.record]
  · intro htarget hex
    exact (changeUserAccounts_untargeted env ctr _ htarget mur.UserAccounts mur.Labels).2.mpr hex

/-- Claim C30 at the request for every cluster: on the record of `john` whose accounts
have no template set the step fails and stores nothing; on the record of `john` the
accounts with a template set get the one of tier `team`, the account without stays. -/
theorem changeTierInMasterUserRecord_bare_accounts_witness :
    (changeTierInMasterUserRecord (exEnv 30) exPendingAll "toolchain-host" exTier
        (exWorldOf exPendingAll exRecordBare)).1.2.1 = false
      ∧ (changeTierInMasterUserRecord (exEnv 30) exPendingAll "toolchain-host" exTier
        (exWorldOf exPendingAll exRecordBare)).2.masterUserRecords = [exRecordBare]
      ∧ ∃ stored,
          lookupKey MasterUserRecord.key
              (changeTierInMasterUserRecord (exEnv 30) exPendingAll "toolchain-host" exTier
                (exWorldOf exPendingAll exRecord)).2.masterUserRecords
              ⟨"toolchain-host", exPendingAll.spec.MurName⟩ = some stored
            ∧ stored.UserAccounts
              = [⟨"member-1", "default", some ⟨"team", ["team-dev", "team-stage"], some "team-cr"⟩⟩,
                 ⟨"member-2", "default", some ⟨"team", ["team-dev", "team-stage"], some "team-cr"⟩⟩,
                 ⟨"member-3", "default", none⟩] :=
  have ha := (changeTierInMasterUserRecord_bare_accounts (exEnv 30) exPendingAll
    "toolchain-host" exTier (exWorldOf exPendingAll exRecordBare) exRecordBare rfl
    (by decide)).2.2.2.1 rfl (by decide)
  have hb := (changeTierInMasterUserRecord_bare_accounts (exEnv 30) exPendingAll
    "toolchain-host" exTier (exWorldOf exPendingAll exRecord) exRecord rfl
    (by decide)).2.2.1 (by decide)
  ⟨by rw [ha.1], ha.2.1, hb.elim fun stored hs => ⟨stored, hs.1, by rw [(hs.2.2 rfl).1]; rfl⟩⟩

/-! ## The record step applied again -/

/-- The first loop depends on the request only through its target cluster. -/
theorem changeUserAccounts_congr (env : Env) (ctr ctr2 : ChangeTierRequest)
    (newNsTemplateSet : NSTemplateSetSpec)
    (hspec : ctr2.spec.TargetCluster = ctr.spec.TargetCluster) :
    ∀ (uas : List UserAccountEmbedded) (labels : List (String × String)),
      changeUserAccounts env ctr2 newNsTemplateSet uas labels
        = changeUserAccounts env ctr newNsTemplateSet uas labels := by
  intro uas
  induction uas with
  | nil => intro labels; rfl
  | cons x rest ih =>
    intro labels
    rw [changeUserAccounts, changeUserAccounts]
    cases hxs : x.NSTemplateSet with
    | none => simp only [ih]
    | some s => simp only [hspec, ih]

/-- The first loop run on its own result: the user accounts and the flag are the same, and
only the hash label of the new tier is cleared. -/
theorem changeUserAccounts_again (env : Env) (ctr : ChangeTierRequest)
    (newNsTemplateSet : NSTemplateSetSpec) :
    ∀ (uas : List UserAccountEmbedded) (l l2 : List (String × String)),
      (changeUserAccounts env ctr newNsTemplateSet
          (changeUserAccounts env ctr newNsTemplateSet uas l).1 l2).1
          = (changeUserAccounts env ctr newNsTemplateSet uas l).1
        ∧ (changeUserAccounts env ctr newNsTemplateSet
          (changeUserAccounts env ctr newNsTemplateSet uas l).1 l2).2.2
          = (changeUserAccounts env ctr newNsTemplateSet uas l).2.2
        ∧ ∀ k, k ≠ env.TemplateTierHashLabelKey newNsTemplateSet.TierName →
            mapGet (changeUserAccounts env ctr newNsTemplateSet
              (changeUserAccounts env ctr newNsTemplateSet uas l).1 l2).2.1 k
              = mapGet l2 k := by
  intro uas
  induction uas with
  | nil => intro l l2; exact ⟨rfl, rfl, fun _ _ => rfl⟩
  | cons x rest ih =>
    intro l l2
    cases hxs : x.NSTemplateSet with
    | none =>
      have hin : changeUserAccounts env ctr newNsTemplateSet (x :: rest) l
          = (x :: (changeUserAccounts env ctr newNsTemplateSet rest l).1,
             (changeUserAccounts env ctr newNsTemplateSet rest l).2.1,
             (changeUserAccounts env ctr newNsTemplateSet rest l).2.2) := by
        rw [changeUserAccounts]
        simp only [hxs]
      obtain ⟨h1, h2, h3⟩ := ih l l2
      rw [hin]
      simp only
      rw [changeUserAccounts]
      simp only [hxs, h1, h2]
      exact ⟨trivial, trivial, h3⟩
    | some s =>
      by_cases ht : ctr.spec.TargetCluster = ""
      · have hin : changeUserAccounts env ctr newNsTemplateSet (x :: rest) l
            = ({ x with NSTemplateSet := some newNsTemplateSet }
                :: (changeUserAccounts env ctr newNsTemplateSet rest
                    (mapDelete l (env.TemplateTierHashLabelKey s.TierName))).1,
               (changeUserAccounts env ctr newNsTemplateSet rest
                    (mapDelete l (env.TemplateTierHashLabelKey s.TierName))).2.1, true) := by
          rw [changeUserAccounts]
          simp only [hxs, ht, ne_eq, not_true_eq_false, if_false]
        obtain ⟨h1, _, h3⟩ := ih (mapDelete l (env.TemplateTierHashLabelKey s.TierName))
          (mapDelete l2 (env.TemplateTierHashLabelKey newNsTemplateSet.TierName))
        rw [hin]
        simp only
        rw [changeUserAccounts]
        simp only [ht, ne_eq, not_true_eq_false, if_false, h1]
        refine ⟨trivial, trivial, fun k hk => ?_⟩
        rw [h3 k hk]
        exact mapGet_mapDelete_other _ _ _ hk
      · by_cases hm : x.TargetCluster = ctr.spec.TargetCluster
        · have hin : changeUserAccounts env ctr newNsTemplateSet (x :: rest) l
              = ({ x with NSTemplateSet := some newNsTemplateSet } :: rest,
                 mapDelete l (env.TemplateTierHashLabelKey s.TierName), true) := by
            rw [changeUserAccounts]
            simp only [hxs, ht, hm, ne_eq, not_false_eq_true, if_true]
          rw [hin]
          simp only
          rw [changeUserAccounts]
          simp only [ht, hm, ne_eq, not_false_eq_true, if_true]
          exact ⟨trivial, trivial, fun k hk => mapGet_mapDelete_other _ _ _ hk⟩
        · have hin : changeUserAccounts env ctr newNsTemplateSet (x :: rest) l
              = (x :: (changeUserAccounts env ctr newNsTemplateSet rest l).1,
                 (changeUserAccounts env ctr newNsTemplateSet rest l).2.1,
                 (changeUserAccounts env ctr newNsTemplateSet rest l).2.2) := by
            rw [changeUserAccounts]
            simp only [hxs, ht, hm, ne_eq, not_false_eq_true, if_true, if_false]
          obtain ⟨h1, h2, h3⟩ := ih l l2
          rw [hin]
          simp only
          rw [changeUserAccounts]
          simp only [hxs, ht, hm, ne_eq, not_false_eq_true, if_true, if_false, h1, h2]
          exact ⟨trivial, trivial, h3⟩

/-- When the first loop reports a change, a user account of its result has the new
template set. -/
theorem changeUserAccounts_changed_mem (env : Env) (ctr : ChangeTierRequest)
    (newNsTemplateSet : NSTemplateSetSpec) :
    ∀ (uas : List UserAccountEmbedded) (l : List (String × String)),
      (changeUserAccounts env ctr newNsTemplateSet uas l).2.2 = true →
      ∃ x ∈ (changeUserAccounts env ctr newNsTemplateSet uas l).1,
        x.NSTemplateSet = some newNsTemplateSet := by
  intro uas
  induction uas with
  | nil => intro l h; simp [changeUserAccounts] at h
  | cons x rest ih =>
    intro l h
    rw [changeUserAccounts] at h ⊢
    cases hxs : x.NSTemplateSet with
    | none =>
      simp only [hxs] at h
      obtain ⟨y, hy, hys⟩ := ih l h
      exact ⟨y, List.mem_cons_of_mem _ hy, hys⟩
    | some s =>
      simp only [hxs] at h
      simp only
      split_ifs at h ⊢ with h1 h2
      · exact ⟨_, List.mem_cons_self _ _, rfl⟩
      · obtain ⟨y, hy, hys⟩ := ih l h
        exact ⟨y, List.mem_cons_of_mem _ hy, hys⟩
      · exact ⟨_, List.mem_cons_self _ _, rfl⟩

/-- Whether the second loop succeeds depends on the user accounts only. -/
theorem computeHashLabels_total (env : Env) :
    ∀ (uas : List UserAccountEmbedded) (a b la : List (String × String)),
      computeHashLabels env uas a = .ok la → ∃ lb, computeHashLabels env uas b = .ok lb := by
  intro uas
  induction uas with
  | nil => intro a b la _; exact ⟨b, rfl⟩
  | cons x rest ih =>
    intro a b la h
    rw [computeHashLabels] at h ⊢
    cases hxs : x.NSTemplateSet with
    | none =>
      simp only [hxs] at h
      exact ih a b la h
    | some s =>
      simp only [hxs] at h
      simp only
      cases hh : env.ComputeHashForNSTemplateSetSpec s with
      | error e => simp [hh] at h
      | ok v =>
        simp only [hh] at h
        exact ih _ _ la h

/-- After the second loop, two label maps agree at a key at which they agreed before or
which a user account uses. -/
theorem computeHashLabels_agree (env : Env) (k : String) :
    ∀ (uas : List UserAccountEmbedded) (a b la lb : List (String × String)),
      computeHashLabels env uas a = .ok la →
      computeHashLabels env uas b = .ok lb →
      (mapGet a k = mapGet b k
        ∨ ∃ x ∈ uas, ∃ s, x.NSTemplateSet = some s
            ∧ env.TemplateTierHashLabelKey s.TierName = k) →
      mapGet la k = mapGet lb k := by
  intro uas
  induction uas with
  | nil =>
    intro a b la lb ha hb h
    simp only [computeHashLabels, Except.ok.injEq] at ha hb
    subst ha hb
    rcases h with h | ⟨x, hx, _⟩
    · exact h
    · simp at hx
  | cons x rest ih =>
    intro a b la lb ha hb h
    rw [computeHashLabels] at ha hb
    cases hxs : x.NSTemplateSet with
    | none =>
      simp only [hxs] at ha hb
      refine ih a b la lb ha hb ?_
      rcases h with h | ⟨y, hy, s, hys, hk⟩
      · exact Or.inl h
      · rcases List.mem_cons.mp hy with rfl | hy'
        · rw [hxs] at hys; cases hys
        · exact Or.inr ⟨y, hy', s, hys, hk⟩
    | some s =>
      simp only [hxs] at ha hb
      cases hh : env.ComputeHashForNSTemplateSetSpec s with
      | error e => simp [hh] at ha
      | ok v =>
        simp only [hh] at ha hb
        refine ih _ _ la lb ha hb ?_
        by_cases hk : env.TemplateTierHashLabelKey s.TierName = k
        · left
          rw [hk, mapGet_mapSet_self, mapGet_mapSet_self]
        · rcases h with h | ⟨y, hy, s2, hys, hk2⟩
          · left
            rw [mapGet_mapSet_other _ _ _ _ (fun e => hk e.symm),
              mapGet_mapSet_other _ _ _ _ (fun e => hk e.symm)]
            exact h
          · rcases List.mem_cons.mp hy with rfl | hy'
            · rw [hxs] at hys
              cases hys
              exact absurd hk2 hk
            · exact Or.inr ⟨y, hy', s2, hys, hk2⟩

/-- The two loops run on the record that they produced, for a request with the same spec:
a user account is changed again, the hashes are computed again, and the user accounts and
every label come out as they went in. -/
theorem changedRecord_again (env : Env) (ctr ctr2 : ChangeTierRequest)
    (tier : NSTemplateTier) (mur : MasterUserRecord) (labels : List (String × String))
    (hspec : ctr2.spec = ctr.spec)
    (hch : (changeUserAccounts env ctr (env.NewNSTemplateSetSpec tier)
      mur.UserAccounts mur.Labels).2.2 = true)
    (hh : computeHashLabels env
      (changeUserAccounts env ctr (env.NewNSTemplateSetSpec tier)
        mur.UserAccounts mur.Labels).1
      (changeUserAccounts env ctr (env.NewNSTemplateSetSpec tier)
        mur.UserAccounts mur.Labels).2.1 = .ok labels) :
    (changeUserAccounts env ctr2 (env.NewNSTemplateSetSpec tier)
        (changedRecord env ctr tier mur labels).UserAccounts
        (changedRecord env ctr tier mur labels).Labels).2.2 = true
      ∧ (changeUserAccounts env ctr2 (env.NewNSTemplateSetSpec tier)
          (changedRecord env ctr tier mur labels).UserAccounts
          (changedRecord env ctr tier mur labels).Labels).1
          = (changedRecord env ctr tier mur labels).UserAccounts
      ∧ ∃ labels2,
          computeHashLabels env
              (changeUserAccounts env ctr2 (env.NewNSTemplateSetSpec tier)
                (changedRecord env ctr tier mur labels).UserAccounts
                (changedRecord env ctr tier mur labels).Labels).1
              (changeUserAccounts env ctr2 (env.NewNSTemplateSetSpec tier)
                (changedRecord env ctr tier mur labels).UserAccounts
                (changedRecord env ctr tier mur labels).Labels).2.1 = .ok labels2
            ∧ ∀ l2,
                computeHashLabels env
                  (changeUserAccounts env ctr2 (env.NewNSTemplateSetSpec tier)
                    (changedRecord env ctr tier mur labels).UserAccounts
                    (changedRecord env ctr tier mur labels).Labels).1
                  (changeUserAccounts env ctr2 (env.NewNSTemplateSetSpec tier)
                    (changedRecord env ctr tier mur labels).UserAccounts
                    (changedRecord env ctr tier mur labels).Labels).2.1 = .ok l2 →
                ∀ k, mapGet l2 k = mapGet labels k := by
  have hcongr := changeUserAccounts_congr env ctr ctr2 (env.NewNSTemplateSetSpec tier)
    (by rw [hspec])
  obtain ⟨h1, h2, h3⟩ := changeUserAccounts_again env ctr (env.NewNSTemplateSetSpec tier)
    mur.UserAccounts mur.Labels labels
  have hacc : (changedRecord env ctr tier mur labels).UserAccounts
      = (changeUserAccounts env ctr (env.NewNSTemplateSetSpec tier) mur.UserAccounts
          mur.Labels).1 := rfl
  have hlab : (changedRecord env ctr tier mur labels).Labels = labels := rfl
  rw [hcongr, hacc, hlab, h1, h2]
  refine ⟨hch, rfl, ?_⟩
  obtain ⟨labels2, hl2⟩ := computeHashLabels_total env _ _
    (changeUserAccounts env ctr (env.NewNSTemplateSetSpec tier)
      (changeUserAccounts env ctr (env.NewNSTemplateSetSpec tier) mur.UserAccounts
        mur.Labels).1 labels).2.1 labels hh
  have hval : ∀ l2,
      computeHashLabels env
        (changeUserAccounts env ctr (env.NewNSTemplateSetSpec tier) mur.UserAccounts
          mur.Labels).1
        (changeUserAccounts env ctr (env.NewNSTemplateSetSpec tier)
          (changeUserAccounts env ctr (env.NewNSTemplateSetSpec tier) mur.UserAccounts
            mur.Labels).1 labels).2.1 = .ok l2 →
      ∀ k, mapGet l2 k = mapGet labels k := by
    intro l2 hl k
    by_cases hused : ∃ x ∈ (changeUserAccounts env ctr (env.NewNSTemplateSetSpec tier)
        mur.UserAccounts mur.Labels).1, ∃ s, x.NSTemplateSet = some s
          ∧ env.TemplateTierHashLabelKey s.TierName = k
    · exact computeHashLabels_agree env k _ _ _ l2 labels hl hh (Or.inr hused)
    · have hk : k ≠ env.TemplateTierHashLabelKey (env.NewNSTemplateSetSpec tier).TierName := by
        intro hk
        obtain ⟨x, hx, hxs⟩ := changeUserAccounts_changed_mem env ctr
          (env.NewNSTemplateSetSpec tier) mur.UserAccounts mur.Labels hch
        exact hused ⟨x, hx, _, hxs, hk.symm⟩
      refine computeHashLabels_stable env k (mapGet labels k) _ _ l2 hl (h3 k hk) ?_
      intro x hx s hxs hks
      exact absurd ⟨x, hx, s, hxs, hks⟩ hused
  exact ⟨labels2, hl2, hval⟩

/-- Claim C26. The record step applied to a stored record that the two loops already
changed for a request with the same spec (the record that a previous pass sent to the API
server): the first loop reports a change again and the hashes are computed again; and
when the step succeeds, the record it stores has the same user accounts, the same
top-level tier name and, at every key, the same label as the record it found. -/
theorem changeTierInMasterUserRecord_idempotent (env : Env) (ctr ctr2 : ChangeTierRequest)
    (ns : String) (tier : NSTemplateTier) (mur : MasterUserRecord)
    (labels : List (String × String)) (w2 : World)
    (hspec : ctr2.spec = ctr.spec)
    (hch : (changeUserAccounts env ctr (env.NewNSTemplateSetSpec tier)
      mur.UserAccounts mur.Labels).2.2 = true)
    (hh : computeHashLabels env
      (changeUserAccounts env ctr (env.NewNSTemplateSetSpec tier)
        mur.UserAccounts mur.Labels).1
      (changeUserAccounts env ctr (env.NewNSTemplateSetSpec tier)
        mur.UserAccounts mur.Labels).2.1 = .ok labels)
    (hstored : lookupKey MasterUserRecord.key w2.masterUserRecords ⟨ns, ctr.spec.MurName⟩
      = some (changedRecord env ctr tier mur labels)) :
    ((changeUserAccounts env ctr2 (env.NewNSTemplateSetSpec tier)
        (changedRecord env ctr tier mur labels).UserAccounts
        (changedRecord env ctr tier mur labels).Labels).2.2 = true
      ∧ ∃ labels2,
          computeHashLabels env
            (changeUserAccounts env ctr2 (env.NewNSTemplateSetSpec tier)
              (changedRecord env ctr tier mur labels).UserAccounts
              (changedRecord env ctr tier mur labels).Labels).1
            (changeUserAccounts env ctr2 (env.NewNSTemplateSetSpec tier)
              (changedRecord env ctr tier mur labels).UserAccounts
              (changedRecord env ctr tier mur labels).Labels).2.1 = .ok labels2)
      ∧ ((changeTierInMasterUserRecord env ctr2 ns tier w2).1.2 = (true, none) →
          ∃ stored2,
            lookupKey MasterUserRecord.key
                (changeTierInMasterUserRecord env ctr2 ns tier w2).2.masterUserRecords
                ⟨ns, ctr.spec.MurName⟩ = some stored2
              ∧ stored2.UserAccounts = (changedRecord env ctr tier mur labels).UserAccounts
              ∧ stored2.TierName = (changedRecord env ctr tier mur labels).TierName
              ∧ ∀ k, mapGet stored2.Labels k
                  = mapGet (changedRecord env ctr tier mur labels).Labels k) := by
  obtain ⟨hflag, hacc, labels2, hl2, hval⟩ := changedRecord_again env ctr ctr2 tier mur labels
    hspec hch hh
  refine ⟨⟨hflag, labels2, hl2⟩, ?_⟩
  intro hok2
  have hstored2 : lookupKey MasterUserRecord.key w2.masterUserRecords
      ⟨ns, ctr2.spec.MurName⟩ = some (changedRecord env ctr tier mur labels) := by
    rw [hspec]; exact hstored
  obtain ⟨l2, hh2, hlook⟩ := changeTierInMasterUserRecord_stored env ctr2 ns tier w2
    (changedRecord env ctr tier mur labels) hstored2 hok2
  rw [hspec] at hlook
  refine ⟨_, hlook, hacc, ?_, hval l2 hh2⟩
  show ctr2.spec.TierName = ctr.spec.TierName
  rw [hspec]

/-- Claim C26 at the request for `john`: a first pass changes the record and fails at
the update of the space; the record step of the next pass stores the record with the
same user accounts and the same tier name. -/
theorem changeTierInMasterUserRecord_idempotent_witness :
    (Reconcile (exEnvSpaceFails 30) exKey (exWorld exPending)).1.2 ≠ none
      ∧ ∃ stored2,
          lookupKey MasterUserRecord.key
              (changeTierInMasterUserRecord (exEnv 30) exPending "toolchain-host" exTier
                (Reconcile (exEnvSpaceFails 30) exKey
                  (exWorld exPending)).2).2.masterUserRecords
              ⟨"toolchain-host", exPending.spec.MurName⟩ = some stored2
            ∧ stored2.UserAccounts
              = [⟨"member-1", "default", some exBasicSet⟩,
                 ⟨"member-2", "default", some ⟨"team", ["team-dev", "team-stage"], some "team-cr"⟩⟩,
                 ⟨"member-3", "default", none⟩]
            ∧ stored2.TierName = "team" :=
  have h := (changeTierInMasterUserRecord_idempotent (exEnv 30) exPending exPending
    "toolchain-host" exTier exRecord
    [("toolchain.dev.openshift.com/team-tier-hash", "hash-of-team"),
     ("toolchain.dev.openshift.com/basic-tier-hash", "hash-of-basic"),
     ("toolchain.dev.openshift.com/owner", "john")]
    (Reconcile (exEnvSpaceFails 30) exKey (exWorld exPending)).2
    rfl (by decide) rfl (by decide)).2 (by decide)
  ⟨by decide, h.elim fun stored2 hs => ⟨stored2, hs.1, by rw [hs.2.1]; rfl, by rw [hs.2.2.1]; rfl⟩⟩

/-! ## One replica per pass -/

theorem resolve_setReplica_self (members : List MemberCluster) (c : String)
    (r : Option Replica) (m : MemberCluster) (h : resolve members c = .ok m) :
    resolve (setReplica members c r) c = .ok { m with replica := r } := by
  obtain ⟨hfind, hready⟩ := resolve_ok members c m h
  unfold resolve
  rw [find_setReplica_self members c r m hfind]
  simp only [hready, if_true]

theorem resolve_setReplica_other (members : List MemberCluster) (c c2 : String)
    (r : Option Replica) (hne : c2 ≠ c) :
    resolve (setReplica members c r) c2 = resolve members c2 :=
  resolve_congr _ _ _ (find_setReplica_other members c c2 r hne)

theorem replicaOf_of_resolve (members : List MemberCluster) (c : String) (m : MemberCluster)
    (h : resolve members c = .ok m) : replicaOf members c = m.replica := by
  unfold replicaOf
  rw [(resolve_ok members c m h).1]

/-- The loop over the AccountRefs passes over those whose replica exists, creates the
replica of the first one that misses it, and stops. -/
theorem ensureReplicas_next (f : Remote) (h : Host) (a : UserAccountEmbedded)
    (post : List UserAccountEmbedded) (m : MemberCluster)
    (hres : resolve h.members a.TargetCluster = .ok m) (hrep : m.replica = none)
    (hc : f.create a.TargetCluster = none) :
    ∀ (pre : List UserAccountEmbedded),
      (∀ x ∈ pre, ∃ mx, resolve h.members x.TargetCluster = .ok mx ∧ mx.replica ≠ none) →
      ensureReplicas f (pre ++ a :: post) h
        = (none,
           recordCondition f.now
            { h with
              members := setReplica h.members a.TargetCluster (some ⟨a, none⟩),
              userAccountCounts := counterAdd h.userAccountCounts a.TargetCluster 1 }
            ProvisioningReason "") := by
  intro pre
  induction pre with
  | nil =>
    intro _
    rw [List.nil_append, ensureReplicas]
    simp only [hres, hrep, hc]
  | cons x rest ih =>
    intro hpre
    obtain ⟨mx, hx, hxr⟩ := hpre x (List.mem_cons_self _ _)
    rw [List.cons_append, ensureReplicas]
    cases hmx : mx.replica with
    | none => exact absurd hmx hxr
    | some r =>
      simp only [hx, hmx]
      exact ih (fun y hy => hpre y (List.mem_cons_of_mem _ hy))

/-- When the replica of every AccountRef exists, the loop creates nothing. -/
theorem ensureReplicas_done (f : Remote) (h : Host) :
    ∀ (accounts : List UserAccountEmbedded),
      (∀ x ∈ accounts, ∃ mx, resolve h.members x.TargetCluster = .ok mx ∧ mx.replica ≠ none) →
      ensureReplicas f accounts h = (none, h) := by
  intro accounts
  induction accounts with
  | nil => intro _; rfl
  | cons x rest ih =>
    intro hall
    obtain ⟨mx, hx, hxr⟩ := hall x (List.mem_cons_self _ _)
    rw [ensureReplicas]
    cases hmx : mx.replica with
    | none => exact absurd hmx hxr
    | some r =>
      simp only [hx, hmx]
      exact ih (fun y hy => hall y (List.mem_cons_of_mem _ hy))

/-- The guard step of a pass whose persist is accepted: the record has the guard
afterwards and nothing else is changed. -/
theorem ensureGuard_ok (f : Remote) (h : Host)
    (hguard : h.record.finalizer = true ∨ f.persist = none) :
    ∃ h1, ensureGuard f h = (none, h1)
      ∧ h1.record.finalizer = true
      ∧ h1.record.accounts = h.record.accounts
      ∧ h1.record.deletionTimestamp = h.record.deletionTimestamp
      ∧ h1.members = h.members
      ∧ h1.userAccountCounts = h.userAccountCounts
      ∧ h1.recordCounts = h.recordCounts := by
  unfold ensureGuard
  by_cases hfin : h.record.finalizer = true
  · exact ⟨h, by simp [hfin], hfin, rfl, rfl, rfl, rfl, rfl⟩
  · rcases hguard with hg | hg
    · exact absurd hg hfin
    · exact ⟨{ h with record := { h.record with finalizer := true } },
        by simp [hfin, hg], rfl, rfl, rfl, rfl, rfl, rfl⟩

/-- One pass on a record not marked for deletion, of which the first AccountRefs have
their replica and the next one misses it: the pass creates that replica, counts it, and
returns success. -/
theorem reconcileRecord_creates_next (f : Remote) (h : Host)
    (pre post : List UserAccountEmbedded) (a : UserAccountEmbedded) (m : MemberCluster)
    (hlive : h.record.deletionTimestamp = none)
    (hguard : h.record.finalizer = true ∨ f.persist = none)
    (hacc : h.record.accounts = pre ++ a :: post)
    (hpre : ∀ x ∈ pre, ∃ mx, resolve h.members x.TargetCluster = .ok mx ∧ mx.replica ≠ none)
    (hres : resolve h.members a.TargetCluster = .ok m) (hrep : m.replica = none)
    (hc : f.create a.TargetCluster = none) :
    (reconcileRecord f h).1 = (⟨false, 0⟩, none)
      ∧ (reconcileRecord f h).2.members
          = setReplica h.members a.TargetCluster (some ⟨a, none⟩)
      ∧ (reconcileRecord f h).2.userAccountCounts
          = counterAdd h.userAccountCounts a.TargetCluster 1
      ∧ (reconcileRecord f h).2.recordCounts = h.recordCounts
      ∧ (reconcileRecord f h).2.record.accounts = h.record.accounts
      ∧ (reconcileRecord f h).2.record.deletionTimestamp = none
      ∧ (reconcileRecord f h).2.record.finalizer = true := by
  obtain ⟨h1, hg1, hfin, hacc1, hdel1, hmem1, hcnt1, hrc1⟩ := ensureGuard_ok f h hguard
  have hnext := ensureReplicas_next f h1 a post m (by rw [hmem1]; exact hres) hrep hc pre
    (by rw [hmem1]; exact hpre)
  have hR : reconcileRecord f h
      = ((⟨false, 0⟩, none),
         recordCondition f.now
          { h1 with
            members := setReplica h1.members a.TargetCluster (some ⟨a, none⟩),
            userAccountCounts := counterAdd h1.userAccountCounts a.TargetCluster 1 }
          ProvisioningReason "") := by
    unfold reconcileRecord
    simp only [hlive, hg1, hacc1, hacc, hnext]
  rw [hR]
  refine ⟨rfl, ?_, ?_, hrc1, hacc1, ?_, hfin⟩
  · show setReplica h1.members a.TargetCluster _ = _
    rw [hmem1]
  · show counterAdd h1.userAccountCounts a.TargetCluster 1 = _
    rw [hcnt1]
  · show h1.record.deletionTimestamp = none
    rw [hdel1, hlive]

/-- After as many passes as the AccountRefs of `pre`, on a record whose AccountRefs
`pre ++ post` name different ready clusters that all miss the replica at first: the
replicas of `pre` exist, those of `post` do not, and every pass so far returned success. -/
theorem passes_provisions (f : Remote) (h : Host)
    (hlive : h.record.deletionTimestamp = none)
    (hguard : h.record.finalizer = true ∨ f.persist = none)
    (hnodup : (h.record.accounts.map (fun a => a.TargetCluster)).Nodup)
    (hmissing : ∀ a ∈ h.record.accounts,
      ∃ m, resolve h.members a.TargetCluster = .ok m ∧ m.replica = none)
    (hcreate : ∀ a ∈ h.record.accounts, f.create a.TargetCluster = none) :
    ∀ (pre post : List UserAccountEmbedded), h.record.accounts = pre ++ post →
      (passes f pre.length h).record.deletionTimestamp = none
        ∧ ((passes f pre.length h).record.finalizer = true ∨ f.persist = none)
        ∧ (passes f pre.length h).record.accounts = h.record.accounts
        ∧ (passes f pre.length h).recordCounts = h.recordCounts
        ∧ (∀ x ∈ pre, ∃ mx,
            resolve (passes f pre.length h).members x.TargetCluster = .ok mx
              ∧ mx.replica = some ⟨x, none⟩)
        ∧ (∀ x ∈ post, ∃ mx,
            resolve (passes f pre.length h).members x.TargetCluster = .ok mx
              ∧ mx.replica = none)
        ∧ (∀ x ∈ pre,
            counterGet (passes f pre.length h).userAccountCounts x.TargetCluster
              = counterGet h.userAccountCounts x.TargetCluster + 1)
        ∧ (∀ x ∈ post,
            counterGet (passes f pre.length h).userAccountCounts x.TargetCluster
              = counterGet h.userAccountCounts x.TargetCluster)
        ∧ ∀ j, j < pre.length → (reconcileRecord f (passes f j h)).1 = (⟨false, 0⟩, none) := by
  intro pre
  induction pre using List.reverseRecOn with
  | nil =>
    intro post hacc
    refine ⟨hlive, hguard, rfl, rfl, fun x hx => by simp at hx, ?_, fun x hx => by simp at hx,
      fun _ _ => rfl, fun j hj => by simp at hj⟩
    intro x hx
    exact hmissing x (by rw [hacc]; exact hx)
  | append_singleton p a ih =>
    intro post hacc
    have hacc2 : h.record.accounts = p ++ a :: post := by
      rw [hacc, List.append_assoc, List.singleton_append]
    obtain ⟨hl, hg, ha, hrc, hpre, hpost, hcpre, hcpost, hok⟩ := ih (a :: post) hacc2
    obtain ⟨m, hres, hrep⟩ := hpost a (List.mem_cons_self _ _)
    have hmem : a ∈ h.record.accounts := by rw [hacc2]; simp
    have hstep := reconcileRecord_creates_next f (passes f p.length h) p post a m hl hg
      (by rw [ha]; exact hacc2)
      (fun x hx => by
        obtain ⟨mx, h1, h2⟩ := hpre x hx
        exact ⟨mx, h1, by rw [h2]; simp⟩)
      hres hrep (hcreate a hmem)
    have hnd := hnodup
    rw [hacc2, List.map_append, List.map_cons, List.nodup_middle, List.nodup_cons] at hnd
    have hfresh : ∀ x, x ∈ p ∨ x ∈ post → x.TargetCluster ≠ a.TargetCluster := by
      intro x hx heq
      apply hnd.1
      rw [← heq, List.mem_append]
      rcases hx with hx | hx
      · exact Or.inl (List.mem_map_of_mem _ hx)
      · exact Or.inr (List.mem_map_of_mem _ hx)
    have hlen : (p ++ [a]).length = p.length + 1 := by simp
    have hpass : passes f (p ++ [a]).length h
        = (reconcileRecord f (passes f p.length h)).2 := by
      rw [hlen]
      rfl
    rw [hpass]
    obtain ⟨hs1, hs2, hs3, hs4, hs5, hs6, hs7⟩ := hstep
    refine ⟨hs6, Or.inl hs7, hs5.trans ha, hs4.trans hrc, ?_, ?_, ?_, ?_, ?_⟩
    · intro x hx
      rw [hs2]
      rcases List.mem_append.mp hx with hx | hx
      · obtain ⟨mx, h1, h2⟩ := hpre x hx
        refine ⟨mx, ?_, h2⟩
        rw [resolve_setReplica_other _ _ _ _ (hfresh x (Or.inl hx))]
        exact h1
      · rw [List.mem_singleton] at hx
        subst hx
        exact ⟨_, resolve_setReplica_self _ _ _ m hres, rfl⟩
    · intro x hx
      rw [hs2]
      obtain ⟨mx, h1, h2⟩ := hpost x (List.mem_cons_of_mem _ hx)
      refine ⟨mx, ?_, h2⟩
      rw [resolve_setReplica_other _ _ _ _ (hfresh x (Or.inr hx))]
      exact h1
    · intro x hx
      rw [hs3]
      rcases List.mem_append.mp hx with hx | hx
      · rw [counterGet_counterAdd_other _ _ _ _ (hfresh x (Or.inl hx))]
        exact hcpre x hx
      · rw [List.mem_singleton] at hx
        subst hx
        rw [counterGet_counterAdd_self, hcpost x (List.mem_cons_self _ _)]
    · intro x hx
      rw [hs3, counterGet_counterAdd_other _ _ _ _ (hfresh x (Or.inr hx))]
      exact hcpost x (List.mem_cons_of_mem _ hx)
    · intro j hj
      rw [hlen] at hj
      rcases Nat.lt_succ_iff_lt_or_eq.mp hj with hlt | heq
      · exact hok j hlt
      · rw [heq]
        exact hs1

/-- Claim C19. For a record not marked for deletion, with the deletion guard present or
persisted, whose N AccountRefs name pairwise different registered and ready clusters,
each missing its replica, with no create failing: every pass returns success and creates
exactly the replica of the next AccountRef in order, so that after k passes, for every
split of the AccountRefs into the first k and the rest, the replicas of the first k exist
(each counted once in its cluster) and those of the rest do not (their counters
unchanged); after N passes all exist, and a further pass creates nothing. -/
theorem reconcileRecord_one_per_pass (f : Remote) (h : Host)
    (pre post : List UserAccountEmbedded)
    (hlive : h.record.deletionTimestamp = none)
    (hguard : h.record.finalizer = true ∨ f.persist = none)
    (hacc : h.record.accounts = pre ++ post)
    (hnodup : (h.record.accounts.map (fun a => a.TargetCluster)).Nodup)
    (hmissing : ∀ a ∈ h.record.accounts,
      ∃ m, resolve h.members a.TargetCluster = .ok m ∧ m.replica = none)
    (hcreate : ∀ a ∈ h.record.accounts, f.create a.TargetCluster = none) :
    (∀ j, j < pre.length → (reconcileRecord f (passes f j h)).1 = (⟨false, 0⟩, none))
      ∧ (∀ x ∈ pre,
          replicaOf (passes f pre.length h).members x.TargetCluster = some ⟨x, none⟩
            ∧ counterGet (passes f pre.length h).userAccountCounts x.TargetCluster
              = counterGet h.userAccountCounts x.TargetCluster + 1)
      ∧ (∀ x ∈ post,
          replicaOf (passes f pre.length h).members x.TargetCluster = none
            ∧ counterGet (passes f pre.length h).userAccountCounts x.TargetCluster
              = counterGet h.userAccountCounts x.TargetCluster)
      ∧ (post = [] →
          (reconcileRecord f (passes f pre.length h)).1 = (⟨false, 0⟩, none)
            ∧ (reconcileRecord f (passes f pre.length h)).2.members
              = (passes f pre.length h).members
            ∧ (reconcileRecord f (passes f pre.length h)).2.userAccountCounts
              = (passes f pre.length h).userAccountCounts) := by
  obtain ⟨hl, hg, ha, _, hpre, hpost, hcpre, hcpost, hok⟩ :=
    passes_provisions f h hlive hguard hnodup hmissing hcreate pre post hacc
  refine ⟨hok, ?_, ?_, ?_⟩
  · intro x hx
    obtain ⟨mx, h1, h2⟩ := hpre x hx
    exact ⟨by rw [replicaOf_of_resolve _ _ mx h1, h2], hcpre x hx⟩
  · intro x hx
    obtain ⟨mx, h1, h2⟩ := hpost x hx
    exact ⟨by rw [replicaOf_of_resolve _ _ mx h1, h2], hcpost x hx⟩
  · intro hnil
    obtain ⟨h1, hg1, _, hacc1, _, hmem1, hcnt1, _⟩ :=
      ensureGuard_ok f (passes f pre.length h) hg
    have hall : ∀ x ∈ h1.record.accounts, ∃ mx,
        resolve h1.members x.TargetCluster = .ok mx ∧ mx.replica ≠ none := by
      intro x hx
      rw [hacc1, ha, hacc, hnil, List.append_nil] at hx
      obtain ⟨mx, hx1, hx2⟩ := hpre x hx
      exact ⟨mx, by rw [hmem1]; exact hx1, by rw [hx2]; simp⟩
    have hdone := ensureReplicas_done f h1 h1.record.accounts hall
    have hR : reconcileRecord f (passes f pre.length h) = ((⟨false, 0⟩, none), h1) := by
      unfold reconcileRecord
      simp only [hl, hg1, hdone]
    rw [hR]
    exact ⟨rfl, hmem1, hcnt1⟩

/-- Claim C19 at the record of `john` with two accounts and no replica: after one pass the
replica in `member-1` exists and the one in `member-2` does not; after two passes both
exist. -/
theorem reconcileRecord_one_per_pass_witness :
    (replicaOf (passes exRemote 1 (exHost (exJohn false none) none none)).members "member-1"
        = some ⟨⟨"member-1", "default", some exBasicSet⟩, none⟩
      ∧ replicaOf (passes exRemote 1 (exHost (exJohn false none) none none)).members "member-2"
        = none)
      ∧ replicaOf (passes exRemote 2 (exHost (exJohn false none) none none)).members "member-2"
        = some ⟨⟨"member-2", "default", some exBasicSet⟩, none⟩ :=
  have hmissing : ∀ a ∈ (exHost (exJohn false none) none none).record.accounts,
      ∃ m, resolve (exHost (exJohn false none) none none).members a.TargetCluster = .ok m
        ∧ m.replica = none := by
    intro a ha
    simp only [exHost, exJohn, List.mem_cons, List.mem_singleton, List.not_mem_nil,
      or_false] at ha
    rcases ha with rfl | rfl
    · exact ⟨⟨"member-1", true, none⟩, rfl, rfl⟩
    · exact ⟨⟨"member-2", true, none⟩, rfl, rfl⟩
  have h1 := reconcileRecord_one_per_pass exRemote (exHost (exJohn false none) none none)
    [⟨"member-1", "default", some exBasicSet⟩] [⟨"member-2", "default", some exBasicSet⟩]
    rfl (Or.inr rfl) rfl (by decide) hmissing (fun _ _ => rfl)
  have h2 := reconcileRecord_one_per_pass exRemote (exHost (exJohn false none) none none)
    [⟨"member-1", "default", some exBasicSet⟩, ⟨"member-2", "default", some exBasicSet⟩] []
    rfl (Or.inr rfl) rfl (by decide) hmissing (fun _ _ => rfl)
  ⟨⟨(h1.2.1 _ (List.mem_singleton.mpr rfl)).1, (h1.2.2.1 _ (List.mem_singleton.mpr rfl)).1⟩,
    (h2.2.1 ⟨"member-2", "default", some exBasicSet⟩ (by simp)).1⟩

/-! ## The top-level tier name -/

/-- The first loop reports a change exactly when a user account matches the request: it
has a template set and, when the request names a target cluster, is on that cluster. -/
theorem changeUserAccounts_flag_iff (env : Env) (ctr : ChangeTierRequest)
    (newNsTemplateSet : NSTemplateSetSpec) :
    ∀ (uas : List UserAccountEmbedded) (labels : List (String × String)),
      (changeUserAccounts env ctr newNsTemplateSet uas labels).2.2 = true
        ↔ ∃ ua ∈ uas, ua.NSTemplateSet ≠ none
            ∧ (ctr.spec.TargetCluster = "" ∨ ua.TargetCluster = ctr.spec.TargetCluster) := by
  intro uas
  induction uas with
  | nil => intro labels; simp [changeUserAccounts]
  | cons x rest ih =>
    intro labels
    rw [changeUserAccounts]
    cases hxs : x.NSTemplateSet with
    | none =>
      simp only [ih labels, List.mem_cons, exists_eq_or_imp, hxs, ne_eq, not_true_eq_false,
        false_and, false_or]
    | some s =>
      by_cases ht : ctr.spec.TargetCluster = ""
      · simp only [ht, ne_eq, not_true_eq_false, if_false, List.mem_cons, exists_eq_or_imp,
          hxs, true_or, and_true, true_iff]
        left
        simp
      · by_cases hm : x.TargetCluster = ctr.spec.TargetCluster
        · simp only [ht, hm, ne_eq, not_false_eq_true, if_true, List.mem_cons,
            exists_eq_or_imp, hxs, or_true, and_true, true_iff]
          left
          simp
        · simp only [ht, hm, ne_eq, not_false_eq_true, if_true, if_false, ih labels,
            List.mem_cons, exists_eq_or_imp, hxs, false_or, or_false, and_false]

/-- Claim C10, as stated, fails: the account of `john` on `member-2` already has the
template set of tier `team` and the top-level tier of the record is `advanced`; the
request for `team` on `member-2` succeeds, no user account of the stored record differs
from before, and yet the top-level tier name is modified, from `advanced` to `team`. -/
theorem changeTierInMasterUserRecord_tierName_counterexample :
    exRecordAlready.TierName = "advanced"
      ∧ (changeTierInMasterUserRecord (exEnv 30) exPending "toolchain-host" exTier
          (exWorldWith exRecordAlready)).1.2 = (true, none)
      ∧ (lookupKey MasterUserRecord.key
          (changeTierInMasterUserRecord (exEnv 30) exPending "toolchain-host" exTier
            (exWorldWith exRecordAlready)).2.masterUserRecords
          ⟨"toolchain-host", "john"⟩).map (fun m => m.UserAccounts)
          = some exRecordAlready.UserAccounts
      ∧ (lookupKey MasterUserRecord.key
          (changeTierInMasterUserRecord (exEnv 30) exPending "toolchain-host" exTier
            (exWorldWith exRecordAlready)).2.masterUserRecords
          ⟨"toolchain-host", "john"⟩).map (fun m => m.TierName) = some "team" := by
  decide

/-- Claim C10, amended. For a stored record that the step reads: when a user account
matches the request (it has a template set and, when the request names a target cluster,
is on that cluster; whether or not the new template set differs from the one it has) and
the record is persisted (the hashes are computed and the update is accepted), the stored
record is the changed record and its top-level tier name is the tier name of the request;
when no user account matches, the stored records, and so the top-level tier name, are as
before, no update of the record is issued and the step returns "not processed" with an
error. -/
theorem changeTierInMasterUserRecord_tierName (env : Env) (ctr : ChangeTierRequest)
    (ns : String) (tier : NSTemplateTier) (w : World) (mur : MasterUserRecord)
    (hfault : env.faults (.getMasterUserRecord ⟨ns, ctr.spec.MurName⟩) = none)
    (hmur : lookupKey MasterUserRecord.key w.masterUserRecords ⟨ns, ctr.spec.MurName⟩
      = some mur) :
    (∀ labels,
        (∃ ua ∈ mur.UserAccounts, ua.NSTemplateSet ≠ none
          ∧ (ctr.spec.TargetCluster = "" ∨ ua.TargetCluster = ctr.spec.TargetCluster)) →
        computeHashLabels env
          (changeUserAccounts env ctr (env.NewNSTemplateSetSpec tier)
            mur.UserAccounts mur.Labels).1
          (changeUserAccounts env ctr (env.NewNSTemplateSetSpec tier)
            mur.UserAccounts mur.Labels).2.1 = .ok labels →
        env.faults (.updateMasterUserRecord (changedRecord env ctr tier mur labels)) = none →
        ∃ stored,
          lookupKey MasterUserRecord.key
              (changeTierInMasterUserRecord env ctr ns tier w).2.masterUserRecords
              ⟨ns, ctr.spec.MurName⟩ = some stored
            ∧ stored = changedRecord env ctr tier mur labels
            ∧ stored.TierName = ctr.spec.TierName)
      ∧ ((¬ ∃ ua ∈ mur.UserAccounts, ua.NSTemplateSet ≠ none
            ∧ (ctr.spec.TargetCluster = "" ∨ ua.TargetCluster = ctr.spec.TargetCluster)) →
          (changeTierInMasterUserRecord env ctr ns tier w).2.masterUserRecords
              = w.masterUserRecords
            ∧ lookupKey MasterUserRecord.key
                (changeTierInMasterUserRecord env ctr ns tier w).2.masterUserRecords
                ⟨ns, ctr.spec.MurName⟩ = some mur
            ∧ (∃ new, (changeTierInMasterUserRecord env ctr ns tier w).2.calls
                  = w.calls ++ .getMasterUserRecord ⟨ns, ctr.spec.MurName⟩ :: new
                ∧ ∀ c ∈ new, Call.onRequest c = true)
            ∧ (changeTierInMasterUserRecord env ctr ns tier w).1.2.1 = false
            ∧ (changeTierInMasterUserRecord env ctr ns tier w).1.2.2 ≠ none) := by
  have hiff := changeUserAccounts_flag_iff env ctr (env.NewNSTemplateSetSpec tier)
    mur.UserAccounts mur.Labels
  have hkey : mur.key = ⟨ns, ctr.spec.MurName⟩ := lookupKey_key MasterUserRecord.key _ _ _ hmur
  constructor
  · intro labels hmatch hh hup
    have hch := hiff.mpr hmatch
    have hkey2 : (changedRecord env ctr tier mur labels).key = ⟨ns, ctr.spec.MurName⟩ := hkey
    refine ⟨changedRecord env ctr tier mur labels, ?_, rfl, rfl⟩
    rw [changeTierInMasterUserRecord_updated env ctr ns tier w mur labels hfault hmur hch hh hup,
      resetDeactivating_records]
    show lookupKey MasterUserRecord.key
      (replaceKey MasterUserRecord.key w.masterUserRecords
        (changedRecord env ctr tier mur labels)) ⟨ns, ctr.spec.MurName⟩ = _
    rw [← hkey2]
    exact lookupKey_replaceKey MasterUserRecord.key _ _ mur (by rw [hkey2]; exact hmur)
  · intro hno
    have hch : (changeUserAccounts env ctr (env.NewNSTemplateSetSpec tier) mur.UserAccounts
        mur.Labels).2.2 = false := by
      rw [Bool.eq_false_iff]
      exact fun h => hno (hiff.mp h)
    have hR : changeTierInMasterUserRecord env ctr ns tier w
        = failWith env ctr
            (.other ("the MasterUserRecord '" ++ ctr.spec.MurName
              ++ "' doesn't contain UserAccount with cluster '"
              ++ ctr.spec.TargetCluster ++ "' whose tier should be changed"))
            ("unable to change tier in MasterUserRecord " ++ ctr.spec.MurName)
            (w.record (.getMasterUserRecord ⟨ns, ctr.spec.MurName⟩)) := by
      unfold changeTierInMasterUserRecord
      simp only [getMasterUserRecord, getOutcome, hfault, hmur, hch, if_true]
    rw [hR]
    obtain ⟨_, hm, _, _, new, hnew, hall⟩ := requestOnly_failWith env ctr
      (.other ("the MasterUserRecord '" ++ ctr.spec.MurName
        ++ "' doesn't contain UserAccount with cluster '"
        ++ ctr.spec.TargetCluster ++ "' whose tier should be changed"))
      ("unable to change tier in MasterUserRecord " ++ ctr.spec.MurName)
      (w.record (.getMasterUserRecord ⟨ns, ctr.spec.MurName⟩))
    refine ⟨hm, ?_, ⟨new, ?_, hall⟩, ?_, ?_⟩
    · rw [hm]
      exact hmur
    · rw [hnew]
      simp [World.record]
    · simp [failWith_result]
    · simp [failWith_result]

/-- Claim C10, amended, at the request for tier `team` on `member-2`: the record of `john`
is stored with the top-level tier `team`; the record without an account on `member-2` is
stored as it was, on tier `basic`. -/
theorem changeTierInMasterUserRecord_tierName_witness :
    (lookupKey MasterUserRecord.key
        (changeTierInMasterUserRecord (exEnv 30) exPending "toolchain-host" exTier
          (exWorld exPending)).2.masterUserRecords
        ⟨"toolchain-host", exPending.spec.MurName⟩).map (fun m => m.TierName)
      = some "team"
      ∧ (lookupKey MasterUserRecord.key
        (changeTierInMasterUserRecord (exEnv 30) exPending "toolchain-host" exTier
          exWorldNoMatch).2.masterUserRecords
        ⟨"toolchain-host", exPending.spec.MurName⟩).map (fun m => m.TierName)
      = some "basic" :=
  have ha := (changeTierInMasterUserRecord_tierName (exEnv 30) exPending "toolchain-host"
    exTier (exWorld exPending) exRecord rfl (by decide)).1
    [("toolchain.dev.openshift.com/team-tier-hash", "hash-of-team"),
     ("toolchain.dev.openshift.com/basic-tier-hash", "hash-of-basic"),
     ("toolchain.dev.openshift.com/owner", "john")]
    ⟨⟨"member-2", "default", some exBasicSet⟩, by decide, by decide, Or.inr rfl⟩ rfl rfl
  have hb := (changeTierInMasterUserRecord_tierName (exEnv 30) exPending "toolchain-host"
    exTier exWorldNoMatch exRecordNoMatch rfl (by decide)).2 (by decide)
  ⟨ha.elim fun stored hs => by rw [hs.1, Option.map_some', hs.2.2]; rfl,
    by rw [hb.2.1]; rfl⟩

end HostOperator
